import Mathlib

/-!
TBTK: the Chebyshev solver and its companions.

A shallow embedding of `ChebyshevSolver` (`Lib/include/Solvers/ChebyshevSolver.h`),
of the accessors of `Solver::Diagonalizer` (`Lib/include/TBTK/Solver/Diagonalizer.h`),
of the base `PropertyExtractor` (`Lib/src/PropertyExtractors/PropertyExtractor.cpp`),
of the constructors of `WignerSeitzCell` (`Lib/src/Uncategorized/WignerSeitzCell.cpp`)
and of `UnitHandler` (`Lib/src/Utilities/UnitHandler.cpp`).

Conventions of the embedding.

* `std::complex<double>` values are elements of a commutative ring `K`; `double`
  values are rationals, so comparisons and literals are exact.
* C++ `int` arguments are `Int`; loop counters derived from them are `Nat`.
  Where the code adds or multiplies offsets of type `int`, the result is
  reduced to 32 bits.
* Caller-owned output buffers (`std::complex<double> *`) are lists; a write at
  position `p` is `List.set`, so the rest of the buffer is kept. The damping
  mask, which the solver only reads through a non-owning pointer, is a function
  of the position.
* A member function that can fail returns the outcome together with the buffer
  or solver state it leaves behind. An exit of the program (`TBTKExit`,
  `TBTKAssert`) or an exception that nothing catches is an error result.
-/

namespace TBTK

/-- Modelled from the spec: a basis index (class `Index`, which is not among
the sources), an opaque multi-component identifier of one basis state. -/
abbrev Index := List Int

/-- Modelled from the spec: the error conditions with which a solver call
fails (the error paths are in the bodies that are not among the sources). -/
inductive Error where
  | InvalidArgument
  | PreconditionViolation
  | UnsupportedOperation
deriving DecidableEq, Repr

/-- Outcome of a member function returning `void`. -/
abbrev Outcome := Except Error Unit

/-- Modelled from the spec: the Hamiltonian collaborator (class `Model`, which
is not among the sources). It exposes the basis size `N`, the product of a
state vector with `H / scaleFactor`, and the basis position of an `Index`. -/
structure Hamiltonian (K : Type) where
  basisSize : Nat
  applyRescaled : (Fin basisSize → K) → (Fin basisSize → K)
  getBasisIndex : Index → Fin basisSize

namespace ChebyshevSolver

variable {K : Type} [CommRing K]

/-- Modelled from the spec: the seed vector `e_from` of the recursion (part of
`ChebyshevSolver::calculateCoefficients`, whose body is not among the sources). -/
def unitVector {N : Nat} (fromIndex : Fin N) : Fin N → K :=
  fun i => if i = fromIndex then 1 else 0

/-- Modelled from the spec: element-wise multiplication of the state vector by
the damping mask after a recursion step; a no-op when the mask is not set
(part of `ChebyshevSolver::calculateCoefficients`, whose body is not among the sources). -/
def applyDamping {N : Nat} (damping : Option (Nat → K)) (v : Fin N → K) :
    Fin N → K :=
  match damping with
  | none => v
  | some mask => fun i => v i * mask i.val

/-- Modelled from the spec: one recursion step
`v_n = 2·H_scaled·v_{n-1} - v_{n-2}` followed by the damping mask (part of
`ChebyshevSolver::calculateCoefficients`, whose body is not among the sources). -/
def recursionStep (H : Hamiltonian K) (damping : Option (Nat → K))
    (vPrev2 vPrev1 : Fin H.basisSize → K) : Fin H.basisSize → K :=
  applyDamping damping (fun i => 2 * H.applyRescaled vPrev1 i - vPrev2 i)

/-- Modelled from the spec: after step `n`, for every requested `to` index
(the `j`-th of the list, starting at `j`), store the `to`-th entry of `v_n` as
coefficient `n` of that index's sequence. The sequences lie one after the
other in the buffer, `numCoefficients` entries each (part of
`ChebyshevSolver::calculateCoefficients`, whose body is not among the sources). -/
def recordCoefficients (H : Hamiltonian K) (numCoefficients n : Nat)
    (v : Fin H.basisSize → K) : Nat → List Index → List K → List K
  | _, [], coefficients => coefficients
  | j, t :: ts, coefficients =>
    recordCoefficients H numCoefficients n v (j + 1) ts
      (coefficients.set (j * numCoefficients + n) (v (H.getBasisIndex t)))

/-- Modelled from the spec: the strictly sequential loop over `n ≥ 2`; `steps`
counts the steps still to run, `vPrev2` and `vPrev1` hold `v_{n-2}` and
`v_{n-1}` (part of `ChebyshevSolver::calculateCoefficients`, whose body is not
among the sources). -/
def recursionLoop (H : Hamiltonian K) (damping : Option (Nat → K))
    (toIndices : List Index) (numCoefficients : Nat) :
    Nat → Nat → (Fin H.basisSize → K) → (Fin H.basisSize → K) → List K → List K
  | 0, _, _, _, coefficients => coefficients
  | steps + 1, n, vPrev2, vPrev1, coefficients =>
    let vn := recursionStep H damping vPrev2 vPrev1
    recursionLoop H damping toIndices numCoefficients steps (n + 1) vPrev1 vn
      (recordCoefficients H numCoefficients n vn 0 toIndices coefficients)

/-- Modelled from the spec: the convolution of the coefficients that the
parameter `broadening` of `ChebyshevSolver::calculateCoefficients` stands for
(ChebyshevSolver.h documents it as the broadening to use in the convolution of
the coefficients, and no other member function takes or stores a broadening;
the body is not among the sources). Coefficient `n` of each of the `sequences`
sequences in the buffer is multiplied by the damping factor `factor n` of the
convolution kernel; the rest of the buffer is kept. -/
def convolveCoefficients (factor : Nat → K) (numCoefficients sequences : Nat)
    (coefficients : List K) : List K :=
  coefficients.mapIdx fun position value =>
    if position < sequences * numCoefficients then factor (position % numCoefficients) * value
    else value

/-- Modelled from the spec: `ChebyshevSolver::calculateCoefficients` (declared
in ChebyshevSolver.h; its body is not among the sources). The solver's model and damping
mask are passed explicitly. `numCoefficients < 2` is rejected before anything
is written; otherwise `v_0 = e_from` and `v_1 = H_scaled·v_0` are seeded, the
recursion runs up to `numCoefficients - 1`, and the coefficients are convolved
with the kernel of the broadening. The closed form of the kernel is not among
the sources: `convolution broadening numCoefficients n` is its damping factor
for coefficient `n`. -/
def calculateCoefficients (convolution : ℚ → Nat → Nat → K) (H : Hamiltonian K)
    (damping : Option (Nat → K)) (toIndices : List Index) (fromIndex : Index)
    (coefficients : List K) (numCoefficients : Int) (broadening : ℚ) :
    Outcome × List K :=
  if numCoefficients < 2 then
    (Except.error Error.InvalidArgument, coefficients)
  else
    let count := numCoefficients.toNat
    let v0 : Fin H.basisSize → K := unitVector (H.getBasisIndex fromIndex)
    let c0 := recordCoefficients H count 0 v0 0 toIndices coefficients
    let v1 := applyDamping damping (H.applyRescaled v0)
    let c1 := recordCoefficients H count 1 v1 0 toIndices c0
    (Except.ok (),
      convolveCoefficients (convolution broadening count) count toIndices.length
        (recursionLoop H damping toIndices count (count - 2) 2 v0 v1 c1))

end ChebyshevSolver

/-- The type of Green's function to generate (`ChebyshevSolver::GreensFunctionType`). -/
inductive GreensFunctionType where
  | Advanced
  | Retarded
  | Principal
  | NonPrincipal
deriving DecidableEq, Repr

/-- Modelled from the spec: the numerical kernel of the reconstruction, whose
closed form is not among the sources and is not given by the spec.
`generatingFunction scaleFactor lowerBound upperBound energyResolution n k` is
the Chebyshev generating-function value for coefficient index `n` at the `k`-th
of `energyResolution` grid points linearly spaced in `[lowerBound, upperBound]`;
`continuation type` is the analytic continuation the kernel variant selects. -/
structure Kernel (K : Type) where
  generatingFunction : ℚ → ℚ → ℚ → Nat → Nat → Nat → K
  continuation : GreensFunctionType → K → K

/-- The lookup table behind `generatingFunctionLookupTable`: `numCoefficients`
rows of `energyResolution` generating-function values. The bounds the table
was computed for are kept with it; the C++ object stores only the two
dimensions, in `lookupTableNumCoefficients` and `lookupTableResolution`. -/
structure LookupTable (K : Type) where
  values : List (List K)
  lowerBound : ℚ
  upperBound : ℚ

/-- The private fields of `ChebyshevSolver` (ChebyshevSolver.h, lines 268-294).
A `NULL` pointer is `none`. -/
structure ChebyshevSolver (K : Type) where
  model : Option (Hamiltonian K)
  scaleFactor : ℚ
  damping : Option (Nat → K)
  generatingFunctionLookupTable : Option (LookupTable K)
  generatingFunctionLookupTable_device : Option (LookupTable K)
  lookupTableNumCoefficients : Int
  lookupTableResolution : Int
  isTalkative : Bool

namespace ChebyshevSolver

variable {K : Type} [CommRing K]

/-- Modelled from the spec: the constructor `ChebyshevSolver::ChebyshevSolver`
(declared in ChebyshevSolver.h; its body is not among the sources). No model,
no damping mask and no lookup table on host or device; the scale factor has
the default value 1 named in the header. The spec leaves the initial table dimensions and
talkative flag open; they are zero and `false` here. -/
def construct : ChebyshevSolver K where
  model := none
  scaleFactor := 1
  damping := none
  generatingFunctionLookupTable := none
  generatingFunctionLookupTable_device := none
  lookupTableNumCoefficients := 0
  lookupTableResolution := 0
  isTalkative := false

/-- Modelled from the spec: `ChebyshevSolver::setModel` (declared in
ChebyshevSolver.h; its body is not among the sources): set the model to work on. -/
def setModel (solver : ChebyshevSolver K) (model : Option (Hamiltonian K)) :
    ChebyshevSolver K :=
  { solver with model := model }

/-- `ChebyshevSolver::getModel`. -/
def getModel (solver : ChebyshevSolver K) :
    Option (Hamiltonian K) × ChebyshevSolver K :=
  (solver.model, solver)

/-- `ChebyshevSolver::setScaleFactor`. -/
def setScaleFactor (solver : ChebyshevSolver K) (scaleFactor : ℚ) :
    ChebyshevSolver K :=
  { solver with scaleFactor := scaleFactor }

/-- `ChebyshevSolver::getScaleFactor`. -/
def getScaleFactor (solver : ChebyshevSolver K) : ℚ × ChebyshevSolver K :=
  (solver.scaleFactor, solver)

/-- `ChebyshevSolver::getLookupTableIsGenerated`. The member function is not
`const`, so the solver it leaves behind is returned with the answer. -/
def getLookupTableIsGenerated (solver : ChebyshevSolver K) :
    Bool × ChebyshevSolver K :=
  match solver.generatingFunctionLookupTable with
  | some _ => (true, solver)
  | none => (false, solver)

/-- `ChebyshevSolver::getLookupTableIsLoadedGPU`. -/
def getLookupTableIsLoadedGPU (solver : ChebyshevSolver K) :
    Bool × ChebyshevSolver K :=
  match solver.generatingFunctionLookupTable_device with
  | some _ => (true, solver)
  | none => (false, solver)

/-- `ChebyshevSolver::setDamping`. -/
def setDamping (solver : ChebyshevSolver K) (damping : Option (Nat → K)) :
    ChebyshevSolver K :=
  { solver with damping := damping }

/-- `ChebyshevSolver::setTalkative`. -/
def setTalkative (solver : ChebyshevSolver K) (isTalkative : Bool) :
    ChebyshevSolver K :=
  { solver with isTalkative := isTalkative }

/-- Modelled from the spec: the bounds check shared by
`ChebyshevSolver::generateLookupTable` and the direct
`ChebyshevSolver::generateGreensFunction` (bodies not among the sources): the energy
window has to lie inside `[-scaleFactor, scaleFactor]`. -/
def boundsRejected (solver : ChebyshevSolver K) (lowerBound upperBound : ℚ) : Bool :=
  decide (lowerBound < -solver.scaleFactor) || decide (upperBound > solver.scaleFactor)

/-- Modelled from the spec: the values of a lookup table, one row per
coefficient index `n` and one column per energy grid point `k` (part of
`ChebyshevSolver::generateLookupTable`, whose body is not among the sources). -/
def lookupTableValues (kernel : Kernel K) (scaleFactor lowerBound upperBound : ℚ)
    (numCoefficients energyResolution : Nat) : List (List K) :=
  (List.range numCoefficients).map fun n =>
    (List.range energyResolution).map fun k =>
      kernel.generatingFunction scaleFactor lowerBound upperBound energyResolution n k

/-- Modelled from the spec: `ChebyshevSolver::generateLookupTable` (declared in
ChebyshevSolver.h; its body is not among the sources). Bounds outside
`[-scaleFactor, scaleFactor]` are rejected with `InvalidArgument` and leave the
solver as it was; otherwise the table is computed and replaces any previously
generated one. -/
def generateLookupTable (kernel : Kernel K) (solver : ChebyshevSolver K)
    (numCoefficients energyResolution : Int) (lowerBound upperBound : ℚ) :
    Outcome × ChebyshevSolver K :=
  if boundsRejected solver lowerBound upperBound then
    (Except.error Error.InvalidArgument, solver)
  else
    (Except.ok (),
      { solver with
        generatingFunctionLookupTable := some
          { values := lookupTableValues kernel solver.scaleFactor lowerBound upperBound
              numCoefficients.toNat energyResolution.toNat
            lowerBound := lowerBound
            upperBound := upperBound }
        lookupTableNumCoefficients := numCoefficients
        lookupTableResolution := energyResolution })

/-- Modelled from the spec: `ChebyshevSolver::destroyLookupTable` (declared in
ChebyshevSolver.h; its body is not among the sources): release the host table; a no-op
if nothing was generated. -/
def destroyLookupTable (solver : ChebyshevSolver K) : ChebyshevSolver K :=
  { solver with generatingFunctionLookupTable := none }

/-- Modelled from the spec: `ChebyshevSolver::loadLookupTableGPU` (declared in
ChebyshevSolver.h; its body is not among the sources). Whether the build and
the hardware offer a device to the call is the argument `deviceAvailable`:
without a device the execution path is not available and the call fails with
`UnsupportedOperation`. With a device the current host table is copied to the
device; without a generated host table the call fails with
`PreconditionViolation`. A call that fails leaves the solver as it was. -/
def loadLookupTableGPU (deviceAvailable : Bool) (solver : ChebyshevSolver K) :
    Outcome × ChebyshevSolver K :=
  if deviceAvailable then
    match solver.generatingFunctionLookupTable with
    | none => (Except.error Error.PreconditionViolation, solver)
    | some table =>
      (Except.ok (), { solver with generatingFunctionLookupTable_device := some table })
  else (Except.error Error.UnsupportedOperation, solver)

/-- Modelled from the spec: `ChebyshevSolver::destroyLookupTableGPU` (declared
in ChebyshevSolver.h; its body is not among the sources): release the device
copy only. -/
def destroyLookupTableGPU (solver : ChebyshevSolver K) : ChebyshevSolver K :=
  { solver with generatingFunctionLookupTable_device := none }

/-- Modelled from the spec: one energy sample, the sum over the coefficient
index `n` of the coefficient times the (continued) generating-function value
(part of `ChebyshevSolver::generateGreensFunction`, whose body is not among
the sources). `value n` is the generating-function value for index `n` at the
energy of the sample. -/
def energySample (kernel : Kernel K) (type : GreensFunctionType)
    (coefficients : List K) (numCoefficients : Nat) (value : Nat → K) : K :=
  ((List.range numCoefficients).map fun n =>
    coefficients.getD n 0 * kernel.continuation type (value n)).sum

/-- Modelled from the spec: store the samples in the first positions of the
caller's Green's-function buffer (part of
`ChebyshevSolver::generateGreensFunction`, whose body is not among the sources). -/
def writeSamples (greensFunction samples : List K) : List K :=
  samples ++ greensFunction.drop samples.length

/-- Modelled from the spec: the direct `ChebyshevSolver::generateGreensFunction`
(declared in ChebyshevSolver.h; its body is not among the sources): after the bounds
check, the generating-function value is recomputed inline for each energy
sample while summing over the coefficients. -/
def generateGreensFunction (kernel : Kernel K) (solver : ChebyshevSolver K)
    (greensFunction coefficients : List K) (numCoefficients energyResolution : Int)
    (lowerBound upperBound : ℚ) (type : GreensFunctionType) : Outcome × List K :=
  if boundsRejected solver lowerBound upperBound then
    (Except.error Error.InvalidArgument, greensFunction)
  else
    (Except.ok (),
      writeSamples greensFunction
        ((List.range energyResolution.toNat).map fun k =>
          energySample kernel type coefficients numCoefficients.toNat fun n =>
            kernel.generatingFunction solver.scaleFactor lowerBound upperBound
              energyResolution.toNat n k))

/-- Modelled from the spec: the table-driven overload
`ChebyshevSolver::generateGreensFunction(greensFunction, coefficients, type)`
(declared in ChebyshevSolver.h; its body is not among the sources). It needs a generated
host table, else it fails with `PreconditionViolation` before writing; the
number of coefficients and the energy resolution are those of the table. A
position outside the table reads as zero. -/
def generateGreensFunctionFromTable (kernel : Kernel K) (solver : ChebyshevSolver K)
    (greensFunction coefficients : List K) (type : GreensFunctionType) :
    Outcome × List K :=
  match solver.generatingFunctionLookupTable with
  | none => (Except.error Error.PreconditionViolation, greensFunction)
  | some table =>
    (Except.ok (),
      writeSamples greensFunction
        ((List.range solver.lookupTableResolution.toNat).map fun k =>
          energySample kernel type coefficients solver.lookupTableNumCoefficients.toNat
            fun n => (table.values.getD n []).getD k 0))

/-- A call of a public member function that acts on the solver object. The
member functions that only read the solver and write caller-owned buffers
(`calculateCoefficients`, `generateGreensFunction`) are functions of the
solver above and are not listed. -/
inductive Op (K : Type) where
  | setModel (model : Option (Hamiltonian K))
  | getModel
  | setScaleFactor (scaleFactor : ℚ)
  | getScaleFactor
  | generateLookupTable (numCoefficients energyResolution : Int) (lowerBound upperBound : ℚ)
  | destroyLookupTable
  | getLookupTableIsGenerated
  | loadLookupTableGPU (deviceAvailable : Bool)
  | destroyLookupTableGPU
  | getLookupTableIsLoadedGPU
  | setDamping (damping : Option (Nat → K))
  | setTalkative (isTalkative : Bool)

/-- The outcome of one call and the solver it leaves behind. -/
def step (kernel : Kernel K) (solver : ChebyshevSolver K) :
    Op K → Outcome × ChebyshevSolver K
  | Op.setModel model => (Except.ok (), solver.setModel model)
  | Op.getModel => (Except.ok (), solver.getModel.2)
  | Op.setScaleFactor scaleFactor => (Except.ok (), solver.setScaleFactor scaleFactor)
  | Op.getScaleFactor => (Except.ok (), solver.getScaleFactor.2)
  | Op.generateLookupTable numCoefficients energyResolution lowerBound upperBound =>
    solver.generateLookupTable kernel numCoefficients energyResolution lowerBound upperBound
  | Op.destroyLookupTable => (Except.ok (), solver.destroyLookupTable)
  | Op.getLookupTableIsGenerated => (Except.ok (), solver.getLookupTableIsGenerated.2)
  | Op.loadLookupTableGPU deviceAvailable => solver.loadLookupTableGPU deviceAvailable
  | Op.destroyLookupTableGPU => (Except.ok (), solver.destroyLookupTableGPU)
  | Op.getLookupTableIsLoadedGPU => (Except.ok (), solver.getLookupTableIsLoadedGPU.2)
  | Op.setDamping damping => (Except.ok (), solver.setDamping damping)
  | Op.setTalkative isTalkative => (Except.ok (), solver.setTalkative isTalkative)

/-- The solver after a sequence of calls, in order; a call that fails leaves
the solver as it was and the sequence goes on. -/
def run (kernel : Kernel K) (solver : ChebyshevSolver K) (ops : List (Op K)) :
    ChebyshevSolver K :=
  ops.foldl (fun s op => (step kernel s op).2) solver

/-- The bounds invariant of the data model: when a lookup table is generated,
its bounds lie inside `[-scaleFactor, scaleFactor]` for the solver's current
scale factor. -/
def tableBoundsValid (solver : ChebyshevSolver K) : Prop :=
  match solver.generatingFunctionLookupTable with
  | none => True
  | some table =>
    -solver.scaleFactor ≤ table.lowerBound ∧ table.upperBound ≤ solver.scaleFactor

/-- A call that respects the generated table: `setScaleFactor` may only be
given a scale factor that still covers the bounds of the table, if one is
generated. Every other call qualifies. -/
def respectsTableBounds (solver : ChebyshevSolver K) : Op K → Prop
  | Op.setScaleFactor scaleFactor =>
    match solver.generatingFunctionLookupTable with
    | none => True
    | some table => -scaleFactor ≤ table.lowerBound ∧ table.upperBound ≤ scaleFactor
  | _ => True

/-- Every call of the sequence respects the table generated at the time of the
call. -/
def runRespectsTableBounds (kernel : Kernel K) :
    ChebyshevSolver K → List (Op K) → Prop
  | _, [] => True
  | solver, op :: ops =>
    respectsTableBounds solver op ∧ runRespectsTableBounds kernel (step kernel solver op).2 ops

/-- A successful `generateLookupTable` has occurred in the sequence of calls
and no `destroyLookupTable` has occurred after it. -/
def generatedAndNotDestroyed (kernel : Kernel K) (solver : ChebyshevSolver K)
    (ops : List (Op K)) : Prop :=
  ∃ (before after : List (Op K)) (numCoefficients energyResolution : Int)
    (lowerBound upperBound : ℚ),
    ops = before ++
      Op.generateLookupTable numCoefficients energyResolution lowerBound upperBound :: after ∧
    (step kernel (run kernel solver before)
      (Op.generateLookupTable numCoefficients energyResolution lowerBound upperBound)).1
        = Except.ok () ∧
    Op.destroyLookupTable ∉ after

/-- A call that leaves the generated lookup table in place: every call other
than `generateLookupTable`, which replaces the table, and `destroyLookupTable`,
which releases it. -/
def keepsLookupTable : Op K → Prop
  | Op.generateLookupTable _ _ _ _ => False
  | Op.destroyLookupTable => False
  | _ => True

end ChebyshevSolver

namespace ChebyshevSolver

variable {K : Type} [CommRing K]

/-- Modelled from the spec: `ChebyshevSolver::getMonolopoulosABCDamping`
(declared in ChebyshevSolver.h; its body is not among the sources). It
returns `exp(-gamma)`: gamma is infinite outside the edge, where the factor is
0; gamma is 0 in the interior, where the factor is 1; inside the boundary
region the factor follows the potential of J. Chem. Phys. 117, 9552 (2002),
whose closed form is the parameter `boundaryDamping`. -/
def getMonolopoulosABCDamping (boundaryDamping : ℚ → ℚ → ℚ → ℚ → K)
    (distanceToEdge boundarySize e c : ℚ) : K :=
  if distanceToEdge < 0 then 0
  else if distanceToEdge < boundarySize then boundaryDamping distanceToEdge boundarySize e c
  else 1

end ChebyshevSolver

/-! ## The diagonalizing solver (`TBTK/Solver/Diagonalizer.h`) -/

/-- The state of `Solver::Diagonalizer`: the model of the base class `Solver`
and the private fields of Diagonalizer.h, lines 126-136. The three arrays are
read through pointers, so each is a function of the offset from the pointer.
The self-consistency callback, a function pointer that no accessor reads, is
not represented. -/
structure Diagonalizer (K : Type) where
  model : Hamiltonian K
  hamiltonian : Int → K
  eigenValues : Int → ℚ
  eigenVectors : Int → K
  maxIterations : Int

namespace Diagonalizer

variable {K : Type}

/-- `Diagonalizer::setMaxIterations`. -/
def setMaxIterations (diagonalizer : Diagonalizer K) (maxIterations : Int) : Diagonalizer K :=
  { diagonalizer with maxIterations := maxIterations }

/-- `Diagonalizer::getEigenValues`. -/
def getEigenValues (diagonalizer : Diagonalizer K) : Int → ℚ :=
  diagonalizer.eigenValues

/-- `Diagonalizer::getEigenVectors`. -/
def getEigenVectors (diagonalizer : Diagonalizer K) : Int → K :=
  diagonalizer.eigenVectors

/-- `Diagonalizer::getAmplitude`. The product and the sum are those of C++
`int`, taken without overflow. -/
def getAmplitude (diagonalizer : Diagonalizer K) (state : Int) (index : Index) : K :=
  diagonalizer.eigenVectors
    ((diagonalizer.model.basisSize : Int) * state
      + ((diagonalizer.model.getBasisIndex index).val : Int))

/-- `Diagonalizer::getEigenValue`. -/
def getEigenValue (diagonalizer : Diagonalizer K) (state : Int) : ℚ :=
  diagonalizer.eigenValues state

/-- The layout documented for `getEigenVectors`: the eigenvectors are stored
successively, eigenvector `n` occupying the `basisSize` positions that start at
`basisSize * n`. This is eigenvector `n` read off that layout. -/
def eigenVector (diagonalizer : Diagonalizer K) (n : Int) : List K :=
  (List.range diagonalizer.model.basisSize).map fun (component : Nat) =>
    diagonalizer.getEigenVectors
      ((diagonalizer.model.basisSize : Int) * n + (component : Int))

end Diagonalizer

/-! ## Error exits -/

/-- The ways in which a call ends the program instead of returning: the exit
of the macros `TBTKExit` and `TBTKAssert`, recorded with the function name
and the message it prints, and the exception of a range-checked `at()`. -/
inductive Failure where
  | exit (function message : String)
  | outOfRange
deriving DecidableEq, Repr

/-- Modelled from the spec: the macro `TBTKExit(function, message, hint)`
(TBTKMacros.h is not among the sources): print the message and end the
program. The hint is not recorded. -/
def TBTKExit {α : Type} (function message : String) : Except Failure α :=
  Except.error (Failure.exit function message)

/-- Modelled from the spec: the macro
`TBTKAssert(expression, function, message, hint)` (TBTKMacros.h is not among
the sources): exit as `TBTKExit` does unless the expression holds. -/
def TBTKAssert (expression : Bool) (function message : String) : Except Failure Unit :=
  if expression then Except.ok () else TBTKExit function message

/-- Modelled from the spec: the range-checked `Index::at` (class `Index` is
not among the sources), which throws when the position is not a component of
the index. -/
def Index.at (index : Index) (n : Nat) : Except Failure Int :=
  match index[n]? with
  | some value => Except.ok value
  | none => Except.error Failure.outOfRange

/-! ## The base property extractor (`PropertyExtractors/PropertyExtractor.cpp`) -/

/-- The energy window held by a `PropertyExtractor`, the fields written by its
constructor and by `setEnergyWindow`. -/
structure PropertyExtractor where
  energyResolution : Int
  lowerBound : ℚ
  upperBound : ℚ

namespace PropertyExtractor

/-- `PropertyExtractor::PropertyExtractor`. The constants `ENERGY_RESOLUTION`,
`LOWER_BOUND` and `UPPER_BOUND` of the header, which is not among the sources,
are parameters. -/
def construct (ENERGY_RESOLUTION : Int) (LOWER_BOUND UPPER_BOUND : ℚ) : PropertyExtractor where
  energyResolution := ENERGY_RESOLUTION
  lowerBound := LOWER_BOUND
  upperBound := UPPER_BOUND

/-- `PropertyExtractor::setEnergyWindow`. -/
def setEnergyWindow (_extractor : PropertyExtractor) (lowerBound upperBound : ℚ)
    (energyResolution : Int) : PropertyExtractor where
  energyResolution := energyResolution
  lowerBound := lowerBound
  upperBound := upperBound

/-- `PropertyExtractor::calculateDensity`. The result type stands for
`Property::Density*`. -/
def calculateDensity {Density : Type} (_extractor : PropertyExtractor)
    (_pattern _ranges : Index) : Except Failure Density :=
  TBTKExit "PropertyExtractor::calculateDensity()"
    "The chosen property extractor does not support this function call."

/-- `PropertyExtractor::calculateMagnetization`. -/
def calculateMagnetization {Magnetization : Type} (_extractor : PropertyExtractor)
    (_pattern _ranges : Index) : Except Failure Magnetization :=
  TBTKExit "PropertyExtractor::calculateMagnetization()"
    "The chosen property extractor does not support this function call."

/-- `PropertyExtractor::calculateLDOS`. -/
def calculateLDOS {LDOS : Type} (_extractor : PropertyExtractor)
    (_pattern _ranges : Index) : Except Failure LDOS :=
  TBTKExit "PropertyExtractor::calculateLDOS()"
    "The chosen property extractor does not support this function call."

/-- `PropertyExtractor::calculateSpinPolarizedLDOS`. -/
def calculateSpinPolarizedLDOS {SpinPolarizedLDOS : Type} (_extractor : PropertyExtractor)
    (_pattern _ranges : Index) : Except Failure SpinPolarizedLDOS :=
  TBTKExit "PropertyExtractor::calculateSpinPolarizedLDOS()"
    "The chosen property extractor does not support this function call."

/-- `PropertyExtractor::calculateExpectationValue`. The result type stands for
`complex<double>`. -/
def calculateExpectationValue {K : Type} (_extractor : PropertyExtractor)
    (_toIndex _fromIndex : Index) : Except Failure K :=
  TBTKExit "PropertyExtractor::calculateExpectationValue()"
    "The chosen property extractor does not support this function call."

/-- `PropertyExtractor::calculateDOS`. -/
def calculateDOS {DOS : Type} (_extractor : PropertyExtractor) : Except Failure DOS :=
  TBTKExit "PropertyExtractor::calculateDOS()"
    "The chosen property extractor does not support this function call."

/-- The loop of `PropertyExtractor::ensureCompliantRanges` from position `n`
on; the list holds the components `pattern.at(n)`, `pattern.at(n + 1)`, ... of
the pattern. A non-negative component makes `ranges.at(n) = 1`, which throws
when `ranges` has no position `n`. -/
def ensureCompliantRangesFrom : Nat → List Int → Index → Except Failure Unit × Index
  | _, [], ranges => (Except.ok (), ranges)
  | n, component :: rest, ranges =>
    if component ≥ 0 then
      if n < ranges.length then ensureCompliantRangesFrom (n + 1) rest (ranges.set n 1)
      else (Except.error Failure.outOfRange, ranges)
    else ensureCompliantRangesFrom (n + 1) rest ranges

/-- `PropertyExtractor::ensureCompliantRanges`: the outcome and the `ranges`
it leaves behind. -/
def ensureCompliantRanges (pattern ranges : Index) : Except Failure Unit × Index :=
  ensureCompliantRangesFrom 0 pattern ranges

/-- The first loop of `PropertyExtractor::getLoopRanges` over the positions
`n` listed: count the positions with `pattern.at(n) < IDX_SUM_ALL`. -/
def countLoopDimensions (IDX_SUM_ALL : Int) (pattern : Index) :
    List Nat → Int → Except Failure Int
  | [], lDimensions => Except.ok lDimensions
  | n :: rest, lDimensions =>
    match Index.at pattern n with
    | Except.error failure => Except.error failure
    | Except.ok component =>
      countLoopDimensions IDX_SUM_ALL pattern rest
        (if component < IDX_SUM_ALL then lDimensions + 1 else lDimensions)

/-- The second loop of `PropertyExtractor::getLoopRanges` over the positions
`n` listed: store `ranges.at(n)` at the next free place of `lRanges` where
`pattern.at(n) < IDX_SUM_ALL`. The places filled so far are the list. -/
def collectLoopRanges (IDX_SUM_ALL : Int) (pattern ranges : Index) :
    List Nat → List Int → Except Failure (List Int)
  | [], lRanges => Except.ok lRanges
  | n :: rest, lRanges =>
    match Index.at pattern n with
    | Except.error failure => Except.error failure
    | Except.ok component =>
      if component < IDX_SUM_ALL then
        match Index.at ranges n with
        | Except.error failure => Except.error failure
        | Except.ok range =>
          collectLoopRanges IDX_SUM_ALL pattern ranges rest (lRanges ++ [range])
      else collectLoopRanges IDX_SUM_ALL pattern ranges rest lRanges

/-- `PropertyExtractor::getLoopRanges`: the values left in `*lDimensions` and
`*lRanges`. The constant `IDX_SUM_ALL` of the header of `Index`, which is not
among the sources, is a parameter. -/
def getLoopRanges (IDX_SUM_ALL : Int) (pattern ranges : Index) :
    Except Failure (Int × List Int) :=
  match countLoopDimensions IDX_SUM_ALL pattern (List.range ranges.length) 0 with
  | Except.error failure => Except.error failure
  | Except.ok lDimensions =>
    match collectLoopRanges IDX_SUM_ALL pattern ranges (List.range ranges.length) [] with
    | Except.error failure => Except.error failure
    | Except.ok lRanges => Except.ok (lDimensions, lRanges)

end PropertyExtractor

/-! ## The Wigner-Seitz cell (`Uncategorized/WignerSeitzCell.cpp`) -/

/-- The fields the constructors of `WignerSeitzCell` write. A `Vector3d` is the
list of its three components; doubles are rationals. -/
structure WignerSeitzCell where
  dimensions : Nat
  basisVectors : List (List ℚ)

namespace WignerSeitzCell

/-- The vector handed to `Vector3d`: the first `dimensions` components of the
basis vector, filled up with zeros to three components. -/
def paddedBasisVector (dimensions : Nat) (component : Nat → ℚ) : List ℚ :=
  (List.range dimensions).map component
    ++ (List.range' dimensions (3 - dimensions)).map fun _ => 0

/-- The last loop of both constructors: for `n` from `dimensions` up to 2 the
unit vector along axis `n` completes the basis. -/
def completion (dimensions : Nat) : List (List ℚ) :=
  (List.range' dimensions (3 - dimensions)).map fun n =>
    (List.range 3).map fun c => if c = n then 1 else 0

/-- The loop over the basis vectors in the initializer-list constructor, for
the positions `n` listed: each vector has to have `dimensions` components and
is stored padded. Components are read through iterators, without a range
check. -/
def padInitializerList (dimensions : Nat) (basisVectors : List (List ℚ)) :
    List Nat → List (List ℚ) → Except Failure (List (List ℚ))
  | [], stored => Except.ok stored
  | n :: rest, stored =>
    match TBTKAssert (decide ((basisVectors.getD n []).length = dimensions))
        "WignerSeitzCell::WignerSeitzCell()" "Incompatible dimensions." with
    | Except.error failure => Except.error failure
    | Except.ok _ =>
      padInitializerList dimensions basisVectors rest
        (stored ++ [paddedBasisVector dimensions fun c => (basisVectors.getD n []).getD c 0])

/-- `WignerSeitzCell::WignerSeitzCell(initializer_list<initializer_list<double>>)`. -/
def ofInitializerList (basisVectors : List (List ℚ)) : Except Failure WignerSeitzCell :=
  let dimensions := basisVectors.length
  match TBTKAssert (decide (dimensions = 1) || decide (dimensions = 2) || decide (dimensions = 3))
      "WignerSeitzCell::WignerSeitzCell()" "Basis dimension not supported." with
  | Except.error failure => Except.error failure
  | Except.ok _ =>
    match padInitializerList dimensions basisVectors (List.range dimensions) [] with
    | Except.error failure => Except.error failure
    | Except.ok stored =>
      Except.ok { dimensions := dimensions, basisVectors := stored ++ completion dimensions }

/-- The range-checked `vector::at` on the vector of basis vectors. -/
def vectorAt {α : Type} (elements : List α) (n : Nat) : Except Failure α :=
  match elements[n]? with
  | some element => Except.ok element
  | none => Except.error Failure.outOfRange

/-- The components `basisVectors.at(n).at(c)` for the positions `c` listed. -/
def componentsAt (basisVector : List ℚ) : List Nat → Except Failure (List ℚ)
  | [] => Except.ok []
  | c :: rest =>
    match vectorAt basisVector c with
    | Except.error failure => Except.error failure
    | Except.ok component =>
      match componentsAt basisVector rest with
      | Except.error failure => Except.error failure
      | Except.ok components => Except.ok (component :: components)

/-- The loop over the basis vectors in the vector constructor, for the
positions `n` listed; every access is a range-checked `at()`. -/
def padVector (dimensions : Nat) (basisVectors : List (List ℚ)) :
    List Nat → List (List ℚ) → Except Failure (List (List ℚ))
  | [], stored => Except.ok stored
  | n :: rest, stored =>
    match vectorAt basisVectors n with
    | Except.error failure => Except.error failure
    | Except.ok basisVector =>
      match TBTKAssert (decide (basisVector.length = dimensions))
          "WignerSeitzCell::WignerSeitzCell()" "Incompatible dimensions." with
      | Except.error failure => Except.error failure
      | Except.ok _ =>
        match componentsAt basisVector (List.range dimensions) with
        | Except.error failure => Except.error failure
        | Except.ok components =>
          padVector dimensions basisVectors rest
            (stored ++ [components ++ (List.range' dimensions (3 - dimensions)).map fun _ => 0])

/-- `WignerSeitzCell::WignerSeitzCell(const vector<vector<double>>&)`. -/
def ofVector (basisVectors : List (List ℚ)) : Except Failure WignerSeitzCell :=
  let dimensions := basisVectors.length
  match TBTKAssert (decide (dimensions = 1) || decide (dimensions = 2) || decide (dimensions = 3))
      "WignerSeitzCell::WignerSeitzCell()" "Basis dimension not supported." with
  | Except.error failure => Except.error failure
  | Except.ok _ =>
    match padVector dimensions basisVectors (List.range dimensions) [] with
    | Except.error failure => Except.error failure
    | Except.ok stored =>
      Except.ok { dimensions := dimensions, basisVectors := stored ++ completion dimensions }

end WignerSeitzCell

/-! ## Units (`Utilities/UnitHandler.cpp`) -/

namespace UnitHandler

/-- `UnitHandler::TemperatureUnit`, with the units that the switch of
`getTemperatureConversionFactor` lists. -/
inductive TemperatureUnit where
  | kK | K | mK | uK | nK
deriving DecidableEq, Repr

/-- `UnitHandler::TimeUnit`. -/
inductive TimeUnit where
  | s | ms | us | ns | ps | fs | as
deriving DecidableEq, Repr

/-- `UnitHandler::LengthUnit`. -/
inductive LengthUnit where
  | m | mm | um | nm | pm | fm | am | Ao
deriving DecidableEq, Repr

/-- `UnitHandler::EnergyUnit`. -/
inductive EnergyUnit where
  | GeV | MeV | keV | eV | meV | ueV | J
deriving DecidableEq, Repr

/-- `UnitHandler::ChargeUnit`. -/
inductive ChargeUnit where
  | kC | C | mC | uC | nC | pC | fC | aC | Te | Ge | Me | ke | e
deriving DecidableEq, Repr

/-- `UnitHandler::CountUnit`. -/
inductive CountUnit where
  | pcs | mol
deriving DecidableEq, Repr

/-- Reading `table[key]` of a `std::map`: the value stored under the key, or
the default-constructed value when the key is absent. -/
def mapGet {V : Type} (fallback : V) (table : List (String × V)) (key : String) : V :=
  match table.find? fun entry => entry.1 == key with
  | some entry => entry.2
  | none => fallback

/-- The assignment `table[key] = value` of a `std::map`: the entry of the key
is replaced or added. -/
def mapSet {V : Type} (table : List (String × V)) (key : String) (value : V) :
    List (String × V) :=
  (table.filter fun entry => !(entry.1 == key)) ++ [(key, value)]

end UnitHandler

/-- The static data members of `UnitHandler` (UnitHandler.cpp, lines 37-79).
Doubles are rationals; a `std::map` is the list of its entries. -/
structure UnitHandler where
  constantsDefaultUnits : List (String × ℚ × List (String × Int))
  constantsBaseUnits : List (String × ℚ)
  J_per_eV : ℚ
  eV_per_J : ℚ
  kg_per_baseMass : ℚ
  baseMass_per_kg : ℚ
  u_per_baseMass : ℚ
  baseMass_per_u : ℚ
  T_per_baseMagneticField : ℚ
  baseMagneticField_per_T : ℚ
  V_per_baseVoltage : ℚ
  baseVoltage_per_V : ℚ
  temperatureUnit : UnitHandler.TemperatureUnit
  timeUnit : UnitHandler.TimeUnit
  lengthUnit : UnitHandler.LengthUnit
  energyUnit : UnitHandler.EnergyUnit
  chargeUnit : UnitHandler.ChargeUnit
  countUnit : UnitHandler.CountUnit
  temperatureScale : ℚ
  timeScale : ℚ
  lengthScale : ℚ
  energyScale : ℚ
  chargeScale : ℚ
  countScale : ℚ

namespace UnitHandler

/-- The static data before `StaticConstructor` runs: empty maps, zero
doubles, and the units and scales of the initializers in lines 67-79. -/
def initial : UnitHandler where
  constantsDefaultUnits := []
  constantsBaseUnits := []
  J_per_eV := 0
  eV_per_J := 0
  kg_per_baseMass := 0
  baseMass_per_kg := 0
  u_per_baseMass := 0
  baseMass_per_u := 0
  T_per_baseMagneticField := 0
  baseMagneticField_per_T := 0
  V_per_baseVoltage := 0
  baseVoltage_per_V := 0
  temperatureUnit := TemperatureUnit.K
  timeUnit := TimeUnit.s
  lengthUnit := LengthUnit.m
  energyUnit := EnergyUnit.eV
  chargeUnit := ChargeUnit.C
  countUnit := CountUnit.pcs
  temperatureScale := 1
  timeScale := 1
  lengthScale := 1
  energyScale := 1
  chargeScale := 1
  countScale := 1

/-- `UnitHandler::getConstantBaseUnits`. -/
def getConstantBaseUnits (handler : UnitHandler) (name : String) : ℚ :=
  mapGet 0 handler.constantsBaseUnits name

/-- `UnitHandler::getTemperatureConversionFactor(TemperatureUnit)`. The
`default` branch of the switch has no unit to be taken for. -/
def getTemperatureConversionFactorFor : TemperatureUnit → ℚ
  | TemperatureUnit.kK => 1e-3
  | TemperatureUnit.K => 1
  | TemperatureUnit.mK => 1e3
  | TemperatureUnit.uK => 1e6
  | TemperatureUnit.nK => 1e9

/-- `UnitHandler::getTemperatureConversionFactor()`. -/
def getTemperatureConversionFactor (handler : UnitHandler) : ℚ :=
  getTemperatureConversionFactorFor handler.temperatureUnit

/-- `UnitHandler::getTimeConversionFactor(TimeUnit)`. -/
def getTimeConversionFactorFor : TimeUnit → ℚ
  | TimeUnit.s => 1
  | TimeUnit.ms => 1e3
  | TimeUnit.us => 1e6
  | TimeUnit.ns => 1e9
  | TimeUnit.ps => 1e12
  | TimeUnit.fs => 1e15
  | TimeUnit.as => 1e18

/-- `UnitHandler::getTimeConversionFactor()`. -/
def getTimeConversionFactor (handler : UnitHandler) : ℚ :=
  getTimeConversionFactorFor handler.timeUnit

/-- `UnitHandler::getLengthConversionFactor(LengthUnit)`. -/
def getLengthConversionFactorFor : LengthUnit → ℚ
  | LengthUnit.m => 1
  | LengthUnit.mm => 1e3
  | LengthUnit.um => 1e6
  | LengthUnit.nm => 1e9
  | LengthUnit.pm => 1e12
  | LengthUnit.fm => 1e15
  | LengthUnit.am => 1e18
  | LengthUnit.Ao => 1e10

/-- `UnitHandler::getLengthConversionFactor()`. -/
def getLengthConversionFactor (handler : UnitHandler) : ℚ :=
  getLengthConversionFactorFor handler.lengthUnit

/-- `UnitHandler::getEnergyConversionFactor(EnergyUnit)`. -/
def getEnergyConversionFactorFor (handler : UnitHandler) : EnergyUnit → ℚ
  | EnergyUnit.GeV => 1e-9
  | EnergyUnit.MeV => 1e-6
  | EnergyUnit.keV => 1e-3
  | EnergyUnit.eV => 1
  | EnergyUnit.meV => 1e3
  | EnergyUnit.ueV => 1e6
  | EnergyUnit.J => handler.J_per_eV

/-- `UnitHandler::getEnergyConversionFactor()`. -/
def getEnergyConversionFactor (handler : UnitHandler) : ℚ :=
  getEnergyConversionFactorFor handler handler.energyUnit

/-- `UnitHandler::getChargeConversionFactor(ChargeUnit)`; `E` is
`constantsDefaultUnits["e"].first`. -/
def getChargeConversionFactorFor (handler : UnitHandler) (chargeUnit : ChargeUnit) : ℚ :=
  let E := (mapGet (0, []) handler.constantsDefaultUnits "e").1
  match chargeUnit with
  | ChargeUnit.kC => 1e-3
  | ChargeUnit.C => 1
  | ChargeUnit.mC => 1e3
  | ChargeUnit.uC => 1e6
  | ChargeUnit.nC => 1e9
  | ChargeUnit.pC => 1e12
  | ChargeUnit.fC => 1e15
  | ChargeUnit.aC => 1e18
  | ChargeUnit.Te => 1e-12 / E
  | ChargeUnit.Ge => 1e-9 / E
  | ChargeUnit.Me => 13 - 6 / E
  | ChargeUnit.ke => 1e-3 / E
  | ChargeUnit.e => 1 / E

/-- `UnitHandler::getChargeConversionFactor()`. -/
def getChargeConversionFactor (handler : UnitHandler) : ℚ :=
  getChargeConversionFactorFor handler handler.chargeUnit

/-- `UnitHandler::getCountConversionFactor(CountUnit)`; `N_A` is
`constantsDefaultUnits["N_A"].first`. -/
def getCountConversionFactorFor (handler : UnitHandler) (countUnit : CountUnit) : ℚ :=
  let N_A := (mapGet (0, []) handler.constantsDefaultUnits "N_A").1
  match countUnit with
  | CountUnit.pcs => 1
  | CountUnit.mol => 1 / N_A

/-- `UnitHandler::getCountConversionFactor()`. -/
def getCountConversionFactor (handler : UnitHandler) : ℚ :=
  getCountConversionFactorFor handler handler.countUnit

/-- The names of the reference units that the branches on the unit name in
`updateConstants` and `getConstantNaturalUnits` know. -/
def defaultUnitNames : List String := ["K", "s", "m", "eV", "C", "pcs"]

/-- The branches on the unit name inside the loops of
`UnitHandler::updateConstants`: the conversion factor of the named reference
unit, or the exit 'Unknown default unit.'. -/
def defaultUnitConversionFactor (handler : UnitHandler) (unit : String) : Except Failure ℚ :=
  if unit = "K" then Except.ok (getTemperatureConversionFactor handler)
  else if unit = "s" then Except.ok (getTimeConversionFactor handler)
  else if unit = "m" then Except.ok (getLengthConversionFactor handler)
  else if unit = "eV" then Except.ok (getEnergyConversionFactor handler)
  else if unit = "C" then Except.ok (getChargeConversionFactor handler)
  else if unit = "pcs" then Except.ok (getCountConversionFactor handler)
  else TBTKExit "UnitHandler::updateConstants()" "Unknown default unit."

/-- One of the loops `for(int c = 0; c < ...; c++)` over the exponent of a
unit: the value is multiplied (or divided) by the factor once per round; a
round with an unknown unit ends in the exit. -/
def repeatScale (factor : Except Failure ℚ) (operation : ℚ → ℚ → ℚ) :
    Nat → ℚ → Except Failure ℚ
  | 0, value => Except.ok value
  | rounds + 1, value =>
    match factor with
    | Except.error failure => Except.error failure
    | Except.ok x => repeatScale factor operation rounds (operation value x)

/-- The loop over the units of one constant in `UnitHandler::updateConstants`:
`exponent` multiplications for a positive exponent, `-exponent` divisions for
a negative one. -/
def updateConstantValue (handler : UnitHandler) : List (String × Int) → ℚ → Except Failure ℚ
  | [], value => Except.ok value
  | (unit, exponent) :: rest, value =>
    match repeatScale (defaultUnitConversionFactor handler unit) (fun v x => v * x)
        exponent.toNat value with
    | Except.error failure => Except.error failure
    | Except.ok multiplied =>
      match repeatScale (defaultUnitConversionFactor handler unit) (fun v x => v / x)
          (-exponent).toNat multiplied with
      | Except.error failure => Except.error failure
      | Except.ok divided => updateConstantValue handler rest divided

/-- The loop over the constants in `UnitHandler::updateConstants`. -/
def updateConstantsLoop (handler : UnitHandler) :
    List (String × ℚ × List (String × Int)) → List (String × ℚ) →
      Except Failure (List (String × ℚ))
  | [], baseUnits => Except.ok baseUnits
  | (name, value, units) :: rest, baseUnits =>
    match updateConstantValue handler units value with
    | Except.error failure => Except.error failure
    | Except.ok converted => updateConstantsLoop handler rest (mapSet baseUnits name converted)

/-- `UnitHandler::updateConstants`. -/
def updateConstants (handler : UnitHandler) : Except Failure UnitHandler :=
  match updateConstantsLoop handler handler.constantsDefaultUnits [] with
  | Except.error failure => Except.error failure
  | Except.ok baseUnits => Except.ok { handler with constantsBaseUnits := baseUnits }

/-- The branches on the unit name inside the loops of
`UnitHandler::getConstantNaturalUnits`: the scale of the named reference unit,
or the exit 'Unknown default unit.'. -/
def defaultUnitScale (handler : UnitHandler) (unit : String) : Except Failure ℚ :=
  if unit = "K" then Except.ok handler.temperatureScale
  else if unit = "s" then Except.ok handler.timeScale
  else if unit = "m" then Except.ok handler.lengthScale
  else if unit = "eV" then Except.ok handler.energyScale
  else if unit = "C" then Except.ok handler.chargeScale
  else if unit = "pcs" then Except.ok handler.countScale
  else TBTKExit "UnitHandler::getConstantNaturalUnits()" "Unknown default unit."

/-- The loop over the units in `UnitHandler::getConstantNaturalUnits`:
`exponent` divisions by the scale for a positive exponent, `-exponent`
multiplications for a negative one. -/
def naturalUnitsValue (handler : UnitHandler) : List (String × Int) → ℚ → Except Failure ℚ
  | [], value => Except.ok value
  | (unit, exponent) :: rest, value =>
    match repeatScale (defaultUnitScale handler unit) (fun v x => v / x)
        exponent.toNat value with
    | Except.error failure => Except.error failure
    | Except.ok divided =>
      match repeatScale (defaultUnitScale handler unit) (fun v x => v * x)
          (-exponent).toNat divided with
      | Except.error failure => Except.error failure
      | Except.ok multiplied => naturalUnitsValue handler rest multiplied

/-- `UnitHandler::getConstantNaturalUnits`. -/
def getConstantNaturalUnits (handler : UnitHandler) (name : String) : Except Failure ℚ :=
  naturalUnitsValue handler (mapGet (0, []) handler.constantsDefaultUnits name).2
    (getConstantBaseUnits handler name)

/-- The table `constantsDefaultUnits` that
`UnitHandler::StaticConstructor::StaticConstructor` builds, step by step as in
lines 1636-1662. The constant `M_PI` of the C library is a parameter. -/
def staticConstants (M_PI : ℚ) : List (String × ℚ × List (String × Int)) :=
  let table0 : List (String × ℚ × List (String × Int)) :=
    [("e", (1.602176634e-19, [("C", 1)])),
     ("c", (2.99792458e8, [("m", 1), ("s", -1)])),
     ("N_A", (6.02214076e23, [("pcs", 1)])),
     ("a_0", (5.29177210903 * 1e-11, [("m", 1)]))]
  let e := (mapGet (0, []) table0 "e").1
  let table1 := mapSet table0 "h" (6.62607015e-34 / e, [("eV", 1), ("s", 1)])
  let table2 := mapSet table1 "k_B" (1.380649e-23 / e, [("eV", 1), ("K", -1)])
  let table3 := mapSet table2 "m_e" (9.1093837015e-31 / e, [("eV", 1), ("s", 2), ("m", -2)])
  let table4 := mapSet table3 "m_p" (1.67262192369e-27 / e, [("eV", 1), ("s", 2), ("m", -2)])
  let table5 := mapSet table4 "mu_0"
    (1.25663706212e-6 / e, [("eV", 1), ("s", 2), ("C", -2), ("m", -1)])
  let table6 := mapSet table5 "epsilon_0"
    (8.8541878128e-12 * e, [("C", 2), ("eV", -1), ("m", -1)])
  let h := (mapGet (0, []) table6 "h").1
  let table7 := mapSet table6 "hbar" (h / (2 * M_PI), [("eV", 1), ("s", 1)])
  let hbar := (mapGet (0, []) table7 "hbar").1
  let m_e := (mapGet (0, []) table7 "m_e").1
  let m_p := (mapGet (0, []) table7 "m_p").1
  let table8 := mapSet table7 "mu_B" (e * hbar / (2 * m_e), [("C", 1), ("m", 2), ("s", -1)])
  mapSet table8 "mu_N" (e * hbar / (2 * m_p), [("C", 1), ("m", 2), ("s", -1)])

/-- `UnitHandler::StaticConstructor::StaticConstructor`: the table of
constants, the derived conversion constants (lines 1664-1673) and the call of
`updateConstants`. The locals `e` and `c` are read from the finished table,
in which their entries are still those of the initializer list. -/
def StaticConstructor (M_PI : ℚ) : Except Failure UnitHandler :=
  let table := staticConstants M_PI
  let e := (mapGet (0, []) table "e").1
  let c := (mapGet (0, []) table "c").1
  updateConstants
    { initial with
      constantsDefaultUnits := table
      J_per_eV := e
      eV_per_J := 1 / e
      kg_per_baseMass := e
      baseMass_per_kg := 1 / e
      u_per_baseMass := (c * c) / 9.31494095e8
      baseMass_per_u := 1 / ((c * c) / 9.31494095e8)
      T_per_baseMagneticField := e
      baseMagneticField_per_T := 1 / e
      V_per_baseVoltage := e
      baseVoltage_per_V := 1 / e }

end UnitHandler

namespace UnitHandler

/-- `UnitHandler::setTemperatureScale(double)`. -/
def setTemperatureScale (handler : UnitHandler) (scale : ℚ) : UnitHandler :=
  { handler with temperatureScale := scale }

/-- `UnitHandler::setTimeScale(double)`. -/
def setTimeScale (handler : UnitHandler) (scale : ℚ) : UnitHandler :=
  { handler with timeScale := scale }

/-- `UnitHandler::setLengthScale(double)`. -/
def setLengthScale (handler : UnitHandler) (scale : ℚ) : UnitHandler :=
  { handler with lengthScale := scale }

/-- `UnitHandler::setEnergyScale(double)`. -/
def setEnergyScale (handler : UnitHandler) (scale : ℚ) : UnitHandler :=
  { handler with energyScale := scale }

/-- `UnitHandler::setChargeScale(double)`. -/
def setChargeScale (handler : UnitHandler) (scale : ℚ) : UnitHandler :=
  { handler with chargeScale := scale }

/-- `UnitHandler::setCountScale(double)`. -/
def setCountScale (handler : UnitHandler) (scale : ℚ) : UnitHandler :=
  { handler with countScale := scale }

/-- `UnitHandler::getTemperatureUnit(string)`. -/
def getTemperatureUnit (unit : String) : Except Failure TemperatureUnit :=
  if unit = "kK" then Except.ok TemperatureUnit.kK
  else if unit = "K" then Except.ok TemperatureUnit.K
  else if unit = "mK" then Except.ok TemperatureUnit.mK
  else if unit = "uK" then Except.ok TemperatureUnit.uK
  else if unit = "nK" then Except.ok TemperatureUnit.nK
  else TBTKExit "UnitHandler::getTemperatureUnit()" ("Invalid temperature unit '" ++ unit ++ "'")

/-- `UnitHandler::getTimeUnit(string)`. -/
def getTimeUnit (unit : String) : Except Failure TimeUnit :=
  if unit = "s" then Except.ok TimeUnit.s
  else if unit = "ms" then Except.ok TimeUnit.ms
  else if unit = "us" then Except.ok TimeUnit.us
  else if unit = "ns" then Except.ok TimeUnit.ns
  else if unit = "ps" then Except.ok TimeUnit.ps
  else if unit = "fs" then Except.ok TimeUnit.fs
  else if unit = "as" then Except.ok TimeUnit.as
  else TBTKExit "UnitHandler::getTimeUnit()" ("Invalid time unit '" ++ unit ++ "'")

/-- `UnitHandler::getLengthUnit(string)`. -/
def getLengthUnit (unit : String) : Except Failure LengthUnit :=
  if unit = "m" then Except.ok LengthUnit.m
  else if unit = "mm" then Except.ok LengthUnit.mm
  else if unit = "um" then Except.ok LengthUnit.um
  else if unit = "nm" then Except.ok LengthUnit.nm
  else if unit = "pm" then Except.ok LengthUnit.pm
  else if unit = "fm" then Except.ok LengthUnit.fm
  else if unit = "am" then Except.ok LengthUnit.am
  else if unit = "Ao" then Except.ok LengthUnit.Ao
  else TBTKExit "UnitHandler::getLengthUnit()" ("Invalid length unit '" ++ unit ++ "'")

/-- `UnitHandler::getEnergyUnit(string)`. -/
def getEnergyUnit (unit : String) : Except Failure EnergyUnit :=
  if unit = "GeV" then Except.ok EnergyUnit.GeV
  else if unit = "MeV" then Except.ok EnergyUnit.MeV
  else if unit = "keV" then Except.ok EnergyUnit.keV
  else if unit = "eV" then Except.ok EnergyUnit.eV
  else if unit = "meV" then Except.ok EnergyUnit.meV
  else if unit = "ueV" then Except.ok EnergyUnit.ueV
  else if unit = "J" then Except.ok EnergyUnit.J
  else TBTKExit "UnitHandler::getEnergyUnit()" ("Invalid energy unit '" ++ unit ++ "'")

/-- `UnitHandler::getChargeUnit(string)`. -/
def getChargeUnit (unit : String) : Except Failure ChargeUnit :=
  if unit = "kC" then Except.ok ChargeUnit.kC
  else if unit = "C" then Except.ok ChargeUnit.C
  else if unit = "mC" then Except.ok ChargeUnit.mC
  else if unit = "uC" then Except.ok ChargeUnit.uC
  else if unit = "nC" then Except.ok ChargeUnit.nC
  else if unit = "pC" then Except.ok ChargeUnit.pC
  else if unit = "fC" then Except.ok ChargeUnit.fC
  else if unit = "aC" then Except.ok ChargeUnit.aC
  else if unit = "Te" then Except.ok ChargeUnit.Te
  else if unit = "Ge" then Except.ok ChargeUnit.Ge
  else if unit = "Me" then Except.ok ChargeUnit.Me
  else if unit = "ke" then Except.ok ChargeUnit.ke
  else if unit = "e" then Except.ok ChargeUnit.e
  else TBTKExit "UnitHandler::getChargeUnit()" ("Invalid charge unit '" ++ unit ++ "'")

/-- `UnitHandler::getCountUnit(string)`. -/
def getCountUnit (unit : String) : Except Failure CountUnit :=
  if unit = "pcs" then Except.ok CountUnit.pcs
  else if unit = "mol" then Except.ok CountUnit.mol
  else TBTKExit "UnitHandler::getCountUnit()" ("Invalid count unit '" ++ unit ++ "'")

/-- The names that `getTemperatureUnit` knows. -/
def temperatureUnitNames : List String := ["kK", "K", "mK", "uK", "nK"]

/-- The names that `getTimeUnit` knows. -/
def timeUnitNames : List String := ["s", "ms", "us", "ns", "ps", "fs", "as"]

/-- The names that `getLengthUnit` knows. -/
def lengthUnitNames : List String := ["m", "mm", "um", "nm", "pm", "fm", "am", "Ao"]

/-- The names that `getEnergyUnit` knows. -/
def energyUnitNames : List String := ["GeV", "MeV", "keV", "eV", "meV", "ueV", "J"]

/-- The names that `getChargeUnit` knows. -/
def chargeUnitNames : List String :=
  ["kC", "C", "mC", "uC", "nC", "pC", "fC", "aC", "Te", "Ge", "Me", "ke", "e"]

/-- The names that `getCountUnit` knows. -/
def countUnitNames : List String := ["pcs", "mol"]

/-- The loop `while(getline(ss, word, delimiter)) components.push_back(word)`
on the characters still in the stream; `word` holds the characters read since
the last delimiter. A delimiter ends the word, which is pushed even when it is
empty. At the end of the stream a non-empty word is pushed; with no character
left to read `getline` fails and the loop ends, so a string that ends in the
delimiter gets no empty last component. -/
def splitWords (delimiter : Char) : List Char → List Char → List String
  | word, [] => if word = [] then [] else [String.mk word]
  | word, c :: rest =>
    if c = delimiter then String.mk word :: splitWords delimiter [] rest
    else splitWords delimiter (word ++ [c]) rest

/-- The common body of the six string overloads `setTemperatureScale(string)`
... `setCountScale(string)` (lines 261-463), which differ in the function name,
the name of the quantity in the message, the unit parser and the two-argument
setter called last. The library function `stod` and the two-argument setter
(defined in the header, which is not among the sources) are parameters;
`stod` gives no value where it throws. -/
def setScaleFromString {U : Type} (function quantity : String) (stod : String → Option ℚ)
    (getUnit : String → Except Failure U)
    (setScale : ℚ → U → UnitHandler → Except Failure UnitHandler)
    (scale : String) (handler : UnitHandler) : Except Failure UnitHandler :=
  let components := splitWords ' ' [] scale.data
  match TBTKAssert (components.length == 2) function
      ("Invalid " ++ quantity ++ " scale string '" ++ scale ++ "'.") with
  | Except.error failure => Except.error failure
  | Except.ok _ =>
    match stod (components.getD 0 "") with
    | none => TBTKExit function ("Unable to parse '" ++ components.getD 0 "" ++ "' as a double.")
    | some s =>
      match getUnit (components.getD 1 "") with
      | Except.error failure => Except.error failure
      | Except.ok unit => setScale s unit handler

/-- `UnitHandler::setTemperatureScale(string)`. -/
def setTemperatureScaleFromString (stod : String → Option ℚ)
    (setScale : ℚ → TemperatureUnit → UnitHandler → Except Failure UnitHandler)
    (scale : String) (handler : UnitHandler) : Except Failure UnitHandler :=
  setScaleFromString "UnitHandler::setTemperatureScale()" "temperature" stod
    getTemperatureUnit setScale scale handler

/-- `UnitHandler::setTimeScale(string)`. -/
def setTimeScaleFromString (stod : String → Option ℚ)
    (setScale : ℚ → TimeUnit → UnitHandler → Except Failure UnitHandler)
    (scale : String) (handler : UnitHandler) : Except Failure UnitHandler :=
  setScaleFromString "UnitHandler::setTimeScale()" "time" stod getTimeUnit setScale scale handler

/-- `UnitHandler::setLengthScale(string)`. -/
def setLengthScaleFromString (stod : String → Option ℚ)
    (setScale : ℚ → LengthUnit → UnitHandler → Except Failure UnitHandler)
    (scale : String) (handler : UnitHandler) : Except Failure UnitHandler :=
  setScaleFromString "UnitHandler::setLengthScale()" "length" stod getLengthUnit setScale scale
    handler

/-- `UnitHandler::setEnergyScale(string)`. -/
def setEnergyScaleFromString (stod : String → Option ℚ)
    (setScale : ℚ → EnergyUnit → UnitHandler → Except Failure UnitHandler)
    (scale : String) (handler : UnitHandler) : Except Failure UnitHandler :=
  setScaleFromString "UnitHandler::setEnergyScale()" "energy" stod getEnergyUnit setScale scale
    handler

/-- `UnitHandler::setChargeScale(string)`. -/
def setChargeScaleFromString (stod : String → Option ℚ)
    (setScale : ℚ → ChargeUnit → UnitHandler → Except Failure UnitHandler)
    (scale : String) (handler : UnitHandler) : Except Failure UnitHandler :=
  setScaleFromString "UnitHandler::setChargeScale()" "charge" stod getChargeUnit setScale scale
    handler

/-- `UnitHandler::setCountScale(string)`. -/
def setCountScaleFromString (stod : String → Option ℚ)
    (setScale : ℚ → CountUnit → UnitHandler → Except Failure UnitHandler)
    (scale : String) (handler : UnitHandler) : Except Failure UnitHandler :=
  setScaleFromString "UnitHandler::setCountScale()" "count" stod getCountUnit setScale scale
    handler

/-- `UnitHandler::getTemperatureUnitString`, as a function of the unit that its
switch reads from `temperatureUnit`: the name of the unit. -/
def getTemperatureUnitString : TemperatureUnit → String
  | TemperatureUnit.kK => "kK"
  | TemperatureUnit.K => "K"
  | TemperatureUnit.mK => "mK"
  | TemperatureUnit.uK => "uK"
  | TemperatureUnit.nK => "nK"

/-- `UnitHandler::getTimeUnitString`, as a function of the unit. -/
def getTimeUnitString : TimeUnit → String
  | TimeUnit.s => "s"
  | TimeUnit.ms => "ms"
  | TimeUnit.us => "us"
  | TimeUnit.ns => "ns"
  | TimeUnit.ps => "ps"
  | TimeUnit.fs => "fs"
  | TimeUnit.as => "as"

/-- `UnitHandler::getLengthUnitString`, as a function of the unit. -/
def getLengthUnitString : LengthUnit → String
  | LengthUnit.m => "m"
  | LengthUnit.mm => "mm"
  | LengthUnit.um => "um"
  | LengthUnit.nm => "nm"
  | LengthUnit.pm => "pm"
  | LengthUnit.fm => "fm"
  | LengthUnit.am => "am"
  | LengthUnit.Ao => "Ao"

/-- `UnitHandler::getEnergyUnitString`, as a function of the unit. -/
def getEnergyUnitString : EnergyUnit → String
  | EnergyUnit.GeV => "GeV"
  | EnergyUnit.MeV => "MeV"
  | EnergyUnit.keV => "keV"
  | EnergyUnit.eV => "eV"
  | EnergyUnit.meV => "meV"
  | EnergyUnit.ueV => "ueV"
  | EnergyUnit.J => "J"

/-- `UnitHandler::getChargeUnitString`, as a function of the unit. -/
def getChargeUnitString : ChargeUnit → String
  | ChargeUnit.kC => "kC"
  | ChargeUnit.C => "C"
  | ChargeUnit.mC => "mC"
  | ChargeUnit.uC => "uC"
  | ChargeUnit.nC => "nC"
  | ChargeUnit.pC => "pC"
  | ChargeUnit.fC => "fC"
  | ChargeUnit.aC => "aC"
  | ChargeUnit.Te => "Te"
  | ChargeUnit.Ge => "Ge"
  | ChargeUnit.Me => "Me"
  | ChargeUnit.ke => "ke"
  | ChargeUnit.e => "e"

/-- `UnitHandler::getCountUnitString`, as a function of the unit. -/
def getCountUnitString : CountUnit → String
  | CountUnit.pcs => "pcs"
  | CountUnit.mol => "mol"

/-- The components of a string split on single delimiter characters, in the
words of the claim: every delimiter ends a component, so that the empty string
has one empty component and a string that ends in the delimiter has an empty
last component. `word` holds the characters read since the last delimiter. -/
def splitComponents (delimiter : Char) : List Char → List Char → List String
  | word, [] => [String.mk word]
  | word, c :: rest =>
    if c = delimiter then String.mk word :: splitComponents delimiter [] rest
    else splitComponents delimiter (word ++ [c]) rest

/-- The components without an empty last one. -/
def dropEmptyLast (components : List String) : List String :=
  if components.getLast? = some "" then components.dropLast else components

/-- What the amended claim says of one string overload, for the unit names,
the name of each unit and the overload of its quantity. The unit names are the
names of the units. The overload fails on every string that does not split on
single spaces, an empty last component left out, into exactly two components,
and on every string whose second component is not a unit name; on
`number ++ " " ++ name`, where `stod` parses the number and `name` is the name
of a unit, it is the two-argument setter called with the parsed number and
that unit, and so it is with one more space at the end. -/
def stringOverloadContract {U : Type} (unitNames : List String) (unitString : U → String)
    (overload : (String → Option ℚ) → (ℚ → U → UnitHandler → Except Failure UnitHandler) →
      String → UnitHandler → Except Failure UnitHandler) : Prop :=
  (∀ name : String, name ∈ unitNames ↔ ∃ unit, unitString unit = name) ∧
  ∀ (stod : String → Option ℚ) (setScale : ℚ → U → UnitHandler → Except Failure UnitHandler)
    (handler : UnitHandler),
    (∀ scale : String, (dropEmptyLast (splitComponents ' ' [] scale.data)).length ≠ 2 →
      ∃ failure, overload stod setScale scale handler = Except.error failure) ∧
    (∀ (scale first second : String),
      dropEmptyLast (splitComponents ' ' [] scale.data) = [first, second] →
      second ∉ unitNames →
      ∃ failure, overload stod setScale scale handler = Except.error failure) ∧
    (∀ (number : String) (unit : U) (s : ℚ), ' ' ∉ number.data → stod number = some s →
      overload stod setScale (number ++ " " ++ unitString unit) handler
        = setScale s unit handler ∧
      overload stod setScale (number ++ " " ++ unitString unit ++ " ") handler
        = setScale s unit handler)

end UnitHandler

namespace PropertyExtractor

/-- The search loop at the head of `PropertyExtractor::calculate`:
`currentSubindex` runs down from `k - 1` and stops at the first negative
component of the pattern; `none` stands for the value -1 it has when no
component is negative. -/
def findSubindex (pattern : Index) : Nat → Option Nat
  | 0 => none
  | k + 1 => if pattern.getD k 0 < 0 then some k else findSubindex pattern k

/-- The value an `int` of 32 bits holds after an addition or a multiplication
whose exact result is `value`: the result reduced modulo 2^32 into
`[-2^31, 2^31)`, as the compiled code computes it (an overflow of `int` is
undefined in C++). -/
def wrapInt (value : Int) : Int :=
  (value + 2147483648) % 4294967296 - 2147483648

/-- The statement `if(!isSumIndex) currentOffset += offsetMultiplier;` at the
end of a round of the loop of `PropertyExtractor::calculate`. -/
def advanceOffset (isSumIndex : Bool) (offsetMultiplier currentOffset : Int) : Int :=
  if isSumIndex then currentOffset else wrapInt (currentOffset + offsetMultiplier)

/-- The loop `for(int n = 0; n < ranges.at(currentSubindex); n++)` of
`PropertyExtractor::calculate`, with `rounds` rounds still to run: the
recursive call for `n` with the current offset, then the offset moves on. The
result is the sequence of callback invocations, in order. -/
def calculateLoop (recurse : Int → Int → Except Failure (List (Index × Int)))
    (isSumIndex : Bool) (offsetMultiplier : Int) :
    Nat → Int → Int → Except Failure (List (Index × Int))
  | 0, _, _ => Except.ok []
  | rounds + 1, n, currentOffset =>
    match recurse n currentOffset with
    | Except.error failure => Except.error failure
    | Except.ok first =>
      match calculateLoop recurse isSumIndex offsetMultiplier rounds (n + 1)
          (advanceOffset isSumIndex offsetMultiplier currentOffset) with
      | Except.error failure => Except.error failure
      | Except.ok rest => Except.ok (first ++ rest)

/-- `PropertyExtractor::calculate` with a bound on the depth of the recursion.
The callback is a function pointer with effects on `memory` only; the result
is the sequence of its invocations, each with the index and the offset it is
given. The offsets and multipliers are of type `int`: `offsetMultiplier *
ranges.at(currentSubindex)` and `currentOffset + offsetMultiplier` are reduced
to 32 bits. Every recursive call has one negative component less, so the bound
is not reached when it is at least the number of negative components; the
branch for a bound that is used up returns no invocation. -/
def calculateFuel (IDX_SUM_ALL : Int) (ranges : Index) :
    Nat → Index → Int → Int → Except Failure (List (Index × Int))
  | 0, pattern, currentOffset, _ =>
    match findSubindex pattern pattern.length with
    | none => Except.ok [(pattern, currentOffset)]
    | some _ => Except.ok []
  | fuel + 1, pattern, currentOffset, offsetMultiplier =>
    match findSubindex pattern pattern.length with
    | none => Except.ok [(pattern, currentOffset)]
    | some currentSubindex =>
      match Index.at ranges currentSubindex with
      | Except.error failure => Except.error failure
      | Except.ok range =>
        calculateLoop
          (fun n offset =>
            calculateFuel IDX_SUM_ALL ranges fuel (pattern.set currentSubindex n) offset
              (if pattern.getD currentSubindex 0 < IDX_SUM_ALL then
                wrapInt (offsetMultiplier * range)
               else offsetMultiplier))
          (decide (pattern.getD currentSubindex 0 = IDX_SUM_ALL)) offsetMultiplier
          range.toNat 0 currentOffset

/-- `PropertyExtractor::calculate`: the sequence of callback invocations. The
depth of the recursion is bounded by the number of components of the
pattern. -/
def calculate (IDX_SUM_ALL : Int) (pattern ranges : Index)
    (currentOffset offsetMultiplier : Int) : Except Failure (List (Index × Int)) :=
  calculateFuel IDX_SUM_ALL ranges pattern.length pattern currentOffset offsetMultiplier

/-- The positions of the pattern that hold a negative component. -/
def negativePositions (pattern : Index) : List Nat :=
  (List.range pattern.length).filter fun k => decide (pattern.getD k 0 < 0)

/-- An assignment for the pattern: an index with as many components, equal to
the pattern at every non-negative position and with a value `n_k`,
`0 <= n_k < ranges[k]`, at every negative position `k`. -/
def isAssignment (pattern ranges index : Index) : Prop :=
  index.length = pattern.length ∧
  ∀ k, k < pattern.length →
    (0 ≤ pattern.getD k 0 → index.getD k 0 = pattern.getD k 0) ∧
    (pattern.getD k 0 < 0 → 0 ≤ index.getD k 0 ∧ index.getD k 0 < ranges.getD k 0)

/-- The product of `ranges[k]` over the negative positions `k` of the pattern. -/
def rangesProduct (pattern ranges : Index) : Int :=
  ((negativePositions pattern).map fun k => ranges.getD k 0).prod

/-- The number of assignments: the product over the negative positions `k` of
`ranges[k]`, a negative `ranges[k]` counting as zero. -/
def assignmentCount (pattern ranges : Index) : Nat :=
  ((negativePositions pattern).map fun k => (ranges.getD k 0).toNat).prod

/-- The loop positions of the pattern, in increasing order: the positions with
a component smaller than `IDX_SUM_ALL`. -/
def loopPositions (IDX_SUM_ALL : Int) (pattern : Index) : List Nat :=
  (List.range pattern.length).filter fun k => decide (pattern.getD k 0 < IDX_SUM_ALL)

end PropertyExtractor


namespace WignerSeitzCell

/-- The operations of class `Vector3d` that `getMesh` uses. The class is not
among the sources, so its operations are parameters: `add`, `sub` and `cross`
are `operator+`, `operator-` and `operator*` between two vectors, `times` is
`Vector3d*double`, `scaled` is `double*Vector3d`, `over` is
`Vector3d/double`; the others carry the names of the member functions. The
public members `x`, `y`, `z` are the three components of the list. -/
structure Vector3dOperations where
  add : List ℚ → List ℚ → List ℚ
  sub : List ℚ → List ℚ → List ℚ
  cross : List ℚ → List ℚ → List ℚ
  times : List ℚ → ℚ → List ℚ
  scaled : ℚ → List ℚ → List ℚ
  over : List ℚ → ℚ → List ℚ
  unit : List ℚ → List ℚ
  norm : List ℚ → ℚ
  perpendicular : List ℚ → List ℚ → List ℚ
  parallel : List ℚ → List ℚ → List ℚ
  dotProduct : List ℚ → List ℚ → ℚ

/-- The conversion `(int)n` of an `unsigned int` of 32 bits. -/
def toInt (n : Nat) : Int :=
  if n % 4294967296 < 2147483648 then ((n % 4294967296 : Nat) : Int)
  else ((n % 4294967296 : Nat) : Int) - 4294967296

/-- The difference `n - 1` in `unsigned int`, which wraps at zero. -/
def minusOne (n : Nat) : Nat :=
  (n + 4294967295) % 4294967296

/-- The `switch(dimensions)` of `getMesh`: the corners added for two and for
three dimensions, and the exit of the default branch. -/
def additionalCorners (operations : Vector3dOperations) (cell : WignerSeitzCell) :
    Except Failure (List (List ℚ)) :=
  match cell.dimensions with
  | 1 => Except.ok []
  | 2 => do
    let b0 ← vectorAt cell.basisVectors 0
    let b1 ← vectorAt cell.basisVectors 1
    Except.ok [operations.add b0 b1, operations.sub b0 b1]
  | 3 => do
    let b0 ← vectorAt cell.basisVectors 0
    let b1 ← vectorAt cell.basisVectors 1
    let b2 ← vectorAt cell.basisVectors 2
    Except.ok [operations.add b0 b1, operations.sub b0 b1,
      operations.add b0 b2, operations.sub b0 b2,
      operations.add b1 b2, operations.sub b1 b2,
      operations.add (operations.add b0 b1) b2, operations.sub (operations.add b0 b1) b2,
      operations.add (operations.sub b0 b1) b2, operations.sub (operations.sub b0 b1) b2]
  | _ => TBTKExit "Parallelepiped::getMesh()" "This should never happed."

/-- The step `stepX` between mesh points along the first basis vector. -/
def stepX (operations : Vector3dOperations) (cell : WignerSeitzCell) (nmp0 : Nat) :
    Except Failure (List ℚ) :=
  if nmp0 = 1 then Except.ok [0, 0, 0]
  else do
    let b0 ← vectorAt cell.basisVectors 0
    Except.ok (operations.over b0 (minusOne nmp0 : ℚ))

/-- The step `stepY`. -/
def stepY (operations : Vector3dOperations) (cell : WignerSeitzCell) (nmp1 : Nat) :
    Except Failure (List ℚ) :=
  if nmp1 = 1 then Except.ok [0, 0, 0]
  else do
    let b1 ← vectorAt cell.basisVectors 1
    let b0 ← vectorAt cell.basisVectors 0
    let perpToB0 := operations.perpendicular b1 b0
    Except.ok (operations.over
      (operations.over perpToB0
        (operations.dotProduct (operations.unit b1) (operations.unit perpToB0) ^ 2))
      (minusOne nmp1 : ℚ))

/-- The step `stepZ`. -/
def stepZ (operations : Vector3dOperations) (cell : WignerSeitzCell) (nmp2 : Nat) :
    Except Failure (List ℚ) :=
  if nmp2 = 1 then Except.ok [0, 0, 0]
  else do
    let b2 ← vectorAt cell.basisVectors 2
    let b0 ← vectorAt cell.basisVectors 0
    let b1 ← vectorAt cell.basisVectors 1
    let perpToB01 := operations.parallel b2 (operations.cross b0 b1)
    Except.ok (operations.over
      (operations.over perpToB01
        (operations.dotProduct (operations.unit b2) (operations.unit perpToB01) ^ 2))
      (minusOne nmp2 : ℚ))

/-- What `getMesh` has computed when it enters its loops. -/
structure MeshSetup where
  size : Nat
  nmp0 : Nat
  nmp1 : Nat
  nmp2 : Nat
  additionalCorners : List (List ℚ)
  stepX : List ℚ
  stepY : List ℚ
  stepZ : List ℚ
  shiftProjectorY : List ℚ
  shiftUnitY : List ℚ
  shiftProjectorZ : List ℚ
  shiftUnitZ : List ℚ

/-- The vector `v0` of the round `x` of the outer loop, and with a shift added
the vectors `v1` and `v2` of the inner loops. -/
def meshVector (operations : Vector3dOperations) (nmp : Nat) (step : List ℚ) (x : Nat)
    (shift : Option (List ℚ)) : List ℚ :=
  if nmp = 1 then [0, 0, 0]
  else
    let multiple :=
      if nmp % 2 = 0 then
        operations.scaled (((toInt x - toInt (nmp / 2) : Int) : ℚ) + 1 / 2) step
      else operations.scaled ((toInt x - toInt (nmp / 2) : Int) : ℚ) step
    match shift with
    | none => multiple
    | some shift => operations.add multiple shift

/-- The loop over the additional corners: whether no projection exceeds the
margin. -/
def isContainedByAllPlanes (operations : Vector3dOperations) (ROUNDOFF_MARGIN_MULTIPLIER : ℚ)
    (additionalCorners : List (List ℚ)) (point : List ℚ) : Bool :=
  additionalCorners.all fun corner =>
    !decide (|operations.dotProduct point (operations.unit corner) / operations.norm corner|
      > ROUNDOFF_MARGIN_MULTIPLIER * 1 / 2)

/-- The `switch(numMeshPoints.size())` of the innermost loop: the mesh point
pushed, and the exit of the default branch. -/
def meshPoint (operations : Vector3dOperations) (size : Nat) (v0 v1 v2 : List ℚ) :
    Except Failure (List ℚ) :=
  match size with
  | 1 => Except.ok [v0.getD 0 0]
  | 2 => Except.ok [(operations.add v0 v1).getD 0 0, (operations.add v0 v1).getD 1 0]
  | 3 =>
    Except.ok [(operations.add (operations.add v0 v1) v2).getD 0 0,
      (operations.add (operations.add v0 v1) v2).getD 1 0,
      (operations.add (operations.add v0 v1) v2).getD 2 0]
  | _ => TBTKExit "Parallelepiped::getMesh()" "This should never happed."

/-- The innermost loop of `getMesh` over the rounds `z` listed. -/
def loopZ (operations : Vector3dOperations) (ROUNDOFF_MARGIN_MULTIPLIER : ℚ)
    (setup : MeshSetup) (v0 v1 shiftZ : List ℚ) :
    List Nat → List (List ℚ) → Except Failure (List (List ℚ))
  | [], mesh => Except.ok mesh
  | z :: rest, mesh =>
    let v2 := meshVector operations setup.nmp2 setup.stepZ z (some shiftZ)
    if isContainedByAllPlanes operations ROUNDOFF_MARGIN_MULTIPLIER setup.additionalCorners
        (operations.add (operations.add v0 v1) v2) then
      match meshPoint operations setup.size v0 v1 v2 with
      | Except.error failure => Except.error failure
      | Except.ok point =>
        loopZ operations ROUNDOFF_MARGIN_MULTIPLIER setup v0 v1 shiftZ rest (mesh ++ [point])
    else loopZ operations ROUNDOFF_MARGIN_MULTIPLIER setup v0 v1 shiftZ rest mesh

/-- The middle loop of `getMesh` over the rounds `y` listed. -/
def loopY (operations : Vector3dOperations) (ROUNDOFF_MARGIN_MULTIPLIER : ℚ)
    (setup : MeshSetup) (v0 shiftY : List ℚ) :
    List Nat → List (List ℚ) → Except Failure (List (List ℚ))
  | [], mesh => Except.ok mesh
  | y :: rest, mesh =>
    let v1 := meshVector operations setup.nmp1 setup.stepY y (some shiftY)
    let shiftZ := operations.times setup.shiftUnitZ
      (operations.dotProduct (operations.add v0 v1) setup.shiftProjectorZ)
    match loopZ operations ROUNDOFF_MARGIN_MULTIPLIER setup v0 v1 shiftZ
        (List.range setup.nmp2) mesh with
    | Except.error failure => Except.error failure
    | Except.ok extended =>
      loopY operations ROUNDOFF_MARGIN_MULTIPLIER setup v0 shiftY rest extended

/-- The outer loop of `getMesh` over the rounds `x` listed. -/
def loopX (operations : Vector3dOperations) (ROUNDOFF_MARGIN_MULTIPLIER : ℚ)
    (setup : MeshSetup) : List Nat → List (List ℚ) → Except Failure (List (List ℚ))
  | [], mesh => Except.ok mesh
  | x :: rest, mesh =>
    let v0 := meshVector operations setup.nmp0 setup.stepX x none
    let shiftY := operations.times setup.shiftUnitY
      (operations.dotProduct v0 setup.shiftProjectorY)
    match loopY operations ROUNDOFF_MARGIN_MULTIPLIER setup v0 shiftY
        (List.range setup.nmp1) mesh with
    | Except.error failure => Except.error failure
    | Except.ok extended => loopX operations ROUNDOFF_MARGIN_MULTIPLIER setup rest extended

/-- `WignerSeitzCell::getMesh`. The components of `numMeshPoints` are unsigned
integers; the constant `ROUNDOFF_MARGIN_MULTIPLIER` and the type `MeshType` of
the header, which is not among the sources, are parameters, and the argument
`meshType` is not used. Every `basisVectors.at(n)` is the range-checked
access, read once where the code reads it several times in a row. -/
def getMesh {MeshType : Type} (operations : Vector3dOperations)
    (ROUNDOFF_MARGIN_MULTIPLIER : ℚ) (cell : WignerSeitzCell) (numMeshPoints : List Nat)
    (_meshType : MeshType) : Except Failure (List (List ℚ)) := do
  TBTKAssert (decide (numMeshPoints.length = cell.dimensions))
    "ParallelepipedCell::getMesh()" "Incompatible diemsnions."
  let nmp0 := numMeshPoints.getD 0 0
  let nmp1 := if numMeshPoints.length > 1 then numMeshPoints.getD 1 0 else 1
  let nmp2 := if numMeshPoints.length > 2 then numMeshPoints.getD 2 0 else 1
  let additionalCorners ← additionalCorners operations cell
  let stepX ← stepX operations cell nmp0
  let stepY ← stepY operations cell nmp1
  let stepZ ← stepZ operations cell nmp2
  let b0 ← vectorAt cell.basisVectors 0
  let shiftProjectorY := operations.unit b0
  let b1 ← vectorAt cell.basisVectors 1
  let perpToB1 := operations.perpendicular shiftProjectorY b1
  let shiftUnitY := operations.perpendicular
    (operations.over perpToB1
      (operations.dotProduct (operations.unit perpToB1) shiftProjectorY ^ 2))
    shiftProjectorY
  let b2 ← vectorAt cell.basisVectors 2
  let shiftProjectorZ :=
    operations.unit (operations.perpendicular b2 (operations.cross b0 b1))
  let perpToB2 := operations.perpendicular shiftProjectorZ b2
  let shiftUnitZ := operations.perpendicular
    (operations.over perpToB2
      (operations.dotProduct (operations.unit perpToB2) shiftProjectorZ ^ 2))
    shiftProjectorZ
  loopX operations ROUNDOFF_MARGIN_MULTIPLIER
    { size := numMeshPoints.length, nmp0 := nmp0, nmp1 := nmp1, nmp2 := nmp2,
      additionalCorners := additionalCorners, stepX := stepX, stepY := stepY, stepZ := stepZ,
      shiftProjectorY := shiftProjectorY, shiftUnitY := shiftUnitY,
      shiftProjectorZ := shiftProjectorZ, shiftUnitZ := shiftUnitZ }
    (List.range nmp0) []

end WignerSeitzCell

/-! ## Concrete inputs -/

/-- A two-site Hamiltonian over the integers: one hopping amplitude 1 between
site 0 and site 1, so that `applyRescaled` swaps the two entries. The index
`[1]` is site 1, every other index is site 0. -/
def twoSite : Hamiltonian ℤ where
  basisSize := 2
  applyRescaled := fun v i => v (1 - i)
  getBasisIndex := fun index => if index = [1] then 1 else 0

/-- A stand-in over the integers for the damping factors of a convolution
kernel: no damping at broadening 0, and for every other broadening the
triangular weights `numCoefficients - n` (those of the Fejér kernel, multiplied
by the number of coefficients). -/
def triangularKernel (broadening : ℚ) (numCoefficients n : Nat) : ℤ :=
  if broadening = 0 then 1 else (numCoefficients : ℤ) - (n : ℤ)

/-- A kernel over the integers: the generating-function value for coefficient
index `n` at grid point `k` is `n + k`, and every variant continues it
unchanged. -/
def sumKernel : Kernel ℤ where
  generatingFunction := fun _ _ _ _ n k => (n : ℤ) + (k : ℤ)
  continuation := fun _ value => value

/-- A kernel over the rationals that depends on the scale factor as the
rescaled expansion does: the generating-function value for coefficient index
`n` at grid point `k` is the `n`-th power of the energy of the grid point
divided by the scale factor, and every variant continues it unchanged. -/
def powerKernel : Kernel ℚ where
  generatingFunction := fun scaleFactor lowerBound upperBound energyResolution n k =>
    ((lowerBound + (upperBound - lowerBound) * (k : ℚ) / (energyResolution : ℚ)) / scaleFactor) ^ n
  continuation := fun _ value => value

/-- A solver with scale factor 1 holding a table for two coefficients and two
grid points on `[-1, 1]`. -/
def tableSolver : ChebyshevSolver ℤ :=
  (ChebyshevSolver.generateLookupTable sumKernel ChebyshevSolver.construct 2 2 (-1) 1).2

/-- A stand-in for `stod` that parses the strings "2" and "0.5" only. -/
def twoOrHalf (number : String) : Option ℚ :=
  if number = "2" then some 2 else if number = "0.5" then some (1 / 2) else none

/-- A stand-in for the two-argument setter of the temperature scale: it stores
the unit and the scale. -/
def storeTemperatureScale (scale : ℚ) (unit : UnitHandler.TemperatureUnit)
    (handler : UnitHandler) : Except Failure UnitHandler :=
  Except.ok { handler with temperatureUnit := unit, temperatureScale := scale }


namespace WignerSeitzCell

/-- A stand-in for the operations of `Vector3d` over the rationals, with the
taxicab norm in place of the Euclidean one. -/
def taxicab : Vector3dOperations where
  add := fun v w => List.zipWith (fun a b => a + b) v w
  sub := fun v w => List.zipWith (fun a b => a - b) v w
  cross := fun v w =>
    [v.getD 1 0 * w.getD 2 0 - v.getD 2 0 * w.getD 1 0,
      v.getD 2 0 * w.getD 0 0 - v.getD 0 0 * w.getD 2 0,
      v.getD 0 0 * w.getD 1 0 - v.getD 1 0 * w.getD 0 0]
  times := fun v a => v.map fun b => b * a
  scaled := fun a v => v.map fun b => a * b
  over := fun v a => v.map fun b => b / a
  unit := fun v => v.map fun b => b / (v.map fun c => |c|).sum
  norm := fun v => (v.map fun c => |c|).sum
  perpendicular := fun v w =>
    List.zipWith (fun a b => a - b) v
      (w.map fun b => b * ((List.zipWith (fun a c => a * c) v w).sum
        / (List.zipWith (fun a c => a * c) w w).sum))
  parallel := fun v w =>
    w.map fun b => b * ((List.zipWith (fun a c => a * c) v w).sum
      / (List.zipWith (fun a c => a * c) w w).sum)
  dotProduct := fun v w => (List.zipWith (fun a c => a * c) v w).sum

/-- The square cell with the basis vectors `(1, 0)` and `(0, 1)`. -/
def squareCell : WignerSeitzCell :=
  { dimensions := 2, basisVectors := [[1, 0, 0], [0, 1, 0], [0, 0, 1]] }

end WignerSeitzCell

/-! ## Coefficient generation -/

namespace ChebyshevSolver

variable {K : Type}

/-- C4. For every Hamiltonian, damping mask, from-index and to-indices,
`calculateCoefficients` fails with `InvalidArgument` when
`numCoefficients < 2`, and the coefficient buffer is left as it was. -/
theorem calculateCoefficients_invalid [CommRing K] (convolution : ℚ → Nat → Nat → K)
    (H : Hamiltonian K) (damping : Option (Nat → K)) (toIndices : List Index) (fromIndex : Index)
    (coefficients : List K) (numCoefficients : Int) (broadening : ℚ)
    (hnum : numCoefficients < 2) :
    calculateCoefficients convolution H damping toIndices fromIndex coefficients numCoefficients
        broadening
      = (Except.error Error.InvalidArgument, coefficients) := by
  simp only [calculateCoefficients, if_pos hnum]

/-- Witness of `calculateCoefficients_invalid`: one coefficient requested on
the two-site Hamiltonian. -/
theorem calculateCoefficients_invalid_witness :
    (1 : Int) < 2 ∧
    calculateCoefficients triangularKernel twoSite none [[0], [1]] [0] [7, 7] 1 (1 / 10000)
      = (Except.error Error.InvalidArgument, [7, 7]) :=
  ⟨by decide,
    calculateCoefficients_invalid triangularKernel twoSite none [[0], [1]] [0] [7, 7] 1
      (1 / 10000) (by decide)⟩

end ChebyshevSolver

/-! ## Bounds of the energy window -/

namespace ChebyshevSolver

variable {K : Type}

/-- The bounds check rejects exactly the windows that leave
`[-scaleFactor, scaleFactor]`. -/
theorem boundsRejected_iff (solver : ChebyshevSolver K) (lowerBound upperBound : ℚ) :
    boundsRejected solver lowerBound upperBound = true ↔
      lowerBound < -solver.scaleFactor ∨ upperBound > solver.scaleFactor := by
  simp [boundsRejected]

theorem boundsRejected_eq_false (solver : ChebyshevSolver K) (lowerBound upperBound : ℚ)
    (hlower : -solver.scaleFactor ≤ lowerBound) (hupper : upperBound ≤ solver.scaleFactor) :
    boundsRejected solver lowerBound upperBound = false := by
  simp [boundsRejected, hlower, hupper]

/-- C2. For every solver state and every argument list, `generateLookupTable`
and the direct `generateGreensFunction` fail with `InvalidArgument` whenever
`lowerBound < -scaleFactor` or `upperBound > scaleFactor`, for the scale factor
held by the solver, which is the value last given to `setScaleFactor`. -/
theorem bounds_rejection [CommRing K] (kernel : Kernel K) (solver : ChebyshevSolver K)
    (greensFunction coefficients : List K) (numCoefficients energyResolution : Int)
    (lowerBound upperBound : ℚ) (type : GreensFunctionType)
    (hbounds : lowerBound < -(getScaleFactor solver).1 ∨ upperBound > (getScaleFactor solver).1) :
    (generateLookupTable kernel solver numCoefficients energyResolution lowerBound
        upperBound).1 = Except.error Error.InvalidArgument ∧
    (generateGreensFunction kernel solver greensFunction coefficients numCoefficients
        energyResolution lowerBound upperBound type).1 = Except.error Error.InvalidArgument := by
  have hrej : boundsRejected solver lowerBound upperBound = true :=
    (boundsRejected_iff solver lowerBound upperBound).mpr hbounds
  simp only [generateLookupTable, generateGreensFunction, hrej, if_true, and_self]

/-- Witness of `bounds_rejection`: scale factor 5 set by `setScaleFactor`, upper
bound 6. -/
theorem bounds_rejection_witness :
    ((-5 : ℚ) < -(getScaleFactor (setScaleFactor (construct : ChebyshevSolver ℤ) 5)).1 ∨
      (6 : ℚ) > (getScaleFactor (setScaleFactor (construct : ChebyshevSolver ℤ) 5)).1) ∧
    (generateLookupTable sumKernel (setScaleFactor construct 5) 4 3 (-5) 6).1
      = Except.error Error.InvalidArgument ∧
    (generateGreensFunction sumKernel (setScaleFactor construct 5) [0, 0, 0] [1, 2, 3, 4] 4 3
      (-5) 6 GreensFunctionType.Retarded).1 = Except.error Error.InvalidArgument :=
  have h : (-5 : ℚ) < -(getScaleFactor (setScaleFactor (construct : ChebyshevSolver ℤ) 5)).1 ∨
      (6 : ℚ) > (getScaleFactor (setScaleFactor (construct : ChebyshevSolver ℤ) 5)).1 := by
    right
    show (6 : ℚ) > 5
    norm_num
  ⟨h, bounds_rejection sumKernel (setScaleFactor construct 5) [0, 0, 0] [1, 2, 3, 4] 4 3
    (-5) 6 GreensFunctionType.Retarded h⟩

end ChebyshevSolver

/-! ## The bounds invariant over sequences of calls -/

namespace ChebyshevSolver

variable {K : Type}

theorem run_nil [CommRing K] (kernel : Kernel K) (solver : ChebyshevSolver K) :
    run kernel solver [] = solver := rfl

theorem run_cons [CommRing K] (kernel : Kernel K) (solver : ChebyshevSolver K) (op : Op K)
    (ops : List (Op K)) :
    run kernel solver (op :: ops) = run kernel (step kernel solver op).2 ops := rfl

theorem run_append [CommRing K] (kernel : Kernel K) (solver : ChebyshevSolver K)
    (ops₁ ops₂ : List (Op K)) :
    run kernel solver (ops₁ ++ ops₂) = run kernel (run kernel solver ops₁) ops₂ := by
  simp only [run, List.foldl_append]

/-- A table that `generateLookupTable` accepts satisfies the bounds invariant
for the scale factor of that moment. -/
theorem tableBoundsValid_generateLookupTable [CommRing K] (kernel : Kernel K)
    (solver : ChebyshevSolver K) (numCoefficients energyResolution : Int)
    (lowerBound upperBound : ℚ) (hvalid : tableBoundsValid solver) :
    tableBoundsValid
      (generateLookupTable kernel solver numCoefficients energyResolution lowerBound
        upperBound).2 := by
  unfold generateLookupTable
  by_cases hrej : boundsRejected solver lowerBound upperBound = true
  · rw [if_pos hrej]; exact hvalid
  · rw [if_neg hrej]
    simp only [boundsRejected, Bool.or_eq_true, decide_eq_true_eq, not_or, not_lt] at hrej
    exact ⟨hrej.1, hrej.2⟩

/-- One call keeps the bounds invariant, provided a `setScaleFactor` call is
given a scale factor that covers the bounds of the generated table. -/
theorem tableBoundsValid_step [CommRing K] (kernel : Kernel K) (solver : ChebyshevSolver K)
    (op : Op K) (hvalid : tableBoundsValid solver) (hop : respectsTableBounds solver op) :
    tableBoundsValid (step kernel solver op).2 := by
  cases op with
  | setScaleFactor scaleFactor =>
    simp only [step, setScaleFactor, tableBoundsValid]
    simp only [respectsTableBounds] at hop
    exact hop
  | generateLookupTable numCoefficients energyResolution lowerBound upperBound =>
    exact tableBoundsValid_generateLookupTable kernel solver _ _ _ _ hvalid
  | loadLookupTableGPU deviceAvailable =>
    cases deviceAvailable with
    | false => exact hvalid
    | true =>
      simp only [step, loadLookupTableGPU, if_true]
      unfold tableBoundsValid at hvalid ⊢
      cases htable : solver.generatingFunctionLookupTable with
      | none => simp [htable]
      | some table => simpa [htable] using hvalid
  | destroyLookupTable => simp [step, destroyLookupTable, tableBoundsValid]
  | getLookupTableIsGenerated =>
    simp only [step, getLookupTableIsGenerated]
    cases htable : solver.generatingFunctionLookupTable <;> exact hvalid
  | getLookupTableIsLoadedGPU =>
    simp only [step, getLookupTableIsLoadedGPU]
    cases htable : solver.generatingFunctionLookupTable_device <;> exact hvalid
  | setModel model => exact hvalid
  | getModel => exact hvalid
  | getScaleFactor => exact hvalid
  | destroyLookupTableGPU => exact hvalid
  | setDamping damping => exact hvalid
  | setTalkative isTalkative => exact hvalid

/-- C3 (amended). In every solver state reached by public calls in which each
`setScaleFactor` call made while a lookup table is generated is given a scale
factor that still covers the bounds of that table, the bounds of the generated
table satisfy `lowerBound ≥ -scaleFactor` and `upperBound ≤ scaleFactor` for
the solver's current scale factor; every other public call preserves this
without condition. -/
theorem tableBoundsValid_run [CommRing K] (kernel : Kernel K) (ops : List (Op K)) :
    ∀ (solver : ChebyshevSolver K), tableBoundsValid solver →
      runRespectsTableBounds kernel solver ops →
      tableBoundsValid (run kernel solver ops) := by
  induction ops with
  | nil => intro solver hvalid _; exact hvalid
  | cons op ops ih =>
    intro solver hvalid hrun
    rw [run_cons]
    exact ih _ (tableBoundsValid_step kernel solver op hvalid hrun.1) hrun.2

/-- Witness of `tableBoundsValid_run`: a fresh solver, a table on `[-1, 1]`,
then the scale factor raised to 2. -/
theorem tableBoundsValid_run_witness :
    tableBoundsValid (construct : ChebyshevSolver ℤ) ∧
    runRespectsTableBounds sumKernel (construct : ChebyshevSolver ℤ)
      [Op.generateLookupTable 2 2 (-1) 1, Op.setScaleFactor 2, Op.loadLookupTableGPU true] ∧
    tableBoundsValid (run sumKernel (construct : ChebyshevSolver ℤ)
      [Op.generateLookupTable 2 2 (-1) 1, Op.setScaleFactor 2, Op.loadLookupTableGPU true]) :=
  have hfresh : tableBoundsValid (construct : ChebyshevSolver ℤ) := trivial
  have hrun : runRespectsTableBounds sumKernel (construct : ChebyshevSolver ℤ)
      [Op.generateLookupTable 2 2 (-1) 1, Op.setScaleFactor 2, Op.loadLookupTableGPU true] := by
    simp only [runRespectsTableBounds, respectsTableBounds, step, generateLookupTable,
      boundsRejected, construct, setScaleFactor]
    norm_num
  ⟨hfresh, hrun, tableBoundsValid_run sumKernel _ _ hfresh hrun⟩

/-- C3, counterexample. A fresh solver (scale factor 1) generates a table on
`[-1, 1]`, which satisfies the bounds invariant; `setScaleFactor(1/2)` is then
accepted and leaves a generated table whose bounds lie outside
`[-scaleFactor, scaleFactor]`. -/
theorem tableBoundsValid_setScaleFactor_counterexample :
    tableBoundsValid (run sumKernel (construct : ChebyshevSolver ℤ)
      [Op.generateLookupTable 2 2 (-1) 1]) ∧
    (getLookupTableIsGenerated (run sumKernel (construct : ChebyshevSolver ℤ)
      [Op.generateLookupTable 2 2 (-1) 1, Op.setScaleFactor (1 / 2)])).1 = true ∧
    ¬ tableBoundsValid (run sumKernel (construct : ChebyshevSolver ℤ)
      [Op.generateLookupTable 2 2 (-1) 1, Op.setScaleFactor (1 / 2)]) := by
  refine ⟨?_, ?_, ?_⟩
  · simp only [run, List.foldl, step, generateLookupTable, boundsRejected, construct,
      tableBoundsValid]
    norm_num
  · simp only [run, List.foldl, step, generateLookupTable, boundsRejected, construct,
      setScaleFactor, getLookupTableIsGenerated]
    norm_num
  · simp only [run, List.foldl, step, generateLookupTable, boundsRejected, construct,
      tableBoundsValid, setScaleFactor]
    norm_num

end ChebyshevSolver

/-! ## Lifecycle of the lookup table -/

namespace ChebyshevSolver

variable {K : Type}

theorem getLookupTableIsGenerated_fst (solver : ChebyshevSolver K) :
    (getLookupTableIsGenerated solver).1 = solver.generatingFunctionLookupTable.isSome := by
  unfold getLookupTableIsGenerated
  cases solver.generatingFunctionLookupTable <;> rfl

theorem getLookupTableIsGenerated_snd (solver : ChebyshevSolver K) :
    (getLookupTableIsGenerated solver).2 = solver := by
  unfold getLookupTableIsGenerated
  cases solver.generatingFunctionLookupTable <;> rfl

theorem getLookupTableIsLoadedGPU_fst (solver : ChebyshevSolver K) :
    (getLookupTableIsLoadedGPU solver).1
      = solver.generatingFunctionLookupTable_device.isSome := by
  unfold getLookupTableIsLoadedGPU
  cases solver.generatingFunctionLookupTable_device <;> rfl

theorem getLookupTableIsLoadedGPU_snd (solver : ChebyshevSolver K) :
    (getLookupTableIsLoadedGPU solver).2 = solver := by
  unfold getLookupTableIsLoadedGPU
  cases solver.generatingFunctionLookupTable_device <;> rfl

/-- The effect of one call on the answer of `getLookupTableIsGenerated`: it is
true afterwards exactly when the call is a successful `generateLookupTable`, or
it was true before and the call is not `destroyLookupTable`. -/
theorem isGenerated_step [CommRing K] (kernel : Kernel K) (solver : ChebyshevSolver K)
    (op : Op K) :
    (getLookupTableIsGenerated (step kernel solver op).2).1 = true ↔
      (∃ (numCoefficients energyResolution : Int) (lowerBound upperBound : ℚ),
        op = Op.generateLookupTable numCoefficients energyResolution lowerBound upperBound ∧
        (step kernel solver op).1 = Except.ok ()) ∨
      ((getLookupTableIsGenerated solver).1 = true ∧ op ≠ Op.destroyLookupTable) := by
  simp only [getLookupTableIsGenerated_fst]
  cases op with
  | generateLookupTable numCoefficients energyResolution lowerBound upperBound =>
    simp only [step, generateLookupTable]
    by_cases hrej : boundsRejected solver lowerBound upperBound = true
    · simp [hrej]
    · simp [hrej]
  | destroyLookupTable => simp [step, destroyLookupTable]
  | loadLookupTableGPU deviceAvailable =>
    cases deviceAvailable with
    | false => simp [step, loadLookupTableGPU]
    | true =>
      simp only [step, loadLookupTableGPU, if_true]
      cases htable : solver.generatingFunctionLookupTable <;> simp [htable]
  | getLookupTableIsGenerated => simp [step, getLookupTableIsGenerated_snd]
  | getLookupTableIsLoadedGPU => simp [step, getLookupTableIsLoadedGPU_snd]
  | setModel model => simp [step, setModel]
  | getModel => simp [step, getModel]
  | setScaleFactor scaleFactor => simp [step, setScaleFactor]
  | getScaleFactor => simp [step, getScaleFactor]
  | destroyLookupTableGPU => simp [step, destroyLookupTableGPU]
  | setDamping damping => simp [step, setDamping]
  | setTalkative isTalkative => simp [step, setTalkative]

/-- How the trace property extends by one call at the end of the sequence. -/
theorem generatedAndNotDestroyed_concat [CommRing K] (kernel : Kernel K)
    (solver : ChebyshevSolver K) (ops : List (Op K)) (op : Op K) :
    generatedAndNotDestroyed kernel solver (ops ++ [op]) ↔
      (∃ (numCoefficients energyResolution : Int) (lowerBound upperBound : ℚ),
        op = Op.generateLookupTable numCoefficients energyResolution lowerBound upperBound ∧
        (step kernel (run kernel solver ops) op).1 = Except.ok ()) ∨
      (generatedAndNotDestroyed kernel solver ops ∧ op ≠ Op.destroyLookupTable) := by
  constructor
  · rintro ⟨before, after, nc, er, lb, ub, hops, hok, hafter⟩
    rcases List.eq_nil_or_concat after with hnil | ⟨after', last, hconcat⟩
    · subst hnil
      have hsplit := List.append_inj' hops rfl
      left
      refine ⟨nc, er, lb, ub, ?_, ?_⟩
      · simpa using hsplit.2
      · rw [hsplit.1]
        have hop : op = Op.generateLookupTable nc er lb ub := by simpa using hsplit.2
        rw [hop]; exact hok
    · rw [List.concat_eq_append] at hconcat
      subst hconcat
      have hsplit : ops = before ++ Op.generateLookupTable nc er lb ub :: after'
          ∧ [op] = [last] := by
        have hassoc : ops ++ [op]
            = (before ++ Op.generateLookupTable nc er lb ub :: after') ++ [last] := by
          rw [hops]; simp
        exact @List.append_inj' _ ops [op]
          (before ++ Op.generateLookupTable nc er lb ub :: after') [last] hassoc rfl
      have hop : op = last := by simpa using hsplit.2
      right
      refine ⟨⟨before, after', nc, er, lb, ub, hsplit.1, hok, ?_⟩, ?_⟩
      · intro hmem; exact hafter (List.mem_append_left _ hmem)
      · intro hdestroy
        apply hafter
        rw [← hop, hdestroy]
        simp
  · rintro (⟨nc, er, lb, ub, hop, hok⟩ |
      ⟨⟨before, after, nc, er, lb, ub, hops, hok, hafter⟩, hne⟩)
    · refine ⟨ops, [], nc, er, lb, ub, by rw [hop], ?_, by simp⟩
      rw [← hop]; exact hok
    · refine ⟨before, after ++ [op], nc, er, lb, ub, by rw [hops]; simp, hok, ?_⟩
      intro hmem
      rcases List.mem_append.mp hmem with h | h
      · exact hafter h
      · have hop : Op.destroyLookupTable = op := by simpa using h
        exact hne hop.symm

/-- From a solver without a host table, the answer of
`getLookupTableIsGenerated` after any sequence of calls follows the trace. -/
theorem isGenerated_run [CommRing K] (kernel : Kernel K) (solver : ChebyshevSolver K)
    (hnone : solver.generatingFunctionLookupTable = none) (ops : List (Op K)) :
    (getLookupTableIsGenerated (run kernel solver ops)).1 = true ↔
      generatedAndNotDestroyed kernel solver ops := by
  induction ops using List.reverseRecOn with
  | nil =>
    rw [run_nil, getLookupTableIsGenerated_fst, hnone]
    constructor
    · intro h; simp at h
    · rintro ⟨before, after, nc, er, lb, ub, hops, _, _⟩
      simp at hops
  | append_singleton ops op ih =>
    rw [generatedAndNotDestroyed_concat, ← ih, run_append, run_cons, run_nil]
    exact isGenerated_step kernel (run kernel solver ops) op

/-- C5. Starting from a freshly constructed solver, after any sequence of
public calls (among them `generateLookupTable`, `destroyLookupTable`,
`loadLookupTableGPU` and `destroyLookupTableGPU`), `getLookupTableIsGenerated`
returns true if and only if a successful `generateLookupTable` has occurred
and no `destroyLookupTable` has occurred after it. -/
theorem getLookupTableIsGenerated_lifecycle [CommRing K] (kernel : Kernel K)
    (ops : List (Op K)) :
    (getLookupTableIsGenerated (run kernel construct ops)).1 = true ↔
      generatedAndNotDestroyed kernel construct ops :=
  isGenerated_run kernel construct rfl ops

end ChebyshevSolver

/-! ## State queries and preconditions of the table path -/

namespace ChebyshevSolver

variable {K : Type}

/-- C6. `getLookupTableIsGenerated` returns true exactly when the host
lookup-table reference is present and `getLookupTableIsLoadedGPU` returns true
exactly when the device lookup-table reference is present; two solvers that
agree on that one field get the same answer, and neither call changes any
field of the solver. -/
theorem lookupTable_queries (solver other : ChebyshevSolver K) :
    ((getLookupTableIsGenerated solver).1 = true ↔
      solver.generatingFunctionLookupTable ≠ none) ∧
    ((getLookupTableIsLoadedGPU solver).1 = true ↔
      solver.generatingFunctionLookupTable_device ≠ none) ∧
    (solver.generatingFunctionLookupTable = other.generatingFunctionLookupTable →
      (getLookupTableIsGenerated solver).1 = (getLookupTableIsGenerated other).1) ∧
    (solver.generatingFunctionLookupTable_device = other.generatingFunctionLookupTable_device →
      (getLookupTableIsLoadedGPU solver).1 = (getLookupTableIsLoadedGPU other).1) ∧
    (getLookupTableIsGenerated solver).2 = solver ∧
    (getLookupTableIsLoadedGPU solver).2 = solver := by
  refine ⟨?_, ?_, ?_, ?_, getLookupTableIsGenerated_snd solver,
    getLookupTableIsLoadedGPU_snd solver⟩
  · rw [getLookupTableIsGenerated_fst, Option.isSome_iff_ne_none]
  · rw [getLookupTableIsLoadedGPU_fst, Option.isSome_iff_ne_none]
  · intro h
    rw [getLookupTableIsGenerated_fst, getLookupTableIsGenerated_fst, h]
  · intro h
    rw [getLookupTableIsLoadedGPU_fst, getLookupTableIsLoadedGPU_fst, h]

/-- Witness of `lookupTable_queries`: the solver holding a host table and the
same solver after a change of scale factor and a load onto the device. -/
theorem lookupTable_queries_witness :
    (getLookupTableIsGenerated tableSolver).1 = true ∧
    (getLookupTableIsLoadedGPU tableSolver).1 = false ∧
    (getLookupTableIsGenerated tableSolver).1
      = (getLookupTableIsGenerated (loadLookupTableGPU true (setScaleFactor tableSolver 3)).2).1 ∧
    (getLookupTableIsLoadedGPU (setScaleFactor tableSolver 3)).1
      = (getLookupTableIsLoadedGPU tableSolver).1 :=
  ⟨(lookupTable_queries tableSolver tableSolver).1.mpr (by simp [tableSolver,
      generateLookupTable, boundsRejected, construct]),
    by rw [getLookupTableIsLoadedGPU_fst]; simp [tableSolver, generateLookupTable,
      boundsRejected, construct],
    (lookupTable_queries tableSolver
      (loadLookupTableGPU true (setScaleFactor tableSolver 3)).2).2.2.1 (by
        simp [tableSolver, generateLookupTable, boundsRejected, construct, setScaleFactor,
          loadLookupTableGPU]),
    (lookupTable_queries (setScaleFactor tableSolver 3) tableSolver).2.2.2.1 rfl⟩

/-- A call other than `generateLookupTable` does not create a host table. -/
theorem noTable_step [CommRing K] (kernel : Kernel K) (solver : ChebyshevSolver K) (op : Op K)
    (hnone : solver.generatingFunctionLookupTable = none)
    (hop : ∀ (numCoefficients energyResolution : Int) (lowerBound upperBound : ℚ),
      op ≠ Op.generateLookupTable numCoefficients energyResolution lowerBound upperBound) :
    (step kernel solver op).2.generatingFunctionLookupTable = none := by
  cases op with
  | generateLookupTable numCoefficients energyResolution lowerBound upperBound =>
    exact absurd rfl (hop numCoefficients energyResolution lowerBound upperBound)
  | destroyLookupTable => rfl
  | loadLookupTableGPU deviceAvailable =>
    cases deviceAvailable with
    | false => exact hnone
    | true => simp only [step, loadLookupTableGPU, if_true, hnone]
  | getLookupTableIsGenerated => simp only [step, getLookupTableIsGenerated_snd, hnone]
  | getLookupTableIsLoadedGPU => simp only [step, getLookupTableIsLoadedGPU_snd, hnone]
  | setModel model => exact hnone
  | getModel => exact hnone
  | setScaleFactor scaleFactor => exact hnone
  | getScaleFactor => exact hnone
  | destroyLookupTableGPU => exact hnone
  | setDamping damping => exact hnone
  | setTalkative isTalkative => exact hnone

/-- Before the first `generateLookupTable` there is no host table. -/
theorem noTable_run [CommRing K] (kernel : Kernel K) (ops : List (Op K)) :
    ∀ (solver : ChebyshevSolver K), solver.generatingFunctionLookupTable = none →
      (∀ (numCoefficients energyResolution : Int) (lowerBound upperBound : ℚ),
        Op.generateLookupTable numCoefficients energyResolution lowerBound upperBound ∉ ops) →
      (run kernel solver ops).generatingFunctionLookupTable = none := by
  induction ops with
  | nil => intro solver hnone _; exact hnone
  | cons op ops ih =>
    intro solver hnone hops
    rw [run_cons]
    apply ih
    · apply noTable_step kernel solver op hnone
      intro nc er lb ub heq
      exact hops nc er lb ub (by rw [heq]; simp)
    · intro nc er lb ub hmem
      exact hops nc er lb ub (List.mem_cons_of_mem _ hmem)

/-- The table-driven reconstruction fails without a host table. -/
theorem generateGreensFunctionFromTable_none [CommRing K] (kernel : Kernel K)
    (solver : ChebyshevSolver K) (greensFunction coefficients : List K)
    (type : GreensFunctionType) (hnone : solver.generatingFunctionLookupTable = none) :
    generateGreensFunctionFromTable kernel solver greensFunction coefficients type
      = (Except.error Error.PreconditionViolation, greensFunction) := by
  simp only [generateGreensFunctionFromTable, hnone]

/-- C7. The table-driven `generateGreensFunction(greensFunction, coefficients,
type)` fails with `PreconditionViolation` and leaves the output buffer
unchanged in every state where no host lookup table is generated; such are the
states reached from a fresh solver before the first `generateLookupTable`, and
the state after `destroyLookupTable`. -/
theorem generateGreensFunctionFromTable_requires_table [CommRing K] (kernel : Kernel K)
    (solver : ChebyshevSolver K) (ops : List (Op K)) (greensFunction coefficients : List K)
    (type : GreensFunctionType) :
    ((getLookupTableIsGenerated solver).1 = false →
      generateGreensFunctionFromTable kernel solver greensFunction coefficients type
        = (Except.error Error.PreconditionViolation, greensFunction)) ∧
    ((∀ (numCoefficients energyResolution : Int) (lowerBound upperBound : ℚ),
        Op.generateLookupTable numCoefficients energyResolution lowerBound upperBound ∉ ops) →
      generateGreensFunctionFromTable kernel (run kernel construct ops) greensFunction
        coefficients type = (Except.error Error.PreconditionViolation, greensFunction)) ∧
    generateGreensFunctionFromTable kernel (destroyLookupTable solver) greensFunction
      coefficients type = (Except.error Error.PreconditionViolation, greensFunction) := by
  refine ⟨?_, ?_, ?_⟩
  · intro hnot
    apply generateGreensFunctionFromTable_none
    rw [getLookupTableIsGenerated_fst] at hnot
    cases htable : solver.generatingFunctionLookupTable with
    | none => rfl
    | some table => rw [htable] at hnot; simp at hnot
  · intro hops
    exact generateGreensFunctionFromTable_none kernel _ _ _ _
      (noTable_run kernel ops construct rfl hops)
  · exact generateGreensFunctionFromTable_none kernel _ _ _ _ rfl

/-- Witness of `generateGreensFunctionFromTable_requires_table`: a table is
generated and destroyed again, after which the reconstruction fails and the
buffer `[9, 9]` is untouched; the same on a solver that only had its scale
factor set. -/
theorem generateGreensFunctionFromTable_requires_table_witness :
    (getLookupTableIsGenerated (destroyLookupTable tableSolver)).1 = false ∧
    generateGreensFunctionFromTable sumKernel (destroyLookupTable tableSolver) [9, 9] [1, 2]
      GreensFunctionType.Retarded = (Except.error Error.PreconditionViolation, [9, 9]) ∧
    generateGreensFunctionFromTable sumKernel
      (run sumKernel construct [Op.setScaleFactor 5, Op.loadLookupTableGPU true]) [9, 9] [1, 2]
      GreensFunctionType.Advanced = (Except.error Error.PreconditionViolation, [9, 9]) :=
  ⟨rfl,
    (generateGreensFunctionFromTable_requires_table sumKernel (destroyLookupTable tableSolver)
      [] [9, 9] [1, 2] GreensFunctionType.Retarded).1 rfl,
    (generateGreensFunctionFromTable_requires_table sumKernel construct
      [Op.setScaleFactor 5, Op.loadLookupTableGPU true] [9, 9] [1, 2]
      GreensFunctionType.Advanced).2.1 (by simp)⟩

end ChebyshevSolver

/-! ## Table-driven and direct reconstruction -/

namespace ChebyshevSolver

variable {K : Type}

/-- Reading the generated table at row `n`, column `k` gives the
generating-function value for coefficient index `n` at grid point `k`. -/
theorem lookupTableValues_getD [CommRing K] (kernel : Kernel K)
    (scaleFactor lowerBound upperBound : ℚ) (numCoefficients energyResolution n k : Nat)
    (hn : n < numCoefficients) (hk : k < energyResolution) :
    ((lookupTableValues kernel scaleFactor lowerBound upperBound numCoefficients
        energyResolution).getD n []).getD k 0
      = kernel.generatingFunction scaleFactor lowerBound upperBound energyResolution n k := by
  simp [lookupTableValues, List.getD_eq_getElem?_getD, List.getElem?_range hn,
    List.getElem?_range hk]

/-- Two ways of supplying the generating-function values give the same energy
sample when they agree on the coefficient indices that are summed. -/
theorem energySample_congr [CommRing K] (kernel : Kernel K) (type : GreensFunctionType)
    (coefficients : List K) (numCoefficients : Nat) (value value' : Nat → K)
    (hvalue : ∀ n, n < numCoefficients → value n = value' n) :
    energySample kernel type coefficients numCoefficients value
      = energySample kernel type coefficients numCoefficients value' := by
  unfold energySample
  congr 1
  apply List.map_congr_left
  intro n hn
  rw [hvalue n (List.mem_range.mp hn)]

/-- A call that keeps the lookup table leaves the host table and the two
dimensions stored with it as they are. -/
theorem keepsLookupTable_step [CommRing K] (kernel : Kernel K) (solver : ChebyshevSolver K)
    (op : Op K) (hop : keepsLookupTable op) :
    (step kernel solver op).2.generatingFunctionLookupTable
      = solver.generatingFunctionLookupTable ∧
    (step kernel solver op).2.lookupTableNumCoefficients = solver.lookupTableNumCoefficients ∧
    (step kernel solver op).2.lookupTableResolution = solver.lookupTableResolution := by
  cases op with
  | generateLookupTable numCoefficients energyResolution lowerBound upperBound =>
    exact absurd hop (by simp [keepsLookupTable])
  | destroyLookupTable => exact absurd hop (by simp [keepsLookupTable])
  | loadLookupTableGPU deviceAvailable =>
    cases deviceAvailable with
    | false => exact ⟨rfl, rfl, rfl⟩
    | true =>
      simp only [step, loadLookupTableGPU, if_true]
      cases htable : solver.generatingFunctionLookupTable <;> simp [htable]
  | getLookupTableIsGenerated => simp [step, getLookupTableIsGenerated_snd]
  | getLookupTableIsLoadedGPU => simp [step, getLookupTableIsLoadedGPU_snd]
  | setModel model => exact ⟨rfl, rfl, rfl⟩
  | getModel => exact ⟨rfl, rfl, rfl⟩
  | setScaleFactor scaleFactor => exact ⟨rfl, rfl, rfl⟩
  | getScaleFactor => exact ⟨rfl, rfl, rfl⟩
  | destroyLookupTableGPU => exact ⟨rfl, rfl, rfl⟩
  | setDamping damping => exact ⟨rfl, rfl, rfl⟩
  | setTalkative isTalkative => exact ⟨rfl, rfl, rfl⟩

/-- A sequence of calls that keep the lookup table leaves the host table and
the two dimensions stored with it as they are. -/
theorem keepsLookupTable_run [CommRing K] (kernel : Kernel K) (ops : List (Op K)) :
    ∀ (solver : ChebyshevSolver K), (∀ op, op ∈ ops → keepsLookupTable op) →
      (run kernel solver ops).generatingFunctionLookupTable
        = solver.generatingFunctionLookupTable ∧
      (run kernel solver ops).lookupTableNumCoefficients = solver.lookupTableNumCoefficients ∧
      (run kernel solver ops).lookupTableResolution = solver.lookupTableResolution := by
  induction ops with
  | nil => intro solver _; exact ⟨rfl, rfl, rfl⟩
  | cons op ops ih =>
    intro solver hops
    rw [run_cons]
    obtain ⟨h1, h2, h3⟩ := ih (step kernel solver op).2
      (fun other hother => hops other (List.mem_cons_of_mem _ hother))
    obtain ⟨k1, k2, k3⟩ := keepsLookupTable_step kernel solver op (hops op (List.mem_cons_self _ _))
    exact ⟨h1.trans k1, h2.trans k2, h3.trans k3⟩

/-- C10 (amended). For every coefficient sequence, kernel variant and
admissible `(numCoefficients, energyResolution, lowerBound, upperBound)`, that
is, bounds inside `[-scaleFactor, scaleFactor]`, `generateLookupTable`
succeeds, and after any sequence of calls that keep the generated table (no
further `generateLookupTable`, no `destroyLookupTable`) and leave the scale
factor at the value the table was generated under, the table-driven
`generateGreensFunction` yields the same outcome and the same energy samples
as the direct `generateGreensFunction` called with those parameters. -/
theorem table_equivalence [CommRing K] (kernel : Kernel K) (solver : ChebyshevSolver K)
    (ops : List (Op K)) (greensFunction coefficients : List K)
    (numCoefficients energyResolution : Int) (lowerBound upperBound : ℚ)
    (type : GreensFunctionType)
    (hlower : -solver.scaleFactor ≤ lowerBound) (hupper : upperBound ≤ solver.scaleFactor)
    (hkeeps : ∀ op, op ∈ ops → keepsLookupTable op)
    (hscale : (run kernel (generateLookupTable kernel solver numCoefficients energyResolution
      lowerBound upperBound).2 ops).scaleFactor = solver.scaleFactor) :
    (generateLookupTable kernel solver numCoefficients energyResolution lowerBound
        upperBound).1 = Except.ok () ∧
    generateGreensFunctionFromTable kernel
        (run kernel (generateLookupTable kernel solver numCoefficients energyResolution
          lowerBound upperBound).2 ops) greensFunction coefficients type
      = generateGreensFunction kernel
          (run kernel (generateLookupTable kernel solver numCoefficients energyResolution
            lowerBound upperBound).2 ops) greensFunction coefficients numCoefficients
          energyResolution lowerBound upperBound type := by
  have hrej := boundsRejected_eq_false solver lowerBound upperBound hlower hupper
  obtain ⟨htable, hcount, hresolution⟩ := keepsLookupTable_run kernel ops
    (generateLookupTable kernel solver numCoefficients energyResolution lowerBound
      upperBound).2 hkeeps
  have hrej2 : boundsRejected
      (run kernel (generateLookupTable kernel solver numCoefficients energyResolution
        lowerBound upperBound).2 ops) lowerBound upperBound = false :=
    boundsRejected_eq_false _ lowerBound upperBound (by rw [hscale]; exact hlower)
      (by rw [hscale]; exact hupper)
  refine ⟨by simp only [generateLookupTable, hrej, Bool.false_eq_true, if_false], ?_⟩
  simp only [generateGreensFunctionFromTable, generateGreensFunction, htable, hcount,
    hresolution, hrej2, hscale, Bool.false_eq_true, if_false]
  simp only [generateLookupTable, hrej, Bool.false_eq_true, if_false]
  congr 2
  apply List.map_congr_left
  intro k hk
  apply energySample_congr
  intro n hn
  exact lookupTableValues_getD kernel _ _ _ _ _ n k hn (List.mem_range.mp hk)

/-- Witness of `table_equivalence`: scale factor 1, window `[-1, 1]`, three
coefficients and two grid points, then a damping mask reset and a load onto
the device; both paths write the samples 8 and 14 over the first two entries of
the buffer. -/
theorem table_equivalence_witness :
    -(construct : ChebyshevSolver ℤ).scaleFactor ≤ (-1 : ℚ) ∧
    (1 : ℚ) ≤ (construct : ChebyshevSolver ℤ).scaleFactor ∧
    generateGreensFunction sumKernel
      (run sumKernel (generateLookupTable sumKernel construct 3 2 (-1) 1).2
        [Op.setDamping none, Op.loadLookupTableGPU true]) [0, 0, 5] [1, 2, 3] 3 2 (-1) 1
      GreensFunctionType.Retarded = (Except.ok (), [8, 14, 5]) ∧
    generateGreensFunctionFromTable sumKernel
        (run sumKernel (generateLookupTable sumKernel construct 3 2 (-1) 1).2
          [Op.setDamping none, Op.loadLookupTableGPU true]) [0, 0, 5] [1, 2, 3]
        GreensFunctionType.Retarded
      = generateGreensFunction sumKernel
          (run sumKernel (generateLookupTable sumKernel construct 3 2 (-1) 1).2
            [Op.setDamping none, Op.loadLookupTableGPU true]) [0, 0, 5] [1, 2, 3] 3 2 (-1) 1
          GreensFunctionType.Retarded :=
  have hlower : -(construct : ChebyshevSolver ℤ).scaleFactor ≤ (-1 : ℚ) := by
    show -(1 : ℚ) ≤ -1
    norm_num
  have hupper : (1 : ℚ) ≤ (construct : ChebyshevSolver ℤ).scaleFactor := by
    show (1 : ℚ) ≤ 1
    norm_num
  have hkeeps : ∀ op, op ∈ [(Op.setDamping none : Op ℤ), Op.loadLookupTableGPU true] →
      keepsLookupTable op := by
    intro op hop
    simp only [List.mem_cons, List.mem_singleton, List.not_mem_nil, or_false] at hop
    rcases hop with h | h <;> subst h <;> trivial
  have hscale : (run sumKernel (generateLookupTable sumKernel construct 3 2 (-1) 1).2
      [Op.setDamping none, Op.loadLookupTableGPU true]).scaleFactor
        = (construct : ChebyshevSolver ℤ).scaleFactor := by
    simp [run, step, generateLookupTable, boundsRejected, construct, setDamping,
      loadLookupTableGPU]
  have hequal := (table_equivalence sumKernel construct
    [Op.setDamping none, Op.loadLookupTableGPU true] [0, 0, 5] [1, 2, 3] 3 2 (-1) 1
    GreensFunctionType.Retarded hlower hupper hkeeps hscale).2
  ⟨hlower, hupper,
    by
      rw [← hequal]
      simp only [generateGreensFunctionFromTable, run, step, generateLookupTable,
        boundsRejected_eq_false _ _ _ hlower hupper, Bool.false_eq_true, if_false,
        List.foldl, setDamping, loadLookupTableGPU, if_true]
      exact Prod.ext rfl (by decide),
    hequal⟩

/-- C10, counterexample. A table is generated for two coefficients and two
grid points on `[-1, 1]` under the scale factor 2; `setScaleFactor(1)` then
keeps the table, and `[-1, 1]` is admissible under the new scale factor too.
The table-driven call writes the samples 1/2 and 1, the direct call with the
same parameters writes 0 and 1. -/
theorem table_equivalence_counterexample :
    (generateLookupTable powerKernel (setScaleFactor construct 2) 2 2 (-1) 1).1
      = Except.ok () ∧
    generateGreensFunctionFromTable powerKernel
        (setScaleFactor
          (generateLookupTable powerKernel (setScaleFactor construct 2) 2 2 (-1) 1).2 1)
        [9, 9] [1, 1] GreensFunctionType.Retarded
      = (Except.ok (), [1 / 2, 1]) ∧
    generateGreensFunction powerKernel
        (setScaleFactor
          (generateLookupTable powerKernel (setScaleFactor construct 2) 2 2 (-1) 1).2 1)
        [9, 9] [1, 1] 2 2 (-1) 1 GreensFunctionType.Retarded
      = (Except.ok (), [0, 1]) := by
  have hrej : boundsRejected (setScaleFactor (construct : ChebyshevSolver ℚ) 2) (-1) 1
      = false := by
    simp only [boundsRejected, setScaleFactor, construct]
    norm_num
  have hgenerated :
      generateLookupTable powerKernel (setScaleFactor construct 2) 2 2 (-1) 1
        = (Except.ok (),
            { (setScaleFactor construct 2 : ChebyshevSolver ℚ) with
              generatingFunctionLookupTable := some
                { values := lookupTableValues powerKernel 2 (-1) 1 2 2
                  lowerBound := -1
                  upperBound := 1 }
              lookupTableNumCoefficients := 2
              lookupTableResolution := 2 }) := by
    simp only [generateLookupTable, hrej, Bool.false_eq_true, if_false]
    rfl
  rw [hgenerated]
  refine ⟨rfl, ?_, ?_⟩
  · simp only [generateGreensFunctionFromTable, setScaleFactor, construct]
    refine Prod.ext rfl ?_
    simp [writeSamples, energySample, lookupTableValues, powerKernel, List.range,
      List.range.loop]
    norm_num
  · have hrej1 : ∀ solver : ChebyshevSolver ℚ, solver.scaleFactor = 1 →
        boundsRejected solver (-1) 1 = false := by
      intro solver hsolver
      simp only [boundsRejected, hsolver]
      norm_num
    unfold generateGreensFunction
    rw [hrej1 _ rfl]
    simp only [Bool.false_eq_true, if_false]
    refine Prod.ext rfl ?_
    simp [writeSamples, energySample, powerKernel, List.range, List.range.loop, setScaleFactor]

end ChebyshevSolver

/-! ## Damping mask and scale factor -/

namespace ChebyshevSolver

variable {K : Type}

/-- A mask of ones leaves a state vector as the unset mask does. -/
theorem applyDamping_ones [CommRing K] {N : Nat} (mask : Nat → K)
    (hones : ∀ i, i < N → mask i = 1) (v : Fin N → K) :
    applyDamping (some mask) v = applyDamping none v := by
  funext i
  simp only [applyDamping, hones i.val i.isLt, mul_one]

theorem recursionLoop_ones [CommRing K] (H : Hamiltonian K) (mask : Nat → K)
    (hones : ∀ i, i < H.basisSize → mask i = 1) (toIndices : List Index)
    (numCoefficients : Nat) :
    ∀ (steps n : Nat) (vPrev2 vPrev1 : Fin H.basisSize → K) (coefficients : List K),
      recursionLoop H (some mask) toIndices numCoefficients steps n vPrev2 vPrev1 coefficients
        = recursionLoop H none toIndices numCoefficients steps n vPrev2 vPrev1
            coefficients := by
  intro steps
  induction steps with
  | zero => intro n vPrev2 vPrev1 coefficients; rfl
  | succ steps ih =>
    intro n vPrev2 vPrev1 coefficients
    simp only [recursionLoop, recursionStep]
    rw [applyDamping_ones mask hones, ih]

/-- C11. For every Hamiltonian, from-index, to-indices and number of
coefficients, `calculateCoefficients` with the damping mask set (`setDamping`)
to an array of all ones produces the same outcome and the same coefficients as
with the damping mask set to NULL; with the mask unset a recursion step is
`2·H_scaled·v_{n-1} - v_{n-2}` with no factor applied, and the seed
`H_scaled·v_0` is taken as it is. -/
theorem damping_neutrality [CommRing K] (convolution : ℚ → Nat → Nat → K) (H : Hamiltonian K)
    (solver : ChebyshevSolver K)
    (mask : Nat → K) (hones : ∀ i, i < H.basisSize → mask i = 1) (toIndices : List Index)
    (fromIndex : Index) (coefficients : List K) (numCoefficients : Int) (broadening : ℚ) :
    calculateCoefficients convolution H (setDamping solver (some mask)).damping toIndices
        fromIndex coefficients numCoefficients broadening
      = calculateCoefficients convolution H (setDamping solver none).damping toIndices
          fromIndex coefficients numCoefficients broadening ∧
    (∀ vPrev2 vPrev1 : Fin H.basisSize → K,
      recursionStep H (setDamping solver none).damping vPrev2 vPrev1
        = fun i => 2 * H.applyRescaled vPrev1 i - vPrev2 i) ∧
    (∀ v : Fin H.basisSize → K, applyDamping (setDamping solver none).damping v = v) := by
  refine ⟨?_, fun _ _ => rfl, fun _ => rfl⟩
  simp only [setDamping, calculateCoefficients]
  split
  · rfl
  · rw [applyDamping_ones mask hones, recursionLoop_ones H mask hones]

/-- Witness of `damping_neutrality`: the two-site Hamiltonian with the mask
that is 1 at every position. -/
theorem damping_neutrality_witness :
    (∀ i, i < twoSite.basisSize → (fun _ => (1 : ℤ)) i = 1) ∧
    calculateCoefficients triangularKernel twoSite
        (setDamping construct (some fun _ => 1)).damping [[0], [1]] [0] (List.replicate 8 0) 4
        (1 / 10000)
      = calculateCoefficients triangularKernel twoSite (setDamping construct none).damping
          [[0], [1]] [0] (List.replicate 8 0) 4 (1 / 10000) :=
  ⟨fun _ _ => rfl,
    (damping_neutrality triangularKernel twoSite construct (fun _ => 1) (fun _ _ => rfl)
      [[0], [1]] [0] (List.replicate 8 0) 4 (1 / 10000)).1⟩

/-- C12. For every value `s`, `setScaleFactor(s)` changes the scale factor of
the solver to `s` and changes no other field (model, damping mask, host and
device lookup tables, table dimensions, talkative flag); a following
`getScaleFactor` returns `s`, and the answers of `getLookupTableIsGenerated`
and `getLookupTableIsLoadedGPU` are as before. -/
theorem setScaleFactor_frame (solver : ChebyshevSolver K) (s : ℚ) :
    (setScaleFactor solver s).scaleFactor = s ∧
    (setScaleFactor solver s).model = solver.model ∧
    (setScaleFactor solver s).damping = solver.damping ∧
    (setScaleFactor solver s).generatingFunctionLookupTable
      = solver.generatingFunctionLookupTable ∧
    (setScaleFactor solver s).generatingFunctionLookupTable_device
      = solver.generatingFunctionLookupTable_device ∧
    (setScaleFactor solver s).lookupTableNumCoefficients = solver.lookupTableNumCoefficients ∧
    (setScaleFactor solver s).lookupTableResolution = solver.lookupTableResolution ∧
    (setScaleFactor solver s).isTalkative = solver.isTalkative ∧
    (getScaleFactor (setScaleFactor solver s)).1 = s ∧
    (getLookupTableIsGenerated (setScaleFactor solver s)).1
      = (getLookupTableIsGenerated solver).1 ∧
    (getLookupTableIsLoadedGPU (setScaleFactor solver s)).1
      = (getLookupTableIsLoadedGPU solver).1 := by
  refine ⟨rfl, rfl, rfl, rfl, rfl, rfl, rfl, rfl, rfl, ?_, ?_⟩
  · rw [getLookupTableIsGenerated_fst, getLookupTableIsGenerated_fst]; rfl
  · rw [getLookupTableIsLoadedGPU_fst, getLookupTableIsLoadedGPU_fst]; rfl

end ChebyshevSolver

/-! ## The absorbing-boundary damping factor -/

namespace ChebyshevSolver

variable {K : Type}

/-- C13. For a boundary region of size `boundarySize >= 0`,
`getMonolopoulosABCDamping` returns `exp(-gamma)` with `gamma = 0`, that is
exactly 1, for every point in the interior (`distanceToEdge >= boundarySize`),
and returns 0 (`gamma` infinite) for every point outside the edge
(`distanceToEdge < 0`). -/
theorem getMonolopoulosABCDamping_regions [CommRing K] (boundaryDamping : ℚ → ℚ → ℚ → ℚ → K)
    (distanceToEdge boundarySize e c : ℚ) (hsize : 0 ≤ boundarySize) :
    (boundarySize ≤ distanceToEdge →
      getMonolopoulosABCDamping boundaryDamping distanceToEdge boundarySize e c = 1) ∧
    (distanceToEdge < 0 →
      getMonolopoulosABCDamping boundaryDamping distanceToEdge boundarySize e c = 0) := by
  constructor
  · intro hinterior
    have hinside : 0 ≤ distanceToEdge := le_trans hsize hinterior
    simp only [getMonolopoulosABCDamping, if_neg (not_lt.mpr hinside),
      if_neg (not_lt.mpr hinterior)]
  · intro houtside
    simp only [getMonolopoulosABCDamping, if_pos houtside]

/-- Witness of `getMonolopoulosABCDamping_regions`: boundary of size 2, one
point at distance 3 from the edge and one at distance -1. -/
theorem getMonolopoulosABCDamping_regions_witness :
    (0 : ℚ) ≤ 2 ∧ (2 : ℚ) ≤ 3 ∧
    getMonolopoulosABCDamping (fun _ _ _ _ => (5 : ℤ)) 3 2 1 (262 / 100) = 1 ∧
    (-1 : ℚ) < 0 ∧
    getMonolopoulosABCDamping (fun _ _ _ _ => (5 : ℤ)) (-1) 2 1 (262 / 100) = 0 :=
  ⟨by norm_num, by norm_num,
    (getMonolopoulosABCDamping_regions (fun _ _ _ _ => (5 : ℤ)) 3 2 1 (262 / 100)
      (by norm_num)).1 (by norm_num),
    by norm_num,
    (getMonolopoulosABCDamping_regions (fun _ _ _ _ => (5 : ℤ)) (-1) 2 1 (262 / 100)
      (by norm_num)).2 (by norm_num)⟩

end ChebyshevSolver

/-! ## Amplitudes of the diagonalizing solver -/

namespace Diagonalizer

variable {K : Type}

/-- C14. For every state number `n` and every index `x` with basis index `b`
in a model of basis size `N`, `getAmplitude(n, x)` returns the element at
position `N*n + b` of the storage returned by `getEigenVectors`; that position
lies in `N*n .. N*n + N - 1`, and the element is the `b`-th component of the
`n`-th eigenvector under the documented layout. -/
theorem getAmplitude_layout (diagonalizer : Diagonalizer K) (n : Int) (x : Index) :
    getAmplitude diagonalizer n x
      = getEigenVectors diagonalizer
          ((diagonalizer.model.basisSize : Int) * n
            + ((diagonalizer.model.getBasisIndex x).val : Int)) ∧
    (diagonalizer.model.basisSize : Int) * n
      ≤ (diagonalizer.model.basisSize : Int) * n
          + ((diagonalizer.model.getBasisIndex x).val : Int) ∧
    (diagonalizer.model.basisSize : Int) * n
        + ((diagonalizer.model.getBasisIndex x).val : Int)
      ≤ (diagonalizer.model.basisSize : Int) * n + (diagonalizer.model.basisSize : Int) - 1 ∧
    (eigenVector diagonalizer n)[(diagonalizer.model.getBasisIndex x).val]?
      = some (getAmplitude diagonalizer n x) := by
  have hb := (diagonalizer.model.getBasisIndex x).isLt
  refine ⟨rfl, by omega, by omega, ?_⟩
  simp only [eigenVector, List.getElem?_map, List.getElem?_range hb, Option.map_some']
  rfl

end Diagonalizer

/-! ## The base property extractor -/

namespace PropertyExtractor

/-- C15. On the base `PropertyExtractor`, each of `calculateDensity`,
`calculateMagnetization`, `calculateLDOS`, `calculateSpinPolarizedLDOS`,
`calculateExpectationValue` and `calculateDOS` ends in the exit with the
message that the extractor does not support this function call, for every
extractor and every argument; none returns a value. -/
theorem base_calls_unsupported {Density Magnetization LDOS SpinPolarizedLDOS K DOS : Type}
    (extractor : PropertyExtractor) (pattern ranges : Index) :
    (calculateDensity extractor pattern ranges : Except Failure Density)
      = Except.error (Failure.exit "PropertyExtractor::calculateDensity()"
          "The chosen property extractor does not support this function call.") ∧
    (calculateMagnetization extractor pattern ranges : Except Failure Magnetization)
      = Except.error (Failure.exit "PropertyExtractor::calculateMagnetization()"
          "The chosen property extractor does not support this function call.") ∧
    (calculateLDOS extractor pattern ranges : Except Failure LDOS)
      = Except.error (Failure.exit "PropertyExtractor::calculateLDOS()"
          "The chosen property extractor does not support this function call.") ∧
    (calculateSpinPolarizedLDOS extractor pattern ranges : Except Failure SpinPolarizedLDOS)
      = Except.error (Failure.exit "PropertyExtractor::calculateSpinPolarizedLDOS()"
          "The chosen property extractor does not support this function call.") ∧
    (calculateExpectationValue extractor pattern ranges : Except Failure K)
      = Except.error (Failure.exit "PropertyExtractor::calculateExpectationValue()"
          "The chosen property extractor does not support this function call.") ∧
    (calculateDOS extractor : Except Failure DOS)
      = Except.error (Failure.exit "PropertyExtractor::calculateDOS()"
          "The chosen property extractor does not support this function call.") ∧
    (∀ density : Density, calculateDensity extractor pattern ranges ≠ Except.ok density) ∧
    (∀ magnetization : Magnetization,
      calculateMagnetization extractor pattern ranges ≠ Except.ok magnetization) ∧
    (∀ ldos : LDOS, calculateLDOS extractor pattern ranges ≠ Except.ok ldos) ∧
    (∀ ldos : SpinPolarizedLDOS,
      calculateSpinPolarizedLDOS extractor pattern ranges ≠ Except.ok ldos) ∧
    (∀ value : K, calculateExpectationValue extractor pattern ranges ≠ Except.ok value) ∧
    (∀ dos : DOS, calculateDOS extractor ≠ Except.ok dos) := by
  refine ⟨rfl, rfl, rfl, rfl, rfl, rfl, ?_, ?_, ?_, ?_, ?_, ?_⟩ <;>
    intro value h <;> cases h

end PropertyExtractor

/-! ## Range checks in the property extractor -/

namespace PropertyExtractor

/-- `ensureCompliantRanges` ends either normally or in the exception of
`ranges.at(n)`. -/
theorem ensureCompliantRangesFrom_outcome (pattern : List Int) :
    ∀ (n : Nat) (ranges : Index),
      (ensureCompliantRangesFrom n pattern ranges).1 = Except.ok () ∨
      (ensureCompliantRangesFrom n pattern ranges).1 = Except.error Failure.outOfRange := by
  induction pattern with
  | nil => intro n ranges; left; rfl
  | cons component rest ih =>
    intro n ranges
    simp only [ensureCompliantRangesFrom]
    split
    · split
      · exact ih _ _
      · right; rfl
    · exact ih _ _

/-- The loop of `ensureCompliantRanges` throws exactly when a non-negative
component of the pattern sits at a position that `ranges` does not have. -/
theorem ensureCompliantRangesFrom_error (pattern : List Int) :
    ∀ (n : Nat) (ranges : Index),
      (ensureCompliantRangesFrom n pattern ranges).1 = Except.error Failure.outOfRange ↔
        ∃ (i : Nat) (component : Int),
          pattern[i]? = some component ∧ 0 ≤ component ∧ ranges.length ≤ n + i := by
  induction pattern with
  | nil =>
    intro n ranges
    simp [ensureCompliantRangesFrom]
  | cons component rest ih =>
    intro n ranges
    simp only [ensureCompliantRangesFrom]
    by_cases hsign : component ≥ 0
    · rw [if_pos hsign]
      by_cases hrange : n < ranges.length
      · rw [if_pos hrange, ih, List.length_set]
        constructor
        · rintro ⟨i, c, hget, hc, hlen⟩
          exact ⟨i + 1, c, by simpa using hget, hc, by omega⟩
        · rintro ⟨i, c, hget, hc, hlen⟩
          cases i with
          | zero => omega
          | succ i => exact ⟨i, c, by simpa using hget, hc, by omega⟩
      · rw [if_neg hrange]
        constructor
        · intro _
          exact ⟨0, component, by simp, hsign, by omega⟩
        · intro _; rfl
    · rw [if_neg hsign, ih]
      constructor
      · rintro ⟨i, c, hget, hc, hlen⟩
        exact ⟨i + 1, c, by simpa using hget, hc, by omega⟩
      · rintro ⟨i, c, hget, hc, hlen⟩
        cases i with
        | zero =>
          simp only [List.getElem?_cons_zero, Option.some.injEq] at hget
          omega
        | succ i => exact ⟨i, c, by simpa using hget, hc, by omega⟩

theorem Index_at_ok (index : Index) (n : Nat) (hn : n < index.length) :
    Index.at index n = Except.ok (index.getD n 0) := by
  simp [Index.at, List.getD_eq_getElem?_getD, List.getElem?_eq_getElem hn]

theorem Index_at_error (index : Index) (n : Nat) (hn : index.length ≤ n) :
    Index.at index n = Except.error Failure.outOfRange := by
  simp [Index.at, List.getElem?_eq_none hn]

/-- The first loop throws when a listed position is not in the pattern. -/
theorem countLoopDimensions_error (IDX_SUM_ALL : Int) (pattern : Index) (positions : List Nat) :
    ∀ (lDimensions : Int), (∃ n, n ∈ positions ∧ pattern.length ≤ n) →
      countLoopDimensions IDX_SUM_ALL pattern positions lDimensions
        = Except.error Failure.outOfRange := by
  induction positions with
  | nil => intro _ h; simp at h
  | cons n rest ih =>
    intro lDimensions h
    simp only [countLoopDimensions]
    by_cases hn : n < pattern.length
    · rw [Index_at_ok pattern n hn]
      apply ih
      obtain ⟨m, hm, hlen⟩ := h
      rcases List.mem_cons.mp hm with heq | hmem
      · omega
      · exact ⟨m, hmem, hlen⟩
    · rw [Index_at_error pattern n (by omega)]

/-- The first loop runs through when every listed position is in the
pattern. -/
theorem countLoopDimensions_ok (IDX_SUM_ALL : Int) (pattern : Index) (positions : List Nat) :
    ∀ (lDimensions : Int), (∀ n, n ∈ positions → n < pattern.length) →
      ∃ count, countLoopDimensions IDX_SUM_ALL pattern positions lDimensions
        = Except.ok count := by
  induction positions with
  | nil => intro lDimensions _; exact ⟨lDimensions, rfl⟩
  | cons n rest ih =>
    intro lDimensions h
    simp only [countLoopDimensions]
    rw [Index_at_ok pattern n (h n (by simp))]
    exact ih _ (fun m hm => h m (List.mem_cons_of_mem _ hm))

/-- The second loop runs through when every listed position is in the pattern
and in the ranges. -/
theorem collectLoopRanges_ok (IDX_SUM_ALL : Int) (pattern ranges : Index)
    (positions : List Nat) :
    ∀ (lRanges : List Int),
      (∀ n, n ∈ positions → n < pattern.length ∧ n < ranges.length) →
      ∃ collected, collectLoopRanges IDX_SUM_ALL pattern ranges positions lRanges
        = Except.ok collected := by
  induction positions with
  | nil => intro lRanges _; exact ⟨lRanges, rfl⟩
  | cons n rest ih =>
    intro lRanges h
    simp only [collectLoopRanges]
    rw [Index_at_ok pattern n (h n (by simp)).1]
    simp only []
    split
    · rw [Index_at_ok ranges n (h n (by simp)).2]
      exact ih _ (fun m hm => h m (List.mem_cons_of_mem _ hm))
    · exact ih _ (fun m hm => h m (List.mem_cons_of_mem _ hm))

/-- C16 (amended). `ensureCompliantRanges` fails, by the exception of
`ranges.at(n)`, exactly when the pattern has a non-negative component at a
position that `ranges` does not have, and otherwise returns;
`getLoopRanges` fails, by the exception of `pattern.at(n)`, exactly when
`ranges` has more components than the pattern, and otherwise returns. -/
theorem ranges_failure (IDX_SUM_ALL : Int) (pattern ranges : Index) :
    ((ensureCompliantRanges pattern ranges).1 = Except.error Failure.outOfRange ↔
      ∃ (n : Nat) (component : Int),
        pattern[n]? = some component ∧ 0 ≤ component ∧ ranges.length ≤ n) ∧
    ((ensureCompliantRanges pattern ranges).1 = Except.ok () ↔
      ¬ ∃ (n : Nat) (component : Int),
        pattern[n]? = some component ∧ 0 ≤ component ∧ ranges.length ≤ n) ∧
    (getLoopRanges IDX_SUM_ALL pattern ranges = Except.error Failure.outOfRange ↔
      pattern.length < ranges.length) ∧
    ((∃ result, getLoopRanges IDX_SUM_ALL pattern ranges = Except.ok result) ↔
      ranges.length ≤ pattern.length) := by
  have herror : (ensureCompliantRanges pattern ranges).1 = Except.error Failure.outOfRange ↔
      ∃ (n : Nat) (component : Int),
        pattern[n]? = some component ∧ 0 ≤ component ∧ ranges.length ≤ n := by
    unfold ensureCompliantRanges
    rw [ensureCompliantRangesFrom_error]
    simp only [Nat.zero_add]
  have hloop : pattern.length < ranges.length →
      getLoopRanges IDX_SUM_ALL pattern ranges = Except.error Failure.outOfRange := by
    intro hlen
    unfold getLoopRanges
    rw [countLoopDimensions_error IDX_SUM_ALL pattern _ 0
      ⟨pattern.length, List.mem_range.mpr hlen, le_refl _⟩]
  have hreturn : ranges.length ≤ pattern.length →
      ∃ result, getLoopRanges IDX_SUM_ALL pattern ranges = Except.ok result := by
    intro hlen
    obtain ⟨count, hcount⟩ := countLoopDimensions_ok IDX_SUM_ALL pattern
      (List.range ranges.length) 0 (fun n hn => by
        have := List.mem_range.mp hn
        omega)
    obtain ⟨collected, hcollected⟩ := collectLoopRanges_ok IDX_SUM_ALL pattern ranges
      (List.range ranges.length) [] (fun n hn => by
        have := List.mem_range.mp hn
        exact ⟨by omega, this⟩)
    exact ⟨(count, collected), by simp only [getLoopRanges, hcount, hcollected]⟩
  refine ⟨herror, ?_, ⟨?_, hloop⟩, ⟨?_, hreturn⟩⟩
  · rw [← herror]
    rcases ensureCompliantRangesFrom_outcome pattern 0 ranges with hok | hfail
    · unfold ensureCompliantRanges
      rw [hok]
      simp
    · unfold ensureCompliantRanges
      rw [hfail]
      simp
  · intro hfail
    by_contra hlen
    obtain ⟨result, hresult⟩ := hreturn (by omega)
    rw [hresult] at hfail
    cases hfail
  · rintro ⟨result, hresult⟩
    by_contra hlen
    rw [hloop (by omega)] at hresult
    cases hresult

/-- C16, counterexample. Pattern and ranges with different numbers of
components on which the two functions return: `ensureCompliantRanges` with a
longer `ranges`, and with a longer pattern whose extra component is negative;
`getLoopRanges` with a longer pattern. -/
theorem ranges_failure_counterexample :
    ([0] : Index).length ≠ ([4, 5] : Index).length ∧
    ensureCompliantRanges [0] [4, 5] = (Except.ok (), [1, 5]) ∧
    ([0, -1] : Index).length ≠ ([4] : Index).length ∧
    ensureCompliantRanges [0, -1] [4] = (Except.ok (), [1]) ∧
    ([-3, 7] : Index).length ≠ ([4] : Index).length ∧
    getLoopRanges (-2) [-3, 7] [4] = Except.ok (1, [4]) := by
  refine ⟨by decide, ?_, by decide, ?_, by decide, ?_⟩
  · simp [ensureCompliantRanges, ensureCompliantRangesFrom]
  · simp [ensureCompliantRanges, ensureCompliantRangesFrom]
  · simp [getLoopRanges, countLoopDimensions, collectLoopRanges, Index.at]

end PropertyExtractor

/-! ## Construction of the Wigner-Seitz cell -/

namespace WignerSeitzCell

theorem vectorAt_ok {α : Type} (elements : List α) (n : Nat) (fallback : α)
    (hn : n < elements.length) :
    vectorAt elements n = Except.ok (elements.getD n fallback) := by
  simp [vectorAt, List.getD_eq_getElem?_getD, List.getElem?_eq_getElem hn]

/-- The range-checked reads of the components succeed on positions inside the
basis vector. -/
theorem componentsAt_ok (basisVector : List ℚ) (positions : List Nat)
    (hpositions : ∀ c, c ∈ positions → c < basisVector.length) :
    componentsAt basisVector positions
      = Except.ok (positions.map fun c => basisVector.getD c 0) := by
  induction positions with
  | nil => rfl
  | cons c rest ih =>
    simp only [componentsAt]
    rw [vectorAt_ok basisVector c 0 (hpositions c (by simp)),
      ih (fun m hm => hpositions m (List.mem_cons_of_mem _ hm))]
    rfl

/-- The loop stores every listed basis vector when all of them have
`dimensions` components. -/
theorem padInitializerList_ok (dimensions : Nat) (basisVectors : List (List ℚ))
    (positions : List Nat) :
    ∀ (stored : List (List ℚ)),
      (∀ n, n ∈ positions → (basisVectors.getD n []).length = dimensions) →
      padInitializerList dimensions basisVectors positions stored
        = Except.ok (stored ++ positions.map fun n =>
            paddedBasisVector dimensions fun c => (basisVectors.getD n []).getD c 0) := by
  induction positions with
  | nil => intro stored _; simp [padInitializerList]
  | cons n rest ih =>
    intro stored h
    simp only [padInitializerList, TBTKAssert, h n (by simp), decide_True, if_true]
    rw [ih _ (fun m hm => h m (List.mem_cons_of_mem _ hm))]
    simp

/-- The loop exits with 'Incompatible dimensions.' when a listed basis vector
has another number of components. -/
theorem padInitializerList_error (dimensions : Nat) (basisVectors : List (List ℚ))
    (positions : List Nat) :
    ∀ (stored : List (List ℚ)),
      (∃ n, n ∈ positions ∧ (basisVectors.getD n []).length ≠ dimensions) →
      padInitializerList dimensions basisVectors positions stored
        = Except.error (Failure.exit "WignerSeitzCell::WignerSeitzCell()"
            "Incompatible dimensions.") := by
  induction positions with
  | nil => intro _ h; simp at h
  | cons n rest ih =>
    intro stored h
    simp only [padInitializerList, TBTKAssert]
    by_cases hn : (basisVectors.getD n []).length = dimensions
    · simp only [hn, decide_True, if_true]
      apply ih
      obtain ⟨m, hm, hlen⟩ := h
      rcases List.mem_cons.mp hm with heq | hmem
      · exact absurd (heq ▸ hn) hlen
      · exact ⟨m, hmem, hlen⟩
    · simp only [hn, decide_False, Bool.false_eq_true, if_false, TBTKExit]

/-- On positions inside the vector of basis vectors, the loop of the vector
constructor does what the loop of the initializer-list constructor does: its
range-checked reads never throw. -/
theorem padVector_eq (dimensions : Nat) (basisVectors : List (List ℚ))
    (positions : List Nat) :
    ∀ (stored : List (List ℚ)), (∀ n, n ∈ positions → n < basisVectors.length) →
      padVector dimensions basisVectors positions stored
        = padInitializerList dimensions basisVectors positions stored := by
  induction positions with
  | nil => intro stored _; rfl
  | cons n rest ih =>
    intro stored h
    simp only [padVector, padInitializerList]
    rw [vectorAt_ok basisVectors n [] (h n (by simp))]
    simp only []
    by_cases hn : (basisVectors.getD n []).length = dimensions
    · simp only [TBTKAssert, hn, decide_True, if_true]
      rw [componentsAt_ok _ _ (fun c hc => by rw [hn]; exact List.mem_range.mp hc)]
      simp only []
      rw [ih _ (fun m hm => h m (List.mem_cons_of_mem _ hm))]
      rfl
    · simp only [TBTKAssert, hn, decide_False, Bool.false_eq_true, if_false, TBTKExit]

/-- Every basis vector has `d` components exactly when every position below
the number of basis vectors holds a vector of `d` components. -/
theorem all_lengths_iff (basisVectors : List (List ℚ)) (d : Nat) :
    (∀ n, n ∈ List.range basisVectors.length → (basisVectors.getD n []).length = d) ↔
      ∀ v, v ∈ basisVectors → v.length = d := by
  constructor
  · intro h v hv
    obtain ⟨n, hn, hget⟩ := List.getElem_of_mem hv
    have := h n (List.mem_range.mpr hn)
    rw [List.getD_eq_getElem?_getD, List.getElem?_eq_getElem hn, Option.getD_some, hget] at this
    exact this
  · intro h n hn
    have hlt := List.mem_range.mp hn
    rw [List.getD_eq_getElem?_getD, List.getElem?_eq_getElem hlt, Option.getD_some]
    exact h _ (List.getElem_mem _)

/-- C17. Both `WignerSeitzCell` constructors succeed if and only if the number
`d` of basis vectors is 1, 2 or 3 and every basis vector has exactly `d`
components; with another `d` they fail with 'Basis dimension not supported.',
with a supported `d` and a basis vector of another size with 'Incompatible
dimensions.'; and the two constructors give the same result on every input. -/
theorem constructors_accept (basisVectors : List (List ℚ)) :
    ((∃ cell, ofInitializerList basisVectors = Except.ok cell) ↔
      (basisVectors.length = 1 ∨ basisVectors.length = 2 ∨ basisVectors.length = 3) ∧
      ∀ v, v ∈ basisVectors → v.length = basisVectors.length) ∧
    (¬ (basisVectors.length = 1 ∨ basisVectors.length = 2 ∨ basisVectors.length = 3) →
      ofInitializerList basisVectors
        = Except.error (Failure.exit "WignerSeitzCell::WignerSeitzCell()"
            "Basis dimension not supported.")) ∧
    ((basisVectors.length = 1 ∨ basisVectors.length = 2 ∨ basisVectors.length = 3) →
      ¬ (∀ v, v ∈ basisVectors → v.length = basisVectors.length) →
      ofInitializerList basisVectors
        = Except.error (Failure.exit "WignerSeitzCell::WignerSeitzCell()"
            "Incompatible dimensions.")) ∧
    ofVector basisVectors = ofInitializerList basisVectors := by
  have hunsupported :
      ¬ (basisVectors.length = 1 ∨ basisVectors.length = 2 ∨ basisVectors.length = 3) →
      ofInitializerList basisVectors
        = Except.error (Failure.exit "WignerSeitzCell::WignerSeitzCell()"
            "Basis dimension not supported.") := by
    intro hd
    have hcheck : (decide (basisVectors.length = 1) || decide (basisVectors.length = 2)
        || decide (basisVectors.length = 3)) = false := by
      simp only [Bool.or_eq_false_iff, decide_eq_false_iff_not]
      tauto
    simp only [ofInitializerList, TBTKAssert, hcheck, Bool.false_eq_true, if_false, TBTKExit]
  have hincompatible :
      (basisVectors.length = 1 ∨ basisVectors.length = 2 ∨ basisVectors.length = 3) →
      ¬ (∀ v, v ∈ basisVectors → v.length = basisVectors.length) →
      ofInitializerList basisVectors
        = Except.error (Failure.exit "WignerSeitzCell::WignerSeitzCell()"
            "Incompatible dimensions.") := by
    intro hd hsizes
    have hcheck : (decide (basisVectors.length = 1) || decide (basisVectors.length = 2)
        || decide (basisVectors.length = 3)) = true := by
      simp only [Bool.or_eq_true, decide_eq_true_eq]
      tauto
    rw [← all_lengths_iff] at hsizes
    have hbad : ∃ n, n ∈ List.range basisVectors.length ∧
        (basisVectors.getD n []).length ≠ basisVectors.length := by
      by_contra hnone
      apply hsizes
      intro n hn
      by_contra hne
      exact hnone ⟨n, hn, hne⟩
    simp only [ofInitializerList, TBTKAssert, hcheck, if_true,
      padInitializerList_error _ _ _ [] hbad]
  have hok : (basisVectors.length = 1 ∨ basisVectors.length = 2 ∨ basisVectors.length = 3) →
      (∀ v, v ∈ basisVectors → v.length = basisVectors.length) →
      ∃ cell, ofInitializerList basisVectors = Except.ok cell := by
    intro hd hsizes
    have hcheck : (decide (basisVectors.length = 1) || decide (basisVectors.length = 2)
        || decide (basisVectors.length = 3)) = true := by
      simp only [Bool.or_eq_true, decide_eq_true_eq]
      tauto
    rw [← all_lengths_iff] at hsizes
    refine ⟨{ dimensions := basisVectors.length,
              basisVectors := ([] ++ (List.range basisVectors.length).map fun n =>
                paddedBasisVector basisVectors.length fun c =>
                  (basisVectors.getD n []).getD c 0) ++ completion basisVectors.length }, ?_⟩
    simp only [ofInitializerList, TBTKAssert, hcheck, if_true,
      padInitializerList_ok _ _ _ [] hsizes]
  refine ⟨⟨?_, fun h => hok h.1 h.2⟩, hunsupported, hincompatible, ?_⟩
  · rintro ⟨cell, hcell⟩
    by_cases hd : basisVectors.length = 1 ∨ basisVectors.length = 2 ∨ basisVectors.length = 3
    · refine ⟨hd, ?_⟩
      by_contra hsizes
      rw [hincompatible hd hsizes] at hcell
      cases hcell
    · rw [hunsupported hd] at hcell
      cases hcell
  · simp only [ofVector, ofInitializerList]
    rw [padVector_eq _ _ _ [] (fun n hn => List.mem_range.mp hn)]

end WignerSeitzCell


namespace WignerSeitzCell

/-- Witness of `constructors_accept`: two basis vectors of two components are
accepted by both constructors and stored padded, with the third axis
completing the basis; two basis vectors of which one has three components are
rejected; four basis vectors are rejected. -/
theorem constructors_accept_witness :
    ofInitializerList [[1, 0], [0, 1]]
      = Except.ok { dimensions := 2, basisVectors := [[1, 0, 0], [0, 1, 0], [0, 0, 1]] } ∧
    ofVector [[1, 0], [0, 1]] = ofInitializerList [[1, 0], [0, 1]] ∧
    ofInitializerList [[1, 0], [0, 1, 0]]
      = Except.error (Failure.exit "WignerSeitzCell::WignerSeitzCell()"
          "Incompatible dimensions.") ∧
    ofInitializerList [[1], [1], [1], [1]]
      = Except.error (Failure.exit "WignerSeitzCell::WignerSeitzCell()"
          "Basis dimension not supported.") :=
  ⟨by
      simp [ofInitializerList, TBTKAssert, padInitializerList, paddedBasisVector, completion,
        List.range, List.range.loop, List.range'],
    (constructors_accept [[1, 0], [0, 1]]).2.2.2,
    (constructors_accept [[1, 0], [0, 1, 0]]).2.2.1 (by decide) (by simp),
    (constructors_accept [[1], [1], [1], [1]]).2.1 (by decide)⟩

end WignerSeitzCell

/-! ## Default units of the constants -/

namespace UnitHandler

theorem defaultUnitConversionFactor_ok (handler : UnitHandler) (unit : String)
    (hunit : unit ∈ defaultUnitNames) :
    ∃ factor, defaultUnitConversionFactor handler unit = Except.ok factor := by
  simp only [defaultUnitNames, List.mem_cons, List.mem_singleton, List.not_mem_nil,
    or_false] at hunit
  rcases hunit with h | h | h | h | h | h <;> subst h <;>
    simp [defaultUnitConversionFactor]

theorem defaultUnitScale_ok (handler : UnitHandler) (unit : String)
    (hunit : unit ∈ defaultUnitNames) :
    ∃ scale, defaultUnitScale handler unit = Except.ok scale := by
  simp only [defaultUnitNames, List.mem_cons, List.mem_singleton, List.not_mem_nil,
    or_false] at hunit
  rcases hunit with h | h | h | h | h | h <;> subst h <;>
    simp [defaultUnitScale]

/-- A loop over an exponent runs through when the unit is known. -/
theorem repeatScale_ok (factor : Except Failure ℚ) (operation : ℚ → ℚ → ℚ)
    (hfactor : ∃ x, factor = Except.ok x) (rounds : Nat) :
    ∀ value, ∃ result, repeatScale factor operation rounds value = Except.ok result := by
  obtain ⟨x, hx⟩ := hfactor
  subst hx
  induction rounds with
  | zero => intro value; exact ⟨value, rfl⟩
  | succ rounds ih =>
    intro value
    simp only [repeatScale]
    exact ih _

theorem updateConstantValue_ok (handler : UnitHandler) (units : List (String × Int))
    (hunits : ∀ unit, unit ∈ units → unit.1 ∈ defaultUnitNames) :
    ∀ value, ∃ result, updateConstantValue handler units value = Except.ok result := by
  induction units with
  | nil => intro value; exact ⟨value, rfl⟩
  | cons unit rest ih =>
    intro value
    obtain ⟨name, exponent⟩ := unit
    have hfactor := defaultUnitConversionFactor_ok handler name (hunits (name, exponent) (by simp))
    simp only [updateConstantValue]
    obtain ⟨multiplied, hmultiplied⟩ :=
      repeatScale_ok _ (fun v x => v * x) hfactor exponent.toNat value
    rw [hmultiplied]
    obtain ⟨divided, hdivided⟩ :=
      repeatScale_ok _ (fun v x => v / x) hfactor (-exponent).toNat multiplied
    simp only [hdivided]
    exact ih (fun u hu => hunits u (List.mem_cons_of_mem _ hu)) _

theorem naturalUnitsValue_ok (handler : UnitHandler) (units : List (String × Int))
    (hunits : ∀ unit, unit ∈ units → unit.1 ∈ defaultUnitNames) :
    ∀ value, ∃ result, naturalUnitsValue handler units value = Except.ok result := by
  induction units with
  | nil => intro value; exact ⟨value, rfl⟩
  | cons unit rest ih =>
    intro value
    obtain ⟨name, exponent⟩ := unit
    have hscale := defaultUnitScale_ok handler name (hunits (name, exponent) (by simp))
    simp only [naturalUnitsValue]
    obtain ⟨divided, hdivided⟩ :=
      repeatScale_ok _ (fun v x => v / x) hscale exponent.toNat value
    rw [hdivided]
    obtain ⟨multiplied, hmultiplied⟩ :=
      repeatScale_ok _ (fun v x => v * x) hscale (-exponent).toNat divided
    simp only [hmultiplied]
    exact ih (fun u hu => hunits u (List.mem_cons_of_mem _ hu)) _

theorem updateConstantsLoop_ok (handler : UnitHandler)
    (table : List (String × ℚ × List (String × Int)))
    (htable : ∀ entry, entry ∈ table → ∀ unit, unit ∈ entry.2.2 → unit.1 ∈ defaultUnitNames) :
    ∀ baseUnits, ∃ result, updateConstantsLoop handler table baseUnits = Except.ok result := by
  induction table with
  | nil => intro baseUnits; exact ⟨baseUnits, rfl⟩
  | cons entry rest ih =>
    intro baseUnits
    obtain ⟨name, value, units⟩ := entry
    simp only [updateConstantsLoop]
    obtain ⟨converted, hconverted⟩ := updateConstantValue_ok handler units
      (htable (name, value, units) (by simp)) value
    rw [hconverted]
    exact ih (fun e he => htable e (List.mem_cons_of_mem _ he)) _

/-- `updateConstants` returns, with the table of constants untouched, when
every unit name in the table is a known reference unit. -/
theorem updateConstants_ok (handler : UnitHandler)
    (htable : ∀ entry, entry ∈ handler.constantsDefaultUnits →
      ∀ unit, unit ∈ entry.2.2 → unit.1 ∈ defaultUnitNames) :
    ∃ updated, updateConstants handler = Except.ok updated ∧
      updated.constantsDefaultUnits = handler.constantsDefaultUnits := by
  obtain ⟨baseUnits, hbase⟩ := updateConstantsLoop_ok handler handler.constantsDefaultUnits htable []
  exact ⟨{ handler with constantsBaseUnits := baseUnits },
    by simp only [updateConstants, hbase], rfl⟩

/-- The value read from a map is the fallback or the value of an entry. -/
theorem mapGet_mem {V : Type} (fallback : V) (table : List (String × V)) (key : String) :
    mapGet fallback table key = fallback ∨
      ∃ entry, entry ∈ table ∧ mapGet fallback table key = entry.2 := by
  unfold mapGet
  cases hfind : table.find? fun entry => entry.1 == key with
  | none => left; rfl
  | some entry => right; exact ⟨entry, List.mem_of_find?_eq_some hfind, rfl⟩

theorem getConstantNaturalUnits_ok (handler : UnitHandler)
    (htable : ∀ entry, entry ∈ handler.constantsDefaultUnits →
      ∀ unit, unit ∈ entry.2.2 → unit.1 ∈ defaultUnitNames) (name : String) :
    ∃ value, getConstantNaturalUnits handler name = Except.ok value := by
  unfold getConstantNaturalUnits
  apply naturalUnitsValue_ok
  rcases mapGet_mem ((0 : ℚ), ([] : List (String × Int))) handler.constantsDefaultUnits name
    with hfallback | ⟨entry, hentry, hvalue⟩
  · rw [hfallback]
    intro unit hunit
    simp at hunit
  · rw [hvalue]
    exact htable entry hentry

/-- The unit names in the table of `StaticConstructor`, constant by constant. -/
theorem staticConstants_unitNames (M_PI : ℚ) :
    (staticConstants M_PI).map (fun entry => entry.2.2.map fun unit => unit.1)
      = [["C"], ["m", "s"], ["pcs"], ["m"], ["eV", "s"], ["eV", "K"], ["eV", "s", "m"],
          ["eV", "s", "m"], ["eV", "s", "C", "m"], ["C", "eV", "m"], ["eV", "s"],
          ["C", "m", "s"], ["C", "m", "s"]] := by
  rfl

/-- Every unit name in the table of `StaticConstructor` is a known reference
unit. -/
theorem staticConstants_known (M_PI : ℚ) :
    ∀ entry, entry ∈ staticConstants M_PI →
      ∀ unit, unit ∈ entry.2.2 → unit.1 ∈ defaultUnitNames := by
  intro entry hentry unit hunit
  have hnames : (entry.2.2.map fun unit => unit.1)
      ∈ (staticConstants M_PI).map (fun entry => entry.2.2.map fun unit => unit.1) :=
    List.mem_map_of_mem _ hentry
  rw [staticConstants_unitNames] at hnames
  have hname : unit.1 ∈ entry.2.2.map fun unit => unit.1 := List.mem_map_of_mem _ hunit
  have hall : ∀ names, names ∈ [["C"], ["m", "s"], ["pcs"], ["m"], ["eV", "s"], ["eV", "K"],
      ["eV", "s", "m"], ["eV", "s", "m"], ["eV", "s", "C", "m"], ["C", "eV", "m"], ["eV", "s"],
      ["C", "m", "s"], ["C", "m", "s"]] → ∀ name, name ∈ names → name ∈ defaultUnitNames := by
    decide
  exact hall _ hnames _ hname

/-- The static constructor returns, and leaves the table it built. -/
theorem StaticConstructor_ok (M_PI : ℚ) :
    ∃ handler, StaticConstructor M_PI = Except.ok handler ∧
      handler.constantsDefaultUnits = staticConstants M_PI := by
  unfold StaticConstructor
  exact updateConstants_ok _ (staticConstants_known M_PI)

/-- C20. The constants defined by the static constructor of `UnitHandler` are
e, c, N_A, a_0, h, k_B, m_e, m_p, mu_0, epsilon_0, hbar, mu_B and mu_N, and
every unit name in their unit lists is one of K, s, m, eV, C, pcs; hence the
static constructor returns, and whatever the current units and scales are,
`updateConstants` returns and `getConstantNaturalUnits` returns for every
name: the 'Unknown default unit.' exit is not reached. -/
theorem static_constants_units_known (M_PI : ℚ) :
    (staticConstants M_PI).map (fun entry => entry.1)
      = ["e", "c", "N_A", "a_0", "h", "k_B", "m_e", "m_p", "mu_0", "epsilon_0", "hbar",
          "mu_B", "mu_N"] ∧
    (∀ entry, entry ∈ staticConstants M_PI →
      ∀ unit, unit ∈ entry.2.2 → unit.1 ∈ ["K", "s", "m", "eV", "C", "pcs"]) ∧
    (∃ handler, StaticConstructor M_PI = Except.ok handler ∧
      handler.constantsDefaultUnits = staticConstants M_PI) ∧
    (∀ handler : UnitHandler, handler.constantsDefaultUnits = staticConstants M_PI →
      (∃ updated, updateConstants handler = Except.ok updated) ∧
      ∀ name, ∃ value, getConstantNaturalUnits handler name = Except.ok value) := by
  refine ⟨rfl, staticConstants_known M_PI, StaticConstructor_ok M_PI, ?_⟩
  intro handler htable
  have hknown : ∀ entry, entry ∈ handler.constantsDefaultUnits →
      ∀ unit, unit ∈ entry.2.2 → unit.1 ∈ defaultUnitNames := by
    rw [htable]; exact staticConstants_known M_PI
  obtain ⟨updated, hupdated, _⟩ := updateConstants_ok handler hknown
  exact ⟨⟨updated, hupdated⟩, getConstantNaturalUnits_ok handler hknown⟩

end UnitHandler

/-! ## Conversion factors -/

namespace UnitHandler

/-- The elementary charge and the Avogadro constant in the table of
`StaticConstructor`. -/
theorem staticConstants_e_N_A (M_PI : ℚ) :
    (mapGet (0, []) (staticConstants M_PI) "e").1 = 1.602176634e-19 ∧
    (mapGet (0, []) (staticConstants M_PI) "N_A").1 = 6.02214076e23 :=
  ⟨rfl, rfl⟩

/-- The conversion factors of all units but `Me` are the number of that unit
per reference unit: a power of ten for the units with an SI prefix, `1e10`
for Ao, `J_per_eV` for J, `1/N_A` for mol and `10^(-k)/e` for the
elementary-charge units. -/
theorem conversion_factors_except_Me (handler : UnitHandler) :
    getTemperatureConversionFactorFor TemperatureUnit.kK = (10 : ℚ) ^ (-3 : ℤ) ∧
    getTemperatureConversionFactorFor TemperatureUnit.K = 1 ∧
    getTemperatureConversionFactorFor TemperatureUnit.mK = (10 : ℚ) ^ (3 : ℤ) ∧
    getTemperatureConversionFactorFor TemperatureUnit.uK = (10 : ℚ) ^ (6 : ℤ) ∧
    getTemperatureConversionFactorFor TemperatureUnit.nK = (10 : ℚ) ^ (9 : ℤ) ∧
    getTimeConversionFactorFor TimeUnit.s = 1 ∧
    getTimeConversionFactorFor TimeUnit.ms = (10 : ℚ) ^ (3 : ℤ) ∧
    getTimeConversionFactorFor TimeUnit.us = (10 : ℚ) ^ (6 : ℤ) ∧
    getTimeConversionFactorFor TimeUnit.ns = (10 : ℚ) ^ (9 : ℤ) ∧
    getTimeConversionFactorFor TimeUnit.ps = (10 : ℚ) ^ (12 : ℤ) ∧
    getTimeConversionFactorFor TimeUnit.fs = (10 : ℚ) ^ (15 : ℤ) ∧
    getTimeConversionFactorFor TimeUnit.as = (10 : ℚ) ^ (18 : ℤ) ∧
    getLengthConversionFactorFor LengthUnit.m = 1 ∧
    getLengthConversionFactorFor LengthUnit.mm = (10 : ℚ) ^ (3 : ℤ) ∧
    getLengthConversionFactorFor LengthUnit.um = (10 : ℚ) ^ (6 : ℤ) ∧
    getLengthConversionFactorFor LengthUnit.nm = (10 : ℚ) ^ (9 : ℤ) ∧
    getLengthConversionFactorFor LengthUnit.pm = (10 : ℚ) ^ (12 : ℤ) ∧
    getLengthConversionFactorFor LengthUnit.fm = (10 : ℚ) ^ (15 : ℤ) ∧
    getLengthConversionFactorFor LengthUnit.am = (10 : ℚ) ^ (18 : ℤ) ∧
    getLengthConversionFactorFor LengthUnit.Ao = (10 : ℚ) ^ (10 : ℤ) ∧
    getEnergyConversionFactorFor handler EnergyUnit.GeV = (10 : ℚ) ^ (-9 : ℤ) ∧
    getEnergyConversionFactorFor handler EnergyUnit.MeV = (10 : ℚ) ^ (-6 : ℤ) ∧
    getEnergyConversionFactorFor handler EnergyUnit.keV = (10 : ℚ) ^ (-3 : ℤ) ∧
    getEnergyConversionFactorFor handler EnergyUnit.eV = 1 ∧
    getEnergyConversionFactorFor handler EnergyUnit.meV = (10 : ℚ) ^ (3 : ℤ) ∧
    getEnergyConversionFactorFor handler EnergyUnit.ueV = (10 : ℚ) ^ (6 : ℤ) ∧
    getEnergyConversionFactorFor handler EnergyUnit.J = handler.J_per_eV ∧
    getChargeConversionFactorFor handler ChargeUnit.kC = (10 : ℚ) ^ (-3 : ℤ) ∧
    getChargeConversionFactorFor handler ChargeUnit.C = 1 ∧
    getChargeConversionFactorFor handler ChargeUnit.mC = (10 : ℚ) ^ (3 : ℤ) ∧
    getChargeConversionFactorFor handler ChargeUnit.uC = (10 : ℚ) ^ (6 : ℤ) ∧
    getChargeConversionFactorFor handler ChargeUnit.nC = (10 : ℚ) ^ (9 : ℤ) ∧
    getChargeConversionFactorFor handler ChargeUnit.pC = (10 : ℚ) ^ (12 : ℤ) ∧
    getChargeConversionFactorFor handler ChargeUnit.fC = (10 : ℚ) ^ (15 : ℤ) ∧
    getChargeConversionFactorFor handler ChargeUnit.aC = (10 : ℚ) ^ (18 : ℤ) ∧
    getChargeConversionFactorFor handler ChargeUnit.Te
      = (10 : ℚ) ^ (-12 : ℤ) / (mapGet (0, []) handler.constantsDefaultUnits "e").1 ∧
    getChargeConversionFactorFor handler ChargeUnit.Ge
      = (10 : ℚ) ^ (-9 : ℤ) / (mapGet (0, []) handler.constantsDefaultUnits "e").1 ∧
    getChargeConversionFactorFor handler ChargeUnit.ke
      = (10 : ℚ) ^ (-3 : ℤ) / (mapGet (0, []) handler.constantsDefaultUnits "e").1 ∧
    getChargeConversionFactorFor handler ChargeUnit.e
      = (10 : ℚ) ^ (0 : ℤ) / (mapGet (0, []) handler.constantsDefaultUnits "e").1 ∧
    getCountConversionFactorFor handler CountUnit.pcs = 1 ∧
    getCountConversionFactorFor handler CountUnit.mol
      = 1 / (mapGet (0, []) handler.constantsDefaultUnits "N_A").1 := by
  simp only [getTemperatureConversionFactorFor, getTimeConversionFactorFor,
    getLengthConversionFactorFor, getEnergyConversionFactorFor, getChargeConversionFactorFor,
    getCountConversionFactorFor]
  norm_num

/-- C18, the failing unit. After the static constructor, with `e` the
elementary charge `1.602176634e-19`, `getChargeConversionFactor(ChargeUnit::Me)`
is `13 - 6/e`, which is not `1e-6/e`; the neighbouring units `ke` and `Ge`
give `1e-3/e` and `1e-9/e`. -/
theorem getChargeConversionFactor_Me (M_PI : ℚ) :
    ∃ handler, StaticConstructor M_PI = Except.ok handler ∧
      (mapGet (0, []) handler.constantsDefaultUnits "e").1 = 1.602176634e-19 ∧
      getChargeConversionFactorFor handler ChargeUnit.Me = 13 - 6 / 1.602176634e-19 ∧
      getChargeConversionFactorFor handler ChargeUnit.Me ≠ 1e-6 / 1.602176634e-19 ∧
      getChargeConversionFactorFor handler ChargeUnit.ke = 1e-3 / 1.602176634e-19 ∧
      getChargeConversionFactorFor handler ChargeUnit.Ge = 1e-9 / 1.602176634e-19 := by
  obtain ⟨handler, hhandler, htable⟩ := StaticConstructor_ok M_PI
  have he : (mapGet (0, []) handler.constantsDefaultUnits "e").1 = 1.602176634e-19 := by
    rw [htable]; exact (staticConstants_e_N_A M_PI).1
  refine ⟨handler, hhandler, he, ?_, ?_, ?_, ?_⟩
  · simp only [getChargeConversionFactorFor, he]
  · simp only [getChargeConversionFactorFor, he]
    norm_num
  · simp only [getChargeConversionFactorFor, he]
  · simp only [getChargeConversionFactorFor, he]

/-- Witness of `static_constants_units_known`: the table of the static
constructor (with 3 for `M_PI`) under other current units and scales. -/
theorem static_constants_units_known_witness :
    (∃ updated, updateConstants
      { initial with
        constantsDefaultUnits := staticConstants 3
        temperatureUnit := TemperatureUnit.mK
        chargeUnit := ChargeUnit.Me
        lengthScale := 7 } = Except.ok updated) ∧
    ∃ value, getConstantNaturalUnits
      { initial with
        constantsDefaultUnits := staticConstants 3
        temperatureUnit := TemperatureUnit.mK
        chargeUnit := ChargeUnit.Me
        lengthScale := 7 } "mu_0" = Except.ok value :=
  ⟨((static_constants_units_known 3).2.2.2 _ rfl).1,
    ((static_constants_units_known 3).2.2.2 _ rfl).2 "mu_0"⟩

end UnitHandler

/-! ## Scales given as strings -/

namespace UnitHandler

/-- Characters without a delimiter stay in the word that is being read. -/
theorem splitWords_no_delimiter (delimiter : Char) (cs : List Char)
    (hcs : delimiter ∉ cs) :
    ∀ word, splitWords delimiter word cs
      = if word ++ cs = [] then [] else [String.mk (word ++ cs)] := by
  induction cs with
  | nil => intro word; simp [splitWords]
  | cons c rest ih =>
    intro word
    have hc : c ≠ delimiter := fun h => hcs (by rw [h]; simp)
    have hrest : delimiter ∉ rest := fun h => hcs (List.mem_cons_of_mem _ h)
    simp only [splitWords, if_neg hc]
    rw [ih hrest]
    simp

/-- The first delimiter ends the first word. -/
theorem splitWords_append (delimiter : Char) (first rest : List Char)
    (hfirst : delimiter ∉ first) :
    ∀ word, splitWords delimiter word (first ++ delimiter :: rest)
      = String.mk (word ++ first) :: splitWords delimiter [] rest := by
  induction first with
  | nil => intro word; simp [splitWords]
  | cons c cs ih =>
    intro word
    have hc : c ≠ delimiter := fun h => hfirst (by rw [h]; simp)
    have hcs : delimiter ∉ cs := fun h => hfirst (List.mem_cons_of_mem _ h)
    simp only [List.cons_append, splitWords, if_neg hc]
    have hstep := ih hcs (word ++ [c])
    simpa using hstep

/-- A number and a unit joined by one space split into these two words. -/
theorem splitWords_number_unit (number unit : String) (hnumber : ' ' ∉ number.data)
    (hunit : ' ' ∉ unit.data) (hnonempty : unit.data ≠ []) :
    splitWords ' ' [] (number ++ " " ++ unit).data = [number, unit] := by
  have hdata : (number ++ " " ++ unit).data = number.data ++ ' ' :: unit.data := by
    simp [String.data_append]
  rw [hdata, splitWords_append ' ' number.data unit.data hnumber,
    splitWords_no_delimiter ' ' unit.data hunit]
  simp [hnonempty]

/-- A number and a unit joined by one space and followed by one space split
into these two words: the loop reads no empty word at the end of the stream. -/
theorem splitWords_number_unit_space (number unit : String) (hnumber : ' ' ∉ number.data)
    (hunit : ' ' ∉ unit.data) :
    splitWords ' ' [] (number ++ " " ++ unit ++ " ").data = [number, unit] := by
  have hdata : (number ++ " " ++ unit ++ " ").data
      = number.data ++ ' ' :: (unit.data ++ ' ' :: []) := by
    simp [String.data_append]
  rw [hdata, splitWords_append ' ' number.data _ hnumber,
    splitWords_append ' ' unit.data [] hunit]
  simp [splitWords]

theorem splitComponents_ne_nil (delimiter : Char) (cs : List Char) :
    ∀ word, splitComponents delimiter word cs ≠ [] := by
  induction cs with
  | nil => intro word; simp [splitComponents]
  | cons c rest ih =>
    intro word
    simp only [splitComponents]
    split
    · simp
    · exact ih _

/-- The loop of the string overloads reads the components of the string split
on single delimiters, without an empty last component. -/
theorem splitWords_eq (delimiter : Char) (cs : List Char) :
    ∀ word, splitWords delimiter word cs
      = dropEmptyLast (splitComponents delimiter word cs) := by
  induction cs with
  | nil =>
    intro word
    simp only [splitWords, splitComponents, dropEmptyLast, List.getLast?_singleton,
      Option.some.injEq, List.dropLast_single]
    by_cases hword : word = []
    · subst hword
      simp
    · have hne : String.mk word ≠ "" := by
        intro h
        apply hword
        have := congrArg String.data h
        simpa using this
      rw [if_neg hword, if_neg hne]
  | cons c rest ih =>
    intro word
    simp only [splitWords, splitComponents]
    split
    · rw [ih []]
      have hne := splitComponents_ne_nil delimiter rest []
      unfold dropEmptyLast
      cases hcomponents : splitComponents delimiter [] rest with
      | nil => exact absurd hcomponents hne
      | cons component components =>
        rw [List.getLast?_cons_cons]
        split
        · rw [List.dropLast_cons₂]
        · rfl
    · exact ih _

/-- The common body of the string overloads meets the contract, for a unit
parser that reads the name of every unit as that unit and fails on every
string that is not a unit name, no unit name being empty or holding a
space. -/
theorem setScaleFromString_contract {U : Type} (function quantity : String)
    (unitNames : List String) (unitString : U → String) (getUnit : String → Except Failure U)
    (hmem : ∀ name : String, name ∈ unitNames ↔ ∃ unit, unitString unit = name)
    (hparse : ∀ unit, getUnit (unitString unit) = Except.ok unit)
    (hunknown : ∀ name, name ∉ unitNames → ∃ failure, getUnit name = Except.error failure)
    (hnames : ∀ unit, ' ' ∉ (unitString unit).data ∧ (unitString unit).data ≠ []) :
    stringOverloadContract unitNames unitString
      (fun stod setScale scale handler =>
        setScaleFromString function quantity stod getUnit setScale scale handler) := by
  refine ⟨hmem, ?_⟩
  intro stod setScale handler
  refine ⟨?_, ?_, ?_⟩
  · intro scale hlength
    rw [← splitWords_eq] at hlength
    have hcheck : ((splitWords ' ' [] scale.data).length == 2) = false := by
      simpa using hlength
    simp only [setScaleFromString, TBTKAssert, hcheck, Bool.false_eq_true, if_false, TBTKExit]
    exact ⟨_, rfl⟩
  · intro scale first second hsplit hsecond
    rw [← splitWords_eq] at hsplit
    obtain ⟨failure, hfailure⟩ := hunknown second hsecond
    simp only [setScaleFromString, hsplit, TBTKAssert, List.length_cons, List.length_nil,
      List.getD_cons_zero, List.getD_cons_succ]
    cases hstod : stod first with
    | none => exact ⟨_, rfl⟩
    | some s => exact ⟨failure, by simp [hfailure]⟩
  · intro number unit s hnumber hstod
    constructor
    · have hsplit := splitWords_number_unit number (unitString unit) hnumber (hnames unit).1
        (hnames unit).2
      simp only [setScaleFromString, hsplit, TBTKAssert, List.length_cons, List.length_nil,
        List.getD_cons_zero, List.getD_cons_succ, hstod, hparse unit]
      simp
    · have hsplit := splitWords_number_unit_space number (unitString unit) hnumber
        (hnames unit).1
      simp only [setScaleFromString, hsplit, TBTKAssert, List.length_cons, List.length_nil,
        List.getD_cons_zero, List.getD_cons_succ, hstod, hparse unit]
      simp

end UnitHandler


namespace UnitHandler

theorem temperatureUnit_contract :
    stringOverloadContract temperatureUnitNames getTemperatureUnitString
      setTemperatureScaleFromString := by
  apply setScaleFromString_contract "UnitHandler::setTemperatureScale()" "temperature"
    temperatureUnitNames getTemperatureUnitString getTemperatureUnit
  · intro name
    constructor
    · intro hname
      simp only [temperatureUnitNames, List.mem_cons, List.mem_singleton, List.not_mem_nil,
        or_false] at hname
      rcases hname with h | h | h | h | h <;> subst h
      · exact ⟨TemperatureUnit.kK, rfl⟩
      · exact ⟨TemperatureUnit.K, rfl⟩
      · exact ⟨TemperatureUnit.mK, rfl⟩
      · exact ⟨TemperatureUnit.uK, rfl⟩
      · exact ⟨TemperatureUnit.nK, rfl⟩
    · rintro ⟨unit, rfl⟩
      cases unit <;> decide
  · intro unit
    cases unit <;> rfl
  · intro name hname
    simp only [temperatureUnitNames, List.mem_cons, List.mem_singleton, List.not_mem_nil,
      or_false, not_or] at hname
    simp [getTemperatureUnit, hname, TBTKExit]
  · intro unit
    cases unit <;> decide

theorem timeUnit_contract :
    stringOverloadContract timeUnitNames getTimeUnitString setTimeScaleFromString := by
  apply setScaleFromString_contract "UnitHandler::setTimeScale()" "time"
    timeUnitNames getTimeUnitString getTimeUnit
  · intro name
    constructor
    · intro hname
      simp only [timeUnitNames, List.mem_cons, List.mem_singleton, List.not_mem_nil,
        or_false] at hname
      rcases hname with h | h | h | h | h | h | h <;> subst h
      · exact ⟨TimeUnit.s, rfl⟩
      · exact ⟨TimeUnit.ms, rfl⟩
      · exact ⟨TimeUnit.us, rfl⟩
      · exact ⟨TimeUnit.ns, rfl⟩
      · exact ⟨TimeUnit.ps, rfl⟩
      · exact ⟨TimeUnit.fs, rfl⟩
      · exact ⟨TimeUnit.as, rfl⟩
    · rintro ⟨unit, rfl⟩
      cases unit <;> decide
  · intro unit
    cases unit <;> rfl
  · intro name hname
    simp only [timeUnitNames, List.mem_cons, List.mem_singleton, List.not_mem_nil,
      or_false, not_or] at hname
    simp [getTimeUnit, hname, TBTKExit]
  · intro unit
    cases unit <;> decide

theorem lengthUnit_contract :
    stringOverloadContract lengthUnitNames getLengthUnitString setLengthScaleFromString := by
  apply setScaleFromString_contract "UnitHandler::setLengthScale()" "length"
    lengthUnitNames getLengthUnitString getLengthUnit
  · intro name
    constructor
    · intro hname
      simp only [lengthUnitNames, List.mem_cons, List.mem_singleton, List.not_mem_nil,
        or_false] at hname
      rcases hname with h | h | h | h | h | h | h | h <;> subst h
      · exact ⟨LengthUnit.m, rfl⟩
      · exact ⟨LengthUnit.mm, rfl⟩
      · exact ⟨LengthUnit.um, rfl⟩
      · exact ⟨LengthUnit.nm, rfl⟩
      · exact ⟨LengthUnit.pm, rfl⟩
      · exact ⟨LengthUnit.fm, rfl⟩
      · exact ⟨LengthUnit.am, rfl⟩
      · exact ⟨LengthUnit.Ao, rfl⟩
    · rintro ⟨unit, rfl⟩
      cases unit <;> decide
  · intro unit
    cases unit <;> rfl
  · intro name hname
    simp only [lengthUnitNames, List.mem_cons, List.mem_singleton, List.not_mem_nil,
      or_false, not_or] at hname
    simp [getLengthUnit, hname, TBTKExit]
  · intro unit
    cases unit <;> decide

theorem energyUnit_contract :
    stringOverloadContract energyUnitNames getEnergyUnitString setEnergyScaleFromString := by
  apply setScaleFromString_contract "UnitHandler::setEnergyScale()" "energy"
    energyUnitNames getEnergyUnitString getEnergyUnit
  · intro name
    constructor
    · intro hname
      simp only [energyUnitNames, List.mem_cons, List.mem_singleton, List.not_mem_nil,
        or_false] at hname
      rcases hname with h | h | h | h | h | h | h <;> subst h
      · exact ⟨EnergyUnit.GeV, rfl⟩
      · exact ⟨EnergyUnit.MeV, rfl⟩
      · exact ⟨EnergyUnit.keV, rfl⟩
      · exact ⟨EnergyUnit.eV, rfl⟩
      · exact ⟨EnergyUnit.meV, rfl⟩
      · exact ⟨EnergyUnit.ueV, rfl⟩
      · exact ⟨EnergyUnit.J, rfl⟩
    · rintro ⟨unit, rfl⟩
      cases unit <;> decide
  · intro unit
    cases unit <;> rfl
  · intro name hname
    simp only [energyUnitNames, List.mem_cons, List.mem_singleton, List.not_mem_nil,
      or_false, not_or] at hname
    simp [getEnergyUnit, hname, TBTKExit]
  · intro unit
    cases unit <;> decide

theorem chargeUnit_contract :
    stringOverloadContract chargeUnitNames getChargeUnitString setChargeScaleFromString := by
  apply setScaleFromString_contract "UnitHandler::setChargeScale()" "charge"
    chargeUnitNames getChargeUnitString getChargeUnit
  · intro name
    constructor
    · intro hname
      simp only [chargeUnitNames, List.mem_cons, List.mem_singleton, List.not_mem_nil,
        or_false] at hname
      rcases hname with h | h | h | h | h | h | h | h | h | h | h | h | h <;> subst h
      · exact ⟨ChargeUnit.kC, rfl⟩
      · exact ⟨ChargeUnit.C, rfl⟩
      · exact ⟨ChargeUnit.mC, rfl⟩
      · exact ⟨ChargeUnit.uC, rfl⟩
      · exact ⟨ChargeUnit.nC, rfl⟩
      · exact ⟨ChargeUnit.pC, rfl⟩
      · exact ⟨ChargeUnit.fC, rfl⟩
      · exact ⟨ChargeUnit.aC, rfl⟩
      · exact ⟨ChargeUnit.Te, rfl⟩
      · exact ⟨ChargeUnit.Ge, rfl⟩
      · exact ⟨ChargeUnit.Me, rfl⟩
      · exact ⟨ChargeUnit.ke, rfl⟩
      · exact ⟨ChargeUnit.e, rfl⟩
    · rintro ⟨unit, rfl⟩
      cases unit <;> decide
  · intro unit
    cases unit <;> rfl
  · intro name hname
    simp only [chargeUnitNames, List.mem_cons, List.mem_singleton, List.not_mem_nil,
      or_false, not_or] at hname
    simp [getChargeUnit, hname, TBTKExit]
  · intro unit
    cases unit <;> decide

theorem countUnit_contract :
    stringOverloadContract countUnitNames getCountUnitString setCountScaleFromString := by
  apply setScaleFromString_contract "UnitHandler::setCountScale()" "count"
    countUnitNames getCountUnitString getCountUnit
  · intro name
    constructor
    · intro hname
      simp only [countUnitNames, List.mem_cons, List.mem_singleton, List.not_mem_nil,
        or_false] at hname
      rcases hname with h | h <;> subst h
      · exact ⟨CountUnit.pcs, rfl⟩
      · exact ⟨CountUnit.mol, rfl⟩
    · rintro ⟨unit, rfl⟩
      cases unit <;> decide
  · intro unit
    cases unit <;> rfl
  · intro name hname
    simp only [countUnitNames, List.mem_cons, List.mem_singleton, List.not_mem_nil,
      or_false, not_or] at hname
    simp [getCountUnit, hname, TBTKExit]
  · intro unit
    cases unit <;> decide

/-- C19 (amended). Each string overload `setTemperatureScale`, `setTimeScale`,
`setLengthScale`, `setEnergyScale`, `setChargeScale` and `setCountScale` fails
for every string that does not split on single space characters into exactly
two components, an empty last component (a single space at the end of the
string) not being counted, and for every string whose second component is not
one of the unit names of that quantity, which are the names that the unit
strings of the handler give to its units; for a string '[scale] [unit]' with a
number that `stod` parses and the name of a unit, with or without one space
after it, the overload is the two-argument setter called with the parsed
number and the unit of that name. -/
theorem string_overloads_contract :
    stringOverloadContract temperatureUnitNames getTemperatureUnitString
      setTemperatureScaleFromString ∧
    stringOverloadContract timeUnitNames getTimeUnitString setTimeScaleFromString ∧
    stringOverloadContract lengthUnitNames getLengthUnitString setLengthScaleFromString ∧
    stringOverloadContract energyUnitNames getEnergyUnitString setEnergyScaleFromString ∧
    stringOverloadContract chargeUnitNames getChargeUnitString setChargeScaleFromString ∧
    stringOverloadContract countUnitNames getCountUnitString setCountScaleFromString :=
  ⟨temperatureUnit_contract, timeUnit_contract, lengthUnit_contract, energyUnit_contract,
    chargeUnit_contract, countUnit_contract⟩

end UnitHandler


namespace UnitHandler

/-- Witness of `string_overloads_contract`: "2 mK" sets what the two-argument
setter sets for 2 and the unit mK; "2 mK now" has three components and "2 mm"
has a unit of another quantity, and both fail. -/
theorem string_overloads_contract_witness :
    setTemperatureScaleFromString twoOrHalf storeTemperatureScale
        ("2" ++ " " ++ getTemperatureUnitString TemperatureUnit.mK) initial
      = storeTemperatureScale 2 TemperatureUnit.mK initial ∧
    (∃ failure, setTemperatureScaleFromString twoOrHalf storeTemperatureScale "2 mK now"
      initial = Except.error failure) ∧
    (∃ failure, setTemperatureScaleFromString twoOrHalf storeTemperatureScale "2 mm"
      initial = Except.error failure) :=
  ⟨((string_overloads_contract.1.2 twoOrHalf storeTemperatureScale initial).2.2 "2"
      TemperatureUnit.mK 2 (by decide) rfl).1,
    (string_overloads_contract.1.2 twoOrHalf storeTemperatureScale initial).1 "2 mK now"
      (by decide),
    (string_overloads_contract.1.2 twoOrHalf storeTemperatureScale initial).2.1 "2 mm" "2" "mm"
      (by decide) (by decide)⟩

/-- C19, counterexample. The string "2 mK " splits on single spaces into the
three components "2", "mK" and the empty string, and `setTemperatureScale`
does not fail on it: it sets the scale 2 and the unit mK, as it does for
"2 mK". -/
theorem string_overloads_counterexample :
    splitComponents ' ' [] "2 mK ".data = ["2", "mK", ""] ∧
    (splitComponents ' ' [] "2 mK ".data).length ≠ 2 ∧
    setTemperatureScaleFromString twoOrHalf storeTemperatureScale "2 mK " initial
      = Except.ok
          { initial with temperatureUnit := TemperatureUnit.mK, temperatureScale := 2 } ∧
    setTemperatureScaleFromString twoOrHalf storeTemperatureScale "2 mK " initial
      = setTemperatureScaleFromString twoOrHalf storeTemperatureScale "2 mK" initial :=
  ⟨by decide, by decide, rfl, rfl⟩

end UnitHandler

/-! ## The recursion of the property extractor -/

namespace PropertyExtractor

/-- The search returns no position exactly when no component below `k` is
negative. -/
theorem findSubindex_none (pattern : Index) :
    ∀ k, findSubindex pattern k = none ↔ ∀ i, i < k → 0 ≤ pattern.getD i 0 := by
  intro k
  induction k with
  | zero => simp [findSubindex]
  | succ k ih =>
    simp only [findSubindex]
    by_cases hk : pattern.getD k 0 < 0
    · rw [if_pos hk]
      constructor
      · intro h; cases h
      · intro h
        have := h k (by omega)
        omega
    · rw [if_neg hk, ih]
      constructor
      · intro h i hi
        by_cases hik : i = k
        · subst hik; omega
        · exact h i (by omega)
      · intro h i hi
        exact h i (by omega)

/-- The position the search returns is the last negative one below `k`. -/
theorem findSubindex_some (pattern : Index) :
    ∀ k cs, findSubindex pattern k = some cs →
      cs < k ∧ pattern.getD cs 0 < 0 ∧ ∀ i, cs < i → i < k → 0 ≤ pattern.getD i 0 := by
  intro k
  induction k with
  | zero => intro cs h; simp [findSubindex] at h
  | succ k ih =>
    intro cs h
    simp only [findSubindex] at h
    by_cases hk : pattern.getD k 0 < 0
    · rw [if_pos hk] at h
      have hcs : k = cs := by simpa using h
      subst hcs
      exact ⟨by omega, hk, fun i h1 h2 => by omega⟩
    · rw [if_neg hk] at h
      obtain ⟨h1, h2, h3⟩ := ih cs h
      refine ⟨by omega, h2, fun i hi1 hi2 => ?_⟩
      by_cases hik : i = k
      · subst hik; omega
      · exact h3 i hi1 (by omega)

theorem getD_set_self (index : Index) (i : Nat) (value : Int) (hi : i < index.length) :
    (index.set i value).getD i 0 = value := by
  simp [List.getD_eq_getElem?_getD, List.getElem?_set, hi]

theorem getD_set_ne (index : Index) (i j : Nat) (value : Int) (hij : i ≠ j) :
    (index.set i value).getD j 0 = index.getD j 0 := by
  simp [List.getD_eq_getElem?_getD, List.getElem?_set, hij]

theorem getD_of_length_le (index : Index) (k : Nat) (hk : index.length ≤ k) :
    index.getD k 0 = 0 := by
  simp [List.getD_eq_getElem?_getD, List.getElem?_eq_none hk]

/-- Two selections from `0, ..., len - 1` that differ at the position `cs`
only, which the first one takes and which is the last one it takes. -/
theorem filter_range_peel (p q : Nat → Bool) (cs : Nat) (hp : p cs = true)
    (hq : q cs = false) (hlow : ∀ k, k < cs → p k = q k)
    (hhigh : ∀ k, cs < k → p k = false ∧ q k = false) :
    ∀ d, (List.range (cs + 1 + d)).filter p = (List.range (cs + 1 + d)).filter q ++ [cs] := by
  intro d
  induction d with
  | zero =>
    have hsame : (List.range cs).filter p = (List.range cs).filter q :=
      List.filter_congr (fun k hk => hlow k (List.mem_range.mp hk))
    simp [List.range_succ, List.filter_append, hp, hq, hsame]
  | succ d ih =>
    have h := hhigh (cs + 1 + d) (by omega)
    rw [show cs + 1 + (d + 1) = (cs + 1 + d) + 1 by omega, List.range_succ, List.filter_append,
      List.filter_append, ih]
    simp [h.1, h.2]

theorem Index_at_eq_ok (index : Index) (n : Nat) (value : Int)
    (h : Index.at index n = Except.ok value) : n < index.length ∧ value = index.getD n 0 := by
  by_cases hn : n < index.length
  · rw [Index_at_ok index n hn] at h
    injection h with h
    exact ⟨hn, h.symm⟩
  · rw [Index_at_error index n (by omega)] at h
    cases h

/-- The loop returns the invocations of its rounds, one round after the
other, when every round returns. Round `i` gets the offset that `i` rounds
have moved on. -/
theorem calculateLoop_ok (recurse : Int → Int → Except Failure (List (Index × Int)))
    (isSumIndex : Bool) (offsetMultiplier : Int) :
    ∀ (rounds : Nat) (n currentOffset : Int) (invocations : Nat → List (Index × Int)),
      (∀ i : Nat, i < rounds →
        recurse (n + i) ((advanceOffset isSumIndex offsetMultiplier)^[i] currentOffset)
          = Except.ok (invocations i)) →
      calculateLoop recurse isSumIndex offsetMultiplier rounds n currentOffset
        = Except.ok ((List.range rounds).flatMap invocations) := by
  intro rounds
  induction rounds with
  | zero => intro n currentOffset invocations _; rfl
  | succ rounds ih =>
    intro n currentOffset invocations h
    have hfirst := h 0 (by omega)
    simp only [Nat.cast_zero, add_zero, Function.iterate_zero, id_eq] at hfirst
    have hrest := ih (n + 1) (advanceOffset isSumIndex offsetMultiplier currentOffset)
      (fun i => invocations (i + 1))
      (fun i hi => by
        have := h (i + 1) (by omega)
        rw [← this, Function.iterate_succ_apply]
        push_cast
        congr 1
        ring)
    simp only [calculateLoop, hfirst, hrest]
    rw [List.range_succ_eq_map, List.flatMap_cons, List.flatMap_map]

/-- When the loop returns, every round has returned, and the result is the
invocations of the rounds one after the other. -/
theorem calculateLoop_inv (recurse : Int → Int → Except Failure (List (Index × Int)))
    (isSumIndex : Bool) (offsetMultiplier : Int) :
    ∀ (rounds : Nat) (n currentOffset : Int) (result : List (Index × Int)),
      calculateLoop recurse isSumIndex offsetMultiplier rounds n currentOffset
        = Except.ok result →
      ∃ invocations : Nat → List (Index × Int),
        (∀ i : Nat, i < rounds →
          recurse (n + i) ((advanceOffset isSumIndex offsetMultiplier)^[i] currentOffset)
            = Except.ok (invocations i)) ∧
        result = (List.range rounds).flatMap invocations := by
  intro rounds
  induction rounds with
  | zero =>
    intro n currentOffset result h
    simp only [calculateLoop] at h
    injection h with h
    exact ⟨fun _ => [], fun i hi => by omega, by simp [← h]⟩
  | succ rounds ih =>
    intro n currentOffset result h
    simp only [calculateLoop] at h
    cases hfirst : recurse n currentOffset with
    | error failure => rw [hfirst] at h; cases h
    | ok first =>
      rw [hfirst] at h
      simp only [] at h
      cases hrest : calculateLoop recurse isSumIndex offsetMultiplier rounds (n + 1)
          (advanceOffset isSumIndex offsetMultiplier currentOffset) with
      | error failure => rw [hrest] at h; cases h
      | ok rest =>
        rw [hrest] at h
        simp only [] at h
        injection h with h
        obtain ⟨later, hlater, hrestEq⟩ := ih _ _ _ hrest
        refine ⟨fun i => match i with | 0 => first | j + 1 => later j, ?_, ?_⟩
        · intro i hi
          cases i with
          | zero => simpa using hfirst
          | succ j =>
            have := hlater j (by omega)
            rw [Function.iterate_succ_apply]
            simp only []
            rw [← this]
            push_cast
            congr 1
            ring
        · rw [← h, hrestEq, List.range_succ_eq_map, List.flatMap_cons, List.flatMap_map]

end PropertyExtractor


namespace PropertyExtractor

/-- Fixing the last negative position of the pattern to a value `n >= 0`
removes that position, the last one, from the positions whose component is
below a bound that is not positive. -/
theorem positions_peel (bound : Int) (hbound : bound ≤ 0) (pattern : Index) (cs : Nat)
    (n : Int) (hfind : findSubindex pattern pattern.length = some cs) (hn : 0 ≤ n)
    (hcs : pattern.getD cs 0 < bound) :
    ((List.range pattern.length).filter fun k => decide (pattern.getD k 0 < bound))
      = ((List.range (pattern.set cs n).length).filter fun k =>
          decide ((pattern.set cs n).getD k 0 < bound)) ++ [cs] := by
  obtain ⟨hlt, _, hafter⟩ := findSubindex_some pattern _ cs hfind
  have hlen : pattern.length = cs + 1 + (pattern.length - cs - 1) := by omega
  rw [List.length_set, hlen]
  apply filter_range_peel
  · simpa using hcs
  · rw [getD_set_self pattern cs n hlt]
    simp only [decide_eq_false_iff_not, not_lt]
    omega
  · intro k hk
    rw [getD_set_ne pattern cs k n (by omega)]
  · intro k hk
    have hk0 : 0 ≤ pattern.getD k 0 := by
      by_cases hkl : k < pattern.length
      · exact hafter k hk hkl
      · rw [getD_of_length_le pattern k (by omega)]
    rw [getD_set_ne pattern cs k n (by omega)]
    simp only [decide_eq_false_iff_not, not_lt, and_self]
    omega

theorem negativePositions_set (pattern : Index) (cs : Nat) (n : Int)
    (hfind : findSubindex pattern pattern.length = some cs) (hn : 0 ≤ n) :
    negativePositions pattern = negativePositions (pattern.set cs n) ++ [cs] :=
  positions_peel 0 (le_refl 0) pattern cs n hfind hn (findSubindex_some pattern _ cs hfind).2.1

/-- The assignments for the pattern are the assignments for the pattern with
one negative position fixed to `n`, for the values `n` below the range of that
position. -/
theorem isAssignment_set (pattern ranges index : Index) (cs : Nat)
    (hcs : cs < pattern.length) (hneg : pattern.getD cs 0 < 0) :
    isAssignment pattern ranges index ↔
      ∃ n : Nat, n < (ranges.getD cs 0).toNat ∧
        isAssignment (pattern.set cs (n : Int)) ranges index := by
  constructor
  · rintro ⟨hlen, hall⟩
    have hvalue := (hall cs hcs).2 hneg
    refine ⟨(index.getD cs 0).toNat, by omega, ?_, ?_⟩
    · rw [List.length_set]; exact hlen
    · intro k hk
      rw [List.length_set] at hk
      by_cases hkc : k = cs
      · subst hkc
        rw [getD_set_self pattern k _ hk]
        constructor
        · intro _; omega
        · intro h; omega
      · rw [getD_set_ne pattern cs k _ (fun h => hkc h.symm)]
        exact hall k hk
  · rintro ⟨n, hn, hlen, hall⟩
    rw [List.length_set] at hlen
    refine ⟨hlen, ?_⟩
    intro k hk
    have hk' := hall k (by rw [List.length_set]; exact hk)
    by_cases hkc : k = cs
    · subst hkc
      rw [getD_set_self pattern k _ hk] at hk'
      have hvalue := hk'.1 (by omega)
      constructor
      · intro h; omega
      · intro _; omega
    · rw [getD_set_ne pattern cs k _ (fun h => hkc h.symm)] at hk'
      exact hk'

/-- An assignment for the pattern with position `cs` fixed to `n` has `n` at
that position. -/
theorem isAssignment_set_value (pattern ranges index : Index) (cs : Nat) (n : Nat)
    (hcs : cs < pattern.length)
    (hassignment : isAssignment (pattern.set cs (n : Int)) ranges index) :
    index.getD cs 0 = (n : Int) := by
  have h := hassignment.2 cs (by rw [List.length_set]; exact hcs)
  rw [getD_set_self pattern cs _ hcs] at h
  exact h.1 (by omega)

/-- The number of assignments is that of the pattern with its last negative
position fixed, times the range of that position. -/
theorem assignmentCount_set (pattern ranges : Index) (cs : Nat) (n : Int)
    (hfind : findSubindex pattern pattern.length = some cs) (hn : 0 ≤ n) :
    assignmentCount pattern ranges
      = assignmentCount (pattern.set cs n) ranges * (ranges.getD cs 0).toNat := by
  unfold assignmentCount
  rw [negativePositions_set pattern cs n hfind hn]
  simp [List.prod_append]

end PropertyExtractor


namespace PropertyExtractor

/-- Without a negative component the callback is invoked once, with the
pattern and the offset as they are. -/
theorem calculateFuel_none (IDX_SUM_ALL : Int) (ranges : Index) (fuel : Nat) (pattern : Index)
    (currentOffset offsetMultiplier : Int)
    (hfind : findSubindex pattern pattern.length = none) :
    calculateFuel IDX_SUM_ALL ranges fuel pattern currentOffset offsetMultiplier
      = Except.ok [(pattern, currentOffset)] := by
  cases fuel <;> simp only [calculateFuel, hfind]

/-- One level of the recursion, read backwards: when the call returns, the
range of the last negative position exists and every round of the loop has
returned; the result is the invocations of the rounds one after the other. -/
theorem calculateFuel_succ_inv (IDX_SUM_ALL : Int) (ranges : Index) (fuel : Nat)
    (pattern : Index) (currentOffset offsetMultiplier : Int) (cs : Nat)
    (result : List (Index × Int))
    (hfind : findSubindex pattern pattern.length = some cs)
    (hresult : calculateFuel IDX_SUM_ALL ranges (fuel + 1) pattern currentOffset offsetMultiplier
      = Except.ok result) :
    cs < ranges.length ∧
    ∃ invocations : Nat → List (Index × Int),
      (∀ i : Nat, i < (ranges.getD cs 0).toNat →
        calculateFuel IDX_SUM_ALL ranges fuel (pattern.set cs (i : Int))
          ((advanceOffset (decide (pattern.getD cs 0 = IDX_SUM_ALL)) offsetMultiplier)^[i]
            currentOffset)
          (if pattern.getD cs 0 < IDX_SUM_ALL then wrapInt (offsetMultiplier * ranges.getD cs 0)
           else offsetMultiplier)
          = Except.ok (invocations i)) ∧
      result = (List.range (ranges.getD cs 0).toNat).flatMap invocations := by
  simp only [calculateFuel, hfind] at hresult
  cases hat : Index.at ranges cs with
  | error failure => rw [hat] at hresult; cases hresult
  | ok range =>
    rw [hat] at hresult
    simp only [] at hresult
    obtain ⟨hcs, hrange⟩ := Index_at_eq_ok ranges cs range hat
    subst hrange
    obtain ⟨invocations, hrounds, hflat⟩ := calculateLoop_inv _ _ _ _ _ _ _ hresult
    refine ⟨hcs, invocations, ?_, hflat⟩
    intro i hi
    have := hrounds i hi
    simp only [zero_add] at this
    exact this

/-- One level of the recursion, read forwards. -/
theorem calculateFuel_succ_ok (IDX_SUM_ALL : Int) (ranges : Index) (fuel : Nat)
    (pattern : Index) (currentOffset offsetMultiplier : Int) (cs : Nat)
    (invocations : Nat → List (Index × Int))
    (hfind : findSubindex pattern pattern.length = some cs) (hcs : cs < ranges.length)
    (hrounds : ∀ i : Nat, i < (ranges.getD cs 0).toNat →
      calculateFuel IDX_SUM_ALL ranges fuel (pattern.set cs (i : Int))
        ((advanceOffset (decide (pattern.getD cs 0 = IDX_SUM_ALL)) offsetMultiplier)^[i]
          currentOffset)
        (if pattern.getD cs 0 < IDX_SUM_ALL then wrapInt (offsetMultiplier * ranges.getD cs 0)
         else offsetMultiplier)
        = Except.ok (invocations i)) :
    calculateFuel IDX_SUM_ALL ranges (fuel + 1) pattern currentOffset offsetMultiplier
      = Except.ok ((List.range (ranges.getD cs 0).toNat).flatMap invocations) := by
  simp only [calculateFuel, hfind, Index_at_ok ranges cs hcs]
  apply calculateLoop_ok
  intro i hi
  have := hrounds i hi
  simp only [zero_add]
  exact this

/-- The number of negative positions drops by one when the last of them is
fixed. -/
theorem negativePositions_length_set (pattern : Index) (cs : Nat) (n : Int)
    (hfind : findSubindex pattern pattern.length = some cs) (hn : 0 ≤ n) :
    (negativePositions pattern).length = (negativePositions (pattern.set cs n)).length + 1 := by
  rw [negativePositions_set pattern cs n hfind hn]
  simp

theorem negativePositions_of_none (pattern : Index)
    (hfind : findSubindex pattern pattern.length = none) : negativePositions pattern = [] := by
  unfold negativePositions
  rw [List.filter_eq_nil_iff]
  intro k hk
  have := (findSubindex_none pattern _).mp hfind k (List.mem_range.mp hk)
  simp only [decide_eq_true_eq, not_lt]
  exact this

theorem findSubindex_of_negativePositions_nil (pattern : Index)
    (hnil : negativePositions pattern = []) :
    findSubindex pattern pattern.length = none := by
  rw [findSubindex_none]
  intro i hi
  unfold negativePositions at hnil
  rw [List.filter_eq_nil_iff] at hnil
  have := hnil i (List.mem_range.mpr hi)
  simp only [decide_eq_true_eq, not_lt] at this
  exact this

/-- With no negative component the only assignment is the pattern. -/
theorem isAssignment_of_none (pattern ranges index : Index)
    (hfind : findSubindex pattern pattern.length = none) :
    isAssignment pattern ranges index ↔ index = pattern := by
  have hfixed := (findSubindex_none pattern _).mp hfind
  constructor
  · rintro ⟨hlen, hall⟩
    apply List.ext_getElem hlen
    intro k h1 h2
    have := (hall k h2).1 (hfixed k h2)
    simpa [List.getD_eq_getElem?_getD, List.getElem?_eq_getElem h1,
      List.getElem?_eq_getElem h2] using this
  · intro h
    subst h
    exact ⟨rfl, fun k hk => ⟨fun _ => rfl, fun hneg => absurd (hfixed k hk) (by omega)⟩⟩

/-- The call returns whenever `ranges` has a component for every position of
the pattern. -/
theorem calculateFuel_ok (IDX_SUM_ALL : Int) (ranges : Index) :
    ∀ (fuel : Nat) (pattern : Index) (currentOffset offsetMultiplier : Int),
      pattern.length ≤ ranges.length →
      ∃ result, calculateFuel IDX_SUM_ALL ranges fuel pattern currentOffset offsetMultiplier
        = Except.ok result := by
  intro fuel
  induction fuel with
  | zero =>
    intro pattern c m _
    simp only [calculateFuel]
    cases findSubindex pattern pattern.length <;> exact ⟨_, rfl⟩
  | succ fuel ih =>
    intro pattern c m hlen
    cases hfind : findSubindex pattern pattern.length with
    | none => exact ⟨_, calculateFuel_none _ _ _ _ _ _ hfind⟩
    | some cs =>
      have hcs := (findSubindex_some pattern _ cs hfind).1
      have hrounds : ∀ i : Nat, ∃ result,
          calculateFuel IDX_SUM_ALL ranges fuel (pattern.set cs (i : Int))
            ((advanceOffset (decide (pattern.getD cs 0 = IDX_SUM_ALL)) m)^[i] c)
            (if pattern.getD cs 0 < IDX_SUM_ALL then wrapInt (m * ranges.getD cs 0) else m)
            = Except.ok result :=
        fun i => ih _ _ _ (by rw [List.length_set]; exact hlen)
      choose invocations hinvocations using hrounds
      exact ⟨_, calculateFuel_succ_ok IDX_SUM_ALL ranges fuel pattern c m cs invocations hfind
        (by omega) (fun i _ => hinvocations i)⟩

end PropertyExtractor


namespace PropertyExtractor

/-- A sum of equal terms over the first `rounds` numbers. -/
theorem sum_map_range_const (rounds count : Nat) (term : Nat → Nat)
    (hterm : ∀ i, i < rounds → term i = count) :
    ((List.range rounds).map term).sum = rounds * count := by
  have hmap : (List.range rounds).map term = (List.range rounds).map fun _ => count :=
    List.map_congr_left fun i hi => hterm i (List.mem_range.mp hi)
  rw [hmap]
  simp

/-- The negative positions that remain once the last one is fixed do not
depend on the value it is fixed to. -/
theorem negativePositions_set_const (pattern : Index) (cs : Nat) (n n' : Int)
    (hfind : findSubindex pattern pattern.length = some cs) (hn : 0 ≤ n) (hn' : 0 ≤ n') :
    negativePositions (pattern.set cs n) = negativePositions (pattern.set cs n') := by
  have h1 := negativePositions_set pattern cs n hfind hn
  have h2 := negativePositions_set pattern cs n' hfind hn'
  rw [h1] at h2
  exact List.append_cancel_right h2

/-- The invocations of a call that returns: no index twice, the indices are
the assignments for the pattern, and there are as many as the ranges of the
negative positions allow. -/
theorem calculateFuel_assignments (IDX_SUM_ALL : Int) (ranges : Index) :
    ∀ (fuel : Nat) (pattern : Index) (currentOffset offsetMultiplier : Int)
      (result : List (Index × Int)),
      (negativePositions pattern).length ≤ fuel →
      calculateFuel IDX_SUM_ALL ranges fuel pattern currentOffset offsetMultiplier
        = Except.ok result →
      (result.map Prod.fst).Nodup ∧
      (∀ index, index ∈ result.map Prod.fst ↔ isAssignment pattern ranges index) ∧
      result.length = assignmentCount pattern ranges := by
  intro fuel
  induction fuel with
  | zero =>
    intro pattern c m result hfuel hresult
    have hnil : negativePositions pattern = [] := List.length_eq_zero.mp (by omega)
    have hfind := findSubindex_of_negativePositions_nil pattern hnil
    rw [calculateFuel_none _ _ _ _ _ _ hfind] at hresult
    cases hresult
    refine ⟨by simp, ?_, by simp [assignmentCount, hnil]⟩
    intro index
    rw [isAssignment_of_none pattern ranges index hfind]
    simp
  | succ fuel ih =>
    intro pattern c m result hfuel hresult
    cases hfind : findSubindex pattern pattern.length with
    | none =>
      have hnil := negativePositions_of_none pattern hfind
      rw [calculateFuel_none _ _ _ _ _ _ hfind] at hresult
      cases hresult
      refine ⟨by simp, ?_, by simp [assignmentCount, hnil]⟩
      intro index
      rw [isAssignment_of_none pattern ranges index hfind]
      simp
    | some cs =>
      obtain ⟨hcs, hneg, _⟩ := findSubindex_some pattern _ cs hfind
      obtain ⟨_, invocations, hrounds, hflat⟩ :=
        calculateFuel_succ_inv IDX_SUM_ALL ranges fuel pattern c m cs result hfind hresult
      have hrec : ∀ i : Nat, i < (ranges.getD cs 0).toNat →
          ((invocations i).map Prod.fst).Nodup ∧
          (∀ index, index ∈ (invocations i).map Prod.fst ↔
            isAssignment (pattern.set cs (i : Int)) ranges index) ∧
          (invocations i).length = assignmentCount (pattern.set cs (i : Int)) ranges := by
        intro i hi
        have hlength := negativePositions_length_set pattern cs (i : Int) hfind (by omega)
        exact ih _ _ _ _ (by omega) (hrounds i hi)
      subst hflat
      refine ⟨?_, ?_, ?_⟩
      · rw [List.map_flatMap, List.nodup_flatMap]
        refine ⟨fun i hi => (hrec i (List.mem_range.mp hi)).1, ?_⟩
        refine List.Pairwise.imp_of_mem ?_ (List.nodup_range (ranges.getD cs 0).toNat)
        intro i j hi hj hij
        show List.Disjoint ((invocations i).map Prod.fst) ((invocations j).map Prod.fst)
        intro index hfirst hsecond
        have h1 := isAssignment_set_value pattern ranges index cs i hcs
          (((hrec i (List.mem_range.mp hi)).2.1 index).mp hfirst)
        have h2 := isAssignment_set_value pattern ranges index cs j hcs
          (((hrec j (List.mem_range.mp hj)).2.1 index).mp hsecond)
        apply hij
        omega
      · intro index
        rw [isAssignment_set pattern ranges index cs hcs hneg, List.map_flatMap,
          List.mem_flatMap]
        constructor
        · rintro ⟨i, hi, hmem⟩
          exact ⟨i, List.mem_range.mp hi, ((hrec i (List.mem_range.mp hi)).2.1 index).mp hmem⟩
        · rintro ⟨i, hi, hassignment⟩
          exact ⟨i, List.mem_range.mpr hi, ((hrec i hi).2.1 index).mpr hassignment⟩
      · rw [List.length_flatMap, assignmentCount_set pattern ranges cs 0 hfind le_rfl,
          sum_map_range_const (ranges.getD cs 0).toNat (assignmentCount (pattern.set cs 0) ranges)]
        · exact Nat.mul_comm _ _
        · intro i hi
          have hconst := negativePositions_set_const pattern cs (i : Int) 0 hfind (by omega) le_rfl
          show (invocations i).length = _
          rw [(hrec i hi).2.2]
          unfold assignmentCount
          rw [hconst]

end PropertyExtractor


namespace PropertyExtractor

end PropertyExtractor


namespace PropertyExtractor

/-- Two loops whose rounds agree give the same result. -/
theorem calculateLoop_congr (first second : Int → Int → Except Failure (List (Index × Int)))
    (isSumIndex : Bool) (offsetMultiplier : Int) :
    ∀ (rounds : Nat) (n currentOffset : Int),
      (∀ i : Nat, i < rounds →
        first (n + i) ((advanceOffset isSumIndex offsetMultiplier)^[i] currentOffset)
          = second (n + i) ((advanceOffset isSumIndex offsetMultiplier)^[i] currentOffset)) →
      calculateLoop first isSumIndex offsetMultiplier rounds n currentOffset
        = calculateLoop second isSumIndex offsetMultiplier rounds n currentOffset := by
  intro rounds
  induction rounds with
  | zero => intro n currentOffset _; rfl
  | succ rounds ih =>
    intro n currentOffset h
    have hfirst := h 0 (by omega)
    simp only [Nat.cast_zero, add_zero, Function.iterate_zero, id_eq] at hfirst
    have hrest := ih (n + 1) (advanceOffset isSumIndex offsetMultiplier currentOffset)
      (fun i hi => by
        have := h (i + 1) (by omega)
        rw [Function.iterate_succ_apply] at this
        push_cast at this
        have hn : n + 1 + (i : Int) = n + ((i : Int) + 1) := by ring
        rw [hn]
        exact this)
    simp only [calculateLoop, hfirst, hrest]

/-- There are at most as many negative positions as the pattern has
components. -/
theorem negativePositions_length_le (pattern : Index) :
    (negativePositions pattern).length ≤ pattern.length := by
  unfold negativePositions
  have := List.length_filter_le (fun k => decide (pattern.getD k 0 < 0)) (List.range pattern.length)
  rw [List.length_range] at this
  exact this

/-- The bound on the depth of the recursion does not matter once it is at
least the number of negative positions of the pattern: every level of the
recursion fixes one of them. -/
theorem calculateFuel_fuel (IDX_SUM_ALL : Int) (ranges : Index) :
    ∀ (fuel other : Nat) (pattern : Index) (currentOffset offsetMultiplier : Int),
      (negativePositions pattern).length ≤ fuel →
      (negativePositions pattern).length ≤ other →
      calculateFuel IDX_SUM_ALL ranges fuel pattern currentOffset offsetMultiplier
        = calculateFuel IDX_SUM_ALL ranges other pattern currentOffset offsetMultiplier := by
  intro fuel
  induction fuel with
  | zero =>
    intro other pattern c m hfuel _
    have hnil : negativePositions pattern = [] := List.length_eq_zero.mp (by omega)
    have hfind := findSubindex_of_negativePositions_nil pattern hnil
    rw [calculateFuel_none _ _ _ _ _ _ hfind, calculateFuel_none _ _ _ _ _ _ hfind]
  | succ fuel ih =>
    intro other pattern c m hfuel hother
    cases hfind : findSubindex pattern pattern.length with
    | none => rw [calculateFuel_none _ _ _ _ _ _ hfind, calculateFuel_none _ _ _ _ _ _ hfind]
    | some cs =>
      cases other with
      | zero =>
        have hnil : negativePositions pattern = [] := List.length_eq_zero.mp (by omega)
        rw [findSubindex_of_negativePositions_nil pattern hnil] at hfind
        cases hfind
      | succ other =>
        simp only [calculateFuel, hfind]
        cases Index.at ranges cs with
        | error failure => rfl
        | ok range =>
          simp only []
          apply calculateLoop_congr
          intro i _
          have hlength := negativePositions_length_set pattern cs (i : Int) hfind (by omega)
          rw [zero_add]
          exact ih other _ _ _ (by omega) (by omega)

/-- The count of the assignments is the product of the ranges when none of
them is negative. -/
theorem prod_toNat_cast (ranges : Index) (positions : List Nat)
    (hranges : ∀ k, k ∈ positions → 0 ≤ ranges.getD k 0) :
    (((positions.map fun k => (ranges.getD k 0).toNat).prod : Nat) : Int)
      = (positions.map fun k => ranges.getD k 0).prod := by
  induction positions with
  | nil => simp
  | cons k rest ih =>
    simp only [List.map_cons, List.prod_cons]
    rw [Nat.cast_mul, ih (fun j hj => hranges j (List.mem_cons_of_mem _ hj)),
      Int.toNat_of_nonneg (hranges k (List.mem_cons_self _ _))]

/-- A loop position is a negative position of the pattern, the flag being at
most zero. -/
theorem mem_loopPositions (IDX_SUM_ALL : Int) (pattern : Index) (k : Nat) :
    k ∈ loopPositions IDX_SUM_ALL pattern ↔
      k < pattern.length ∧ pattern.getD k 0 < IDX_SUM_ALL := by
  simp [loopPositions, List.mem_filter]

end PropertyExtractor


namespace PropertyExtractor

/-- C22 (amended): for every pattern and every ranges with at least as many
components as the pattern, `calculate` returns, and its invocations of the
callback are exactly the assignments for the pattern, each once: the index
of an invocation has the length of the pattern, the value of the pattern at
every non-negative position and a value `n_k` with `0 <= n_k < ranges[k]` at
every negative position `k`. The number of invocations is the product of
`max(ranges[k], 0)` over the negative positions, which is the product of
`ranges[k]` when no range at a negative position is negative; a pattern
without negative entry gives exactly one invocation, with the unchanged
pattern and offset. -/
theorem calculate_invocations (IDX_SUM_ALL : Int) (pattern ranges : Index)
    (currentOffset offsetMultiplier : Int) (hlength : pattern.length ≤ ranges.length) :
    ∃ result,
      calculate IDX_SUM_ALL pattern ranges currentOffset offsetMultiplier = Except.ok result ∧
      (result.map Prod.fst).Nodup ∧
      (∀ index, index ∈ result.map Prod.fst ↔ isAssignment pattern ranges index) ∧
      result.length = assignmentCount pattern ranges ∧
      ((∀ k, k ∈ negativePositions pattern → 0 ≤ ranges.getD k 0) →
        (result.length : Int) = rangesProduct pattern ranges) ∧
      (negativePositions pattern = [] → result = [(pattern, currentOffset)]) := by
  obtain ⟨result, hresult⟩ :=
    calculateFuel_ok IDX_SUM_ALL ranges pattern.length pattern currentOffset offsetMultiplier
      hlength
  obtain ⟨hnodup, hmem, hcount⟩ :=
    calculateFuel_assignments IDX_SUM_ALL ranges pattern.length pattern currentOffset
      offsetMultiplier result (negativePositions_length_le pattern) hresult
  refine ⟨result, hresult, hnodup, hmem, hcount, ?_, ?_⟩
  · intro hranges
    rw [hcount]
    exact prod_toNat_cast ranges (negativePositions pattern) hranges
  · intro hnil
    have hnone := calculateFuel_none IDX_SUM_ALL ranges pattern.length pattern currentOffset
      offsetMultiplier (findSubindex_of_negativePositions_nil pattern hnil)
    rw [hnone] at hresult
    cases hresult
    rfl

/-- The claim C22 at a pattern with two loop positions and one summed
position: twelve invocations. -/
theorem calculate_invocations_witness :
    ([-3, 7, -2, -4] : Index).length ≤ ([2, 9, 2, 3] : Index).length ∧
    ∃ result,
      calculate (-2) [-3, 7, -2, -4] [2, 9, 2, 3] 100 10 = Except.ok result ∧
      (result.map Prod.fst).Nodup ∧
      (∀ index, index ∈ result.map Prod.fst ↔
        isAssignment [-3, 7, -2, -4] [2, 9, 2, 3] index) ∧
      result.length = 12 :=
  ⟨by decide, by
    obtain ⟨result, hresult, hnodup, hmem, hcount, _⟩ :=
      calculate_invocations (-2) [-3, 7, -2, -4] [2, 9, 2, 3] 100 10 (by decide)
    exact ⟨result, hresult, hnodup, hmem, by rw [hcount]; decide⟩⟩

/-- The count of C22 as it was stated fails for negative ranges: with the
ranges `-1` and `-1` at two negative positions the loop has no round and the
callback is never invoked, while the product of the ranges is 1. -/
theorem calculate_invocations_counterexample :
    ([-3, -3] : Index).length ≤ ([-1, -1] : Index).length ∧
    calculate (-2) [-3, -3] [-1, -1] 0 1 = Except.ok [] ∧
    rangesProduct [-3, -3] [-1, -1] = 1 ∧
    (([] : List (Index × Int)).length : Int) ≠ rangesProduct [-3, -3] [-1, -1] :=
  ⟨by decide, rfl, by decide, by decide⟩

end PropertyExtractor


namespace PropertyExtractor

/-- The value the first loop leaves in `*lDimensions`: the count it started
with plus the number of listed positions whose component of the pattern is
smaller than `IDX_SUM_ALL`. -/
theorem countLoopDimensions_value (IDX_SUM_ALL : Int) (pattern : Index) (positions : List Nat) :
    ∀ (lDimensions : Int), (∀ n, n ∈ positions → n < pattern.length) →
      countLoopDimensions IDX_SUM_ALL pattern positions lDimensions
        = Except.ok (lDimensions
            + ((positions.filter fun n => decide (pattern.getD n 0 < IDX_SUM_ALL)).length
                : Nat)) := by
  induction positions with
  | nil => intro lDimensions _; simp [countLoopDimensions]
  | cons n rest ih =>
    intro lDimensions h
    simp only [countLoopDimensions]
    rw [Index_at_ok pattern n (h n (by simp))]
    simp only []
    rw [ih _ (fun m hm => h m (List.mem_cons_of_mem _ hm))]
    by_cases hn : pattern.getD n 0 < IDX_SUM_ALL
    · rw [if_pos hn, List.filter_cons_of_pos (by simpa using hn), List.length_cons]
      push_cast
      congr 1
      ring
    · rw [if_neg hn, List.filter_cons_of_neg (by simpa using hn)]

/-- The values the second loop leaves in `*lRanges`: those it started with,
then the component of `ranges` at every listed position whose component of
the pattern is smaller than `IDX_SUM_ALL`, in the order of the list. -/
theorem collectLoopRanges_value (IDX_SUM_ALL : Int) (pattern ranges : Index)
    (positions : List Nat) :
    ∀ (lRanges : List Int),
      (∀ n, n ∈ positions → n < pattern.length ∧ n < ranges.length) →
      collectLoopRanges IDX_SUM_ALL pattern ranges positions lRanges
        = Except.ok (lRanges
            ++ (positions.filter fun n => decide (pattern.getD n 0 < IDX_SUM_ALL)).map
                fun n => ranges.getD n 0) := by
  induction positions with
  | nil => intro lRanges _; simp [collectLoopRanges]
  | cons n rest ih =>
    intro lRanges h
    simp only [collectLoopRanges]
    rw [Index_at_ok pattern n (h n (by simp)).1]
    simp only []
    by_cases hn : pattern.getD n 0 < IDX_SUM_ALL
    · rw [if_pos hn, Index_at_ok ranges n (h n (by simp)).2]
      simp only []
      rw [ih _ (fun m hm => h m (List.mem_cons_of_mem _ hm)),
        List.filter_cons_of_pos (by simpa using hn), List.map_cons, List.append_assoc,
        List.singleton_append]
    · rw [if_neg hn, ih _ (fun m hm => h m (List.mem_cons_of_mem _ hm)),
        List.filter_cons_of_neg (by simpa using hn)]

/-- C24: for a pattern and ranges with the same number of components,
`getLoopRanges` returns, leaves in `*lDimensions` the number of positions `n`
with `pattern[n] < IDX_SUM_ALL` and in `*lRanges` the components `ranges[n]`
at exactly those positions, in increasing order of `n`. Summed positions
(`IDX_SUM_ALL`) are left out, and so are the fixed (non-negative) ones, the
flag being at most zero. -/
theorem getLoopRanges_values (IDX_SUM_ALL : Int) (pattern ranges : Index)
    (hlength : pattern.length = ranges.length) :
    getLoopRanges IDX_SUM_ALL pattern ranges
      = Except.ok (((loopPositions IDX_SUM_ALL pattern).length : Int),
          (loopPositions IDX_SUM_ALL pattern).map fun n => ranges.getD n 0) ∧
    (loopPositions IDX_SUM_ALL pattern).Pairwise (fun first second => first < second) ∧
    (∀ n, n ∈ loopPositions IDX_SUM_ALL pattern ↔
      n < pattern.length ∧ pattern.getD n 0 < IDX_SUM_ALL) ∧
    (∀ n, pattern.getD n 0 = IDX_SUM_ALL → n ∉ loopPositions IDX_SUM_ALL pattern) ∧
    (IDX_SUM_ALL ≤ 0 → ∀ n, 0 ≤ pattern.getD n 0 → n ∉ loopPositions IDX_SUM_ALL pattern) := by
  have hpositions : ∀ n, n ∈ List.range ranges.length →
      n < pattern.length ∧ n < ranges.length := by
    intro n hn
    have := List.mem_range.mp hn
    omega
  refine ⟨?_, ?_, mem_loopPositions IDX_SUM_ALL pattern, ?_, ?_⟩
  · unfold getLoopRanges
    rw [countLoopDimensions_value IDX_SUM_ALL pattern _ 0 (fun n hn => (hpositions n hn).1),
      collectLoopRanges_value IDX_SUM_ALL pattern ranges _ [] hpositions]
    simp only [loopPositions, hlength, zero_add, List.nil_append]
  · exact List.Pairwise.filter _ (List.pairwise_lt_range _)
  · intro n hn hmem
    have := ((mem_loopPositions IDX_SUM_ALL pattern n).mp hmem).2
    omega
  · intro hflag n hn hmem
    have := ((mem_loopPositions IDX_SUM_ALL pattern n).mp hmem).2
    omega

/-- The claim C24 at a pattern with a loop position, a fixed position, a
summed position and a second loop position. -/
theorem getLoopRanges_values_witness :
    ([-3, 7, -2, -4] : Index).length = ([2, 9, 2, 3] : Index).length ∧
    getLoopRanges (-2) [-3, 7, -2, -4] [2, 9, 2, 3] = Except.ok (2, [2, 3]) :=
  ⟨by decide, (getLoopRanges_values (-2) [-3, 7, -2, -4] [2, 9, 2, 3] (by decide)).1⟩

end PropertyExtractor


/-! ## The mesh of the Wigner-Seitz cell -/

namespace WignerSeitzCell

/-- The loop of the initializer-list constructor stores one vector for every
listed position. -/
theorem padInitializerList_length (dimensions : Nat) (basisVectors : List (List ℚ))
    (positions : List Nat) :
    ∀ (stored result : List (List ℚ)),
      padInitializerList dimensions basisVectors positions stored = Except.ok result →
      result.length = stored.length + positions.length := by
  induction positions with
  | nil =>
    intro stored result h
    simp only [padInitializerList, Except.ok.injEq] at h
    subst h
    simp
  | cons n rest ih =>
    intro stored result h
    simp only [padInitializerList, TBTKAssert] at h
    by_cases hn : (basisVectors.getD n []).length = dimensions
    · simp only [hn, decide_True, if_true] at h
      have := ih _ _ h
      simp only [List.length_append, List.length_cons, List.length_nil] at this ⊢
      omega
    · simp only [hn, decide_False, Bool.false_eq_true, if_false, TBTKExit] at h
      cases h

/-- The vector constructor does what the initializer-list constructor does. -/
theorem ofVector_eq (basisVectors : List (List ℚ)) :
    ofVector basisVectors = ofInitializerList basisVectors := by
  dsimp only [ofVector, ofInitializerList]
  rw [padVector_eq basisVectors.length basisVectors (List.range basisVectors.length) []
    (fun n hn => List.mem_range.mp hn)]

/-- A cell that a constructor has returned: its dimension is the number of
basis vectors given, which is 1, 2 or 3, and it holds three basis vectors. -/
theorem constructed_cell (basisVectors : List (List ℚ)) (cell : WignerSeitzCell)
    (hcell : ofInitializerList basisVectors = Except.ok cell ∨
      ofVector basisVectors = Except.ok cell) :
    cell.dimensions = basisVectors.length ∧
    (basisVectors.length = 1 ∨ basisVectors.length = 2 ∨ basisVectors.length = 3) ∧
    cell.basisVectors.length = 3 := by
  have hconstructed : ofInitializerList basisVectors = Except.ok cell := by
    rcases hcell with h | h
    · exact h
    · rw [← ofVector_eq]; exact h
  unfold ofInitializerList at hconstructed
  simp only [TBTKAssert] at hconstructed
  by_cases hdimensions :
      basisVectors.length = 1 ∨ basisVectors.length = 2 ∨ basisVectors.length = 3
  · have hexpression : (decide (basisVectors.length = 1) || decide (basisVectors.length = 2)
        || decide (basisVectors.length = 3)) = true := by
      rcases hdimensions with h | h | h <;> simp [h]
    rw [hexpression] at hconstructed
    simp only [if_true] at hconstructed
    cases hpad : padInitializerList basisVectors.length basisVectors
        (List.range basisVectors.length) [] with
    | error failure => rw [hpad] at hconstructed; cases hconstructed
    | ok stored =>
      rw [hpad] at hconstructed
      simp only [Except.ok.injEq] at hconstructed
      subst hconstructed
      have hstored := padInitializerList_length _ _ _ _ _ hpad
      simp only [List.length_nil, List.length_range, zero_add] at hstored
      refine ⟨rfl, hdimensions, ?_⟩
      simp only [List.length_append, completion, List.length_map, List.length_range', hstored]
      omega
  · have hexpression : (decide (basisVectors.length = 1) || decide (basisVectors.length = 2)
        || decide (basisVectors.length = 3)) = false := by
      simp only [not_or] at hdimensions
      simp [hdimensions.1, hdimensions.2.1, hdimensions.2.2]
    rw [hexpression] at hconstructed
    simp only [Bool.false_eq_true, if_false, TBTKExit] at hconstructed
    cases hconstructed

/-- The switch over the dimension does not exit for a dimension of 1, 2 or 3
and three stored basis vectors. -/
theorem additionalCorners_ok (operations : Vector3dOperations) (cell : WignerSeitzCell)
    (hdimensions : cell.dimensions = 1 ∨ cell.dimensions = 2 ∨ cell.dimensions = 3)
    (hstored : cell.basisVectors.length = 3) :
    ∃ corners, additionalCorners operations cell = Except.ok corners := by
  have h0 := vectorAt_ok cell.basisVectors 0 [] (by omega)
  have h1 := vectorAt_ok cell.basisVectors 1 [] (by omega)
  have h2 := vectorAt_ok cell.basisVectors 2 [] (by omega)
  unfold additionalCorners
  rcases hdimensions with h | h | h <;> rw [h] <;> simp only [h0, h1, h2] <;>
    exact ⟨_, rfl⟩

theorem stepX_ok (operations : Vector3dOperations) (cell : WignerSeitzCell) (nmp0 : Nat)
    (hstored : cell.basisVectors.length = 3) :
    ∃ step, stepX operations cell nmp0 = Except.ok step := by
  have h0 := vectorAt_ok cell.basisVectors 0 [] (by omega)
  unfold stepX
  split
  · exact ⟨_, rfl⟩
  · simp only [h0]
    exact ⟨_, rfl⟩

theorem stepY_ok (operations : Vector3dOperations) (cell : WignerSeitzCell) (nmp1 : Nat)
    (hstored : cell.basisVectors.length = 3) :
    ∃ step, stepY operations cell nmp1 = Except.ok step := by
  have h0 := vectorAt_ok cell.basisVectors 0 [] (by omega)
  have h1 := vectorAt_ok cell.basisVectors 1 [] (by omega)
  unfold stepY
  split
  · exact ⟨_, rfl⟩
  · simp only [h0, h1]
    exact ⟨_, rfl⟩

theorem stepZ_ok (operations : Vector3dOperations) (cell : WignerSeitzCell) (nmp2 : Nat)
    (hstored : cell.basisVectors.length = 3) :
    ∃ step, stepZ operations cell nmp2 = Except.ok step := by
  have h0 := vectorAt_ok cell.basisVectors 0 [] (by omega)
  have h1 := vectorAt_ok cell.basisVectors 1 [] (by omega)
  have h2 := vectorAt_ok cell.basisVectors 2 [] (by omega)
  unfold stepZ
  split
  · exact ⟨_, rfl⟩
  · simp only [h0, h1, h2]
    exact ⟨_, rfl⟩

/-- The switch over the number of components of `numMeshPoints` does not exit
for 1, 2 or 3 components, and pushes a point with as many coordinates. -/
theorem meshPoint_ok (operations : Vector3dOperations) (size : Nat) (v0 v1 v2 : List ℚ)
    (hsize : size = 1 ∨ size = 2 ∨ size = 3) :
    ∃ point, meshPoint operations size v0 v1 v2 = Except.ok point ∧ point.length = size := by
  rcases hsize with h | h | h <;> subst h <;> exact ⟨_, rfl, rfl⟩

/-- The innermost loop returns, with at most one point more for every round,
each with as many coordinates as `numMeshPoints` has components. -/
theorem loopZ_ok (operations : Vector3dOperations) (ROUNDOFF_MARGIN_MULTIPLIER : ℚ)
    (setup : MeshSetup) (hsize : setup.size = 1 ∨ setup.size = 2 ∨ setup.size = 3)
    (v0 v1 shiftZ : List ℚ) (positions : List Nat) :
    ∀ (mesh : List (List ℚ)),
      ∃ added,
        loopZ operations ROUNDOFF_MARGIN_MULTIPLIER setup v0 v1 shiftZ positions mesh
          = Except.ok (mesh ++ added) ∧
        added.length ≤ positions.length ∧
        ∀ point, point ∈ added → point.length = setup.size := by
  induction positions with
  | nil => intro mesh; exact ⟨[], by simp [loopZ], by simp, by simp⟩
  | cons z rest ih =>
    intro mesh
    simp only [loopZ]
    split
    · obtain ⟨point, hpoint, hlength⟩ := meshPoint_ok operations setup.size v0 v1
        (meshVector operations setup.nmp2 setup.stepZ z (some shiftZ)) hsize
      rw [hpoint]
      simp only []
      obtain ⟨added, hloop, hcount, hpoints⟩ := ih (mesh ++ [point])
      refine ⟨point :: added, ?_, ?_, ?_⟩
      · rw [hloop, List.append_assoc, List.singleton_append]
      · simp only [List.length_cons]; omega
      · intro other hother
        rcases List.mem_cons.mp hother with h | h
        · rw [h]; exact hlength
        · exact hpoints other h
    · obtain ⟨added, hloop, hcount, hpoints⟩ := ih mesh
      exact ⟨added, hloop, by simp only [List.length_cons]; omega, hpoints⟩

/-- The middle loop returns, with at most `nmp[2]` points more for every
round. -/
theorem loopY_ok (operations : Vector3dOperations) (ROUNDOFF_MARGIN_MULTIPLIER : ℚ)
    (setup : MeshSetup) (hsize : setup.size = 1 ∨ setup.size = 2 ∨ setup.size = 3)
    (v0 shiftY : List ℚ) (positions : List Nat) :
    ∀ (mesh : List (List ℚ)),
      ∃ added,
        loopY operations ROUNDOFF_MARGIN_MULTIPLIER setup v0 shiftY positions mesh
          = Except.ok (mesh ++ added) ∧
        added.length ≤ positions.length * setup.nmp2 ∧
        ∀ point, point ∈ added → point.length = setup.size := by
  induction positions with
  | nil => intro mesh; exact ⟨[], by simp [loopY], by simp, by simp⟩
  | cons y rest ih =>
    intro mesh
    simp only [loopY]
    obtain ⟨inner, hinner, hinnerCount, hinnerPoints⟩ :=
      loopZ_ok operations ROUNDOFF_MARGIN_MULTIPLIER setup hsize v0
        (meshVector operations setup.nmp1 setup.stepY y (some shiftY))
        (operations.times setup.shiftUnitZ
          (operations.dotProduct
            (operations.add v0 (meshVector operations setup.nmp1 setup.stepY y (some shiftY)))
            setup.shiftProjectorZ))
        (List.range setup.nmp2) mesh
    rw [hinner]
    simp only []
    obtain ⟨added, hloop, hcount, hpoints⟩ := ih (mesh ++ inner)
    refine ⟨inner ++ added, ?_, ?_, ?_⟩
    · rw [hloop, List.append_assoc]
    · rw [List.length_range] at hinnerCount
      simp only [List.length_append, List.length_cons, Nat.add_mul, Nat.one_mul]
      omega
    · intro other hother
      rcases List.mem_append.mp hother with h | h
      · exact hinnerPoints other h
      · exact hpoints other h

/-- The outer loop returns, with at most `nmp[1] * nmp[2]` points more for
every round. -/
theorem loopX_ok (operations : Vector3dOperations) (ROUNDOFF_MARGIN_MULTIPLIER : ℚ)
    (setup : MeshSetup) (hsize : setup.size = 1 ∨ setup.size = 2 ∨ setup.size = 3)
    (positions : List Nat) :
    ∀ (mesh : List (List ℚ)),
      ∃ added,
        loopX operations ROUNDOFF_MARGIN_MULTIPLIER setup positions mesh
          = Except.ok (mesh ++ added) ∧
        added.length ≤ positions.length * (setup.nmp1 * setup.nmp2) ∧
        ∀ point, point ∈ added → point.length = setup.size := by
  induction positions with
  | nil => intro mesh; exact ⟨[], by simp [loopX], by simp, by simp⟩
  | cons x rest ih =>
    intro mesh
    simp only [loopX]
    obtain ⟨inner, hinner, hinnerCount, hinnerPoints⟩ :=
      loopY_ok operations ROUNDOFF_MARGIN_MULTIPLIER setup hsize
        (meshVector operations setup.nmp0 setup.stepX x none)
        (operations.times setup.shiftUnitY
          (operations.dotProduct (meshVector operations setup.nmp0 setup.stepX x none)
            setup.shiftProjectorY))
        (List.range setup.nmp1) mesh
    rw [hinner]
    simp only []
    obtain ⟨added, hloop, hcount, hpoints⟩ := ih (mesh ++ inner)
    refine ⟨inner ++ added, ?_, ?_, ?_⟩
    · rw [hloop, List.append_assoc]
    · rw [List.length_range] at hinnerCount
      simp only [List.length_append, List.length_cons, Nat.add_mul, Nat.one_mul]
      omega
    · intro other hother
      rcases List.mem_append.mp hother with h | h
      · exact hinnerPoints other h
      · exact hpoints other h

end WignerSeitzCell


namespace WignerSeitzCell

/-- A step that returns hands its value to the steps after it. -/
theorem bind_ok {ε α β : Type} (value : α) (rest : α → Except ε β) :
    (Except.ok value >>= rest) = rest value :=
  rfl

/-- For a dimension of 1, 2 or 3, three stored basis vectors and as many
components of `numMeshPoints` as the dimension, `getMesh` passes its assertion
and the switch over the dimension and is the run of its loops. -/
theorem getMesh_eq_loopX {MeshType : Type} (operations : Vector3dOperations)
    (ROUNDOFF_MARGIN_MULTIPLIER : ℚ) (cell : WignerSeitzCell) (numMeshPoints : List Nat)
    (meshType : MeshType)
    (hdimensions : cell.dimensions = 1 ∨ cell.dimensions = 2 ∨ cell.dimensions = 3)
    (hstored : cell.basisVectors.length = 3)
    (hsize : numMeshPoints.length = cell.dimensions) :
    ∃ setup : MeshSetup,
      getMesh operations ROUNDOFF_MARGIN_MULTIPLIER cell numMeshPoints meshType
        = loopX operations ROUNDOFF_MARGIN_MULTIPLIER setup (List.range setup.nmp0) [] ∧
      setup.size = numMeshPoints.length ∧
      setup.nmp0 = numMeshPoints.getD 0 0 ∧
      setup.nmp1 = (if numMeshPoints.length > 1 then numMeshPoints.getD 1 0 else 1) ∧
      setup.nmp2 = (if numMeshPoints.length > 2 then numMeshPoints.getD 2 0 else 1) := by
  obtain ⟨corners, hcorners⟩ := additionalCorners_ok operations cell hdimensions hstored
  obtain ⟨first, hfirst⟩ := stepX_ok operations cell (numMeshPoints.getD 0 0) hstored
  obtain ⟨second, hsecond⟩ := stepY_ok operations cell
    (if numMeshPoints.length > 1 then numMeshPoints.getD 1 0 else 1) hstored
  obtain ⟨third, hthird⟩ := stepZ_ok operations cell
    (if numMeshPoints.length > 2 then numMeshPoints.getD 2 0 else 1) hstored
  have h0 := vectorAt_ok cell.basisVectors 0 [] (by omega)
  have h1 := vectorAt_ok cell.basisVectors 1 [] (by omega)
  have h2 := vectorAt_ok cell.basisVectors 2 [] (by omega)
  have hassert : decide (numMeshPoints.length = cell.dimensions) = true :=
    decide_eq_true hsize
  unfold getMesh
  simp only [TBTKAssert, hassert, if_true, hcorners, hfirst, hsecond, hthird, h0, h1, h2,
    bind_ok]
  exact ⟨_, rfl, rfl, rfl, rfl, rfl⟩

/-- The product of the components of `numMeshPoints`, of which there are one,
two or three, is the number of rounds of the three loops. -/
theorem numMeshPoints_prod (numMeshPoints : List Nat)
    (hsize : numMeshPoints.length = 1 ∨ numMeshPoints.length = 2 ∨ numMeshPoints.length = 3) :
    numMeshPoints.getD 0 0
        * ((if numMeshPoints.length > 1 then numMeshPoints.getD 1 0 else 1)
          * (if numMeshPoints.length > 2 then numMeshPoints.getD 2 0 else 1))
      = numMeshPoints.prod := by
  rcases numMeshPoints with _ | ⟨a, _ | ⟨b, _ | ⟨c, _ | ⟨d, rest⟩⟩⟩⟩
  · simp at hsize
  · simp
  · simp
  · simp [Nat.mul_assoc]
  · simp at hsize

/-- C21: for every cell that a constructor of `WignerSeitzCell` has returned
and every `numMeshPoints` with as many components as the cell has basis
vectors, `getMesh` returns a mesh, so that it reaches neither of its
'This should never happed' exits; every point of the mesh has exactly as many
coordinates as the cell has basis vectors, and the mesh has at most as many
points as the product of the components of `numMeshPoints`. -/
theorem getMesh_points {MeshType : Type} (operations : Vector3dOperations)
    (ROUNDOFF_MARGIN_MULTIPLIER : ℚ) (basisVectors : List (List ℚ)) (cell : WignerSeitzCell)
    (numMeshPoints : List Nat) (meshType : MeshType)
    (hcell : ofInitializerList basisVectors = Except.ok cell ∨
      ofVector basisVectors = Except.ok cell)
    (hsize : numMeshPoints.length = basisVectors.length) :
    getMesh operations ROUNDOFF_MARGIN_MULTIPLIER cell numMeshPoints meshType
      ≠ Except.error (Failure.exit "Parallelepiped::getMesh()" "This should never happed.") ∧
    ∃ mesh,
      getMesh operations ROUNDOFF_MARGIN_MULTIPLIER cell numMeshPoints meshType
        = Except.ok mesh ∧
      (∀ point, point ∈ mesh → point.length = basisVectors.length) ∧
      mesh.length ≤ numMeshPoints.prod := by
  obtain ⟨hdimension, hsupported, hstored⟩ := constructed_cell basisVectors cell hcell
  obtain ⟨setup, hmesh, hsetup, hnmp0, hnmp1, hnmp2⟩ :=
    getMesh_eq_loopX operations ROUNDOFF_MARGIN_MULTIPLIER cell numMeshPoints meshType
      (by omega) hstored (by omega)
  obtain ⟨added, hloop, hcount, hpoints⟩ :=
    loopX_ok operations ROUNDOFF_MARGIN_MULTIPLIER setup (by omega) (List.range setup.nmp0) []
  rw [List.nil_append] at hloop
  rw [hmesh, hloop]
  refine ⟨fun h => Except.noConfusion h, added, rfl, ?_, ?_⟩
  · intro point hpoint
    rw [hpoints point hpoint]
    omega
  · rw [List.length_range, hnmp0, hnmp1, hnmp2, numMeshPoints_prod numMeshPoints (by omega)]
      at hcount
    exact hcount

/-- The claim C21 at the square cell with two mesh points along each basis
vector. -/
theorem getMesh_points_witness :
    ofInitializerList [[1, 0], [0, 1]] = Except.ok squareCell ∧
    ([2, 2] : List Nat).length = ([[1, 0], [0, 1]] : List (List ℚ)).length ∧
    ∃ mesh,
      getMesh taxicab (1 + 1e-6) squareCell [2, 2] () = Except.ok mesh ∧
      (∀ point, point ∈ mesh → point.length = 2) ∧
      mesh.length ≤ 4 :=
  have hcell : ofInitializerList [[1, 0], [0, 1]] = Except.ok squareCell := by
    simp [ofInitializerList, TBTKAssert, padInitializerList, paddedBasisVector, completion,
      List.range, List.range.loop, List.range', squareCell]
  ⟨hcell, rfl,
    (getMesh_points taxicab (1 + 1e-6) [[1, 0], [0, 1]] squareCell [2, 2] () (Or.inl hcell)
      rfl).2⟩

end WignerSeitzCell

end TBTK
